import Mathlib

/-!
# Verification of the IMM-UKF-PDA tracker core (`imm_ukf_pda.cpp`)

The C++ class `ImmUkfPda` is embedded as pure functions on explicit state.

* A `double` is an element of a linearly ordered field `R` (exact arithmetic);
  concrete evaluations instantiate `R` with `ℚ`.
* `std::vector` is `List`; `v[i]` on a `std::vector<bool>` is `List.getD v i false`
  and `v[i] = true` is `List.set v i true`.
* `int` members (`tracking_num_`, `lifetime_`, `ukf_id_`, `target_id_`) are `Int`.
* Library functions (`sqrt`, `exp`, `pow`, `atan2`, `std::isnan`, `M_PI`,
  `std::numeric_limits<double>::max()`, tf's `getRPY`) and the methods of class
  `UKF` whose bodies are not in this file are fields of `Env`.
* ROS headers and the publishing of markers carry no tracker state and are left out.
-/

/-- The `enum TrackingState : int` of the source. -/
abbrev TrackingState.Die : Int := 0

/-- Start tracking. -/
abbrev TrackingState.Init : Int := 1

/-- Stable tracking. -/
abbrev TrackingState.Stable : Int := 4

/-- About to lose target. -/
abbrev TrackingState.Lost : Int := 10

/-- The message `geometry_msgs::Point`. -/
structure geometry_msgs.Point (R : Type) where
  x : R
  y : R
  z : R

/-- The message `geometry_msgs::Quaternion`. -/
structure geometry_msgs.Quaternion (R : Type) where
  x : R
  y : R
  z : R
  w : R

/-- The message `geometry_msgs::Pose`. -/
structure geometry_msgs.Pose (R : Type) where
  position : geometry_msgs.Point R
  orientation : geometry_msgs.Quaternion R

/-- The message `geometry_msgs::Vector3`. -/
structure geometry_msgs.Vector3 (R : Type) where
  x : R
  y : R
  z : R

/-- The fields of `autoware_msgs::DetectedObject` the tracker reads or writes
(`velocity_linear_x` is `velocity.linear.x`). -/
structure autoware_msgs.DetectedObject (R : Type) where
  id : Int
  label : String
  pose : geometry_msgs.Pose R
  dimensions : geometry_msgs.Vector3 R
  velocity_linear_x : R
  velocity_linear_y : R

/-- The message `autoware_msgs::DetectedObjectArray`: `stamp` is `header.stamp.toSec()`. -/
structure autoware_msgs.DetectedObjectArray (R : Type) where
  stamp : R
  objects : List (autoware_msgs.DetectedObject R)

/-- The fields of `jsk_recognition_msgs::BoundingBox` the tracker reads or writes. -/
structure jsk_recognition_msgs.BoundingBox (R : Type) where
  pose : geometry_msgs.Pose R
  dimensions : geometry_msgs.Vector3 R
  label : Nat

/-- Modelled from the spec: the declaration of class `UKF` (ukf.h) is missing from the
sources. The members are those `imm_ukf_pda.cpp` accesses, with the dimensions of the
spec's data model (state 5, measurement 2); `other_` stands for the members this file
never touches. -/
structure UKF (R : Type) where
  ukf_id_ : Int
  tracking_num_ : Int
  lifetime_ : Int
  is_static_ : Bool
  is_vis_bb_ : Bool
  is_best_jsk_bb_empty_ : Bool
  x_merge_ : Fin 5 → R
  x_cv_ : Fin 5 → R
  x_ctrv_ : Fin 5 → R
  x_rm_ : Fin 5 → R
  p_merge_ : Matrix (Fin 5) (Fin 5) R
  p_cv_ : Matrix (Fin 5) (Fin 5) R
  p_ctrv_ : Matrix (Fin 5) (Fin 5) R
  p_rm_ : Matrix (Fin 5) (Fin 5) R
  z_pred_cv_ : Fin 2 → R
  z_pred_ctrv_ : Fin 2 → R
  z_pred_rm_ : Fin 2 → R
  s_cv_ : Matrix (Fin 2) (Fin 2) R
  s_ctrv_ : Matrix (Fin 2) (Fin 2) R
  s_rm_ : Matrix (Fin 2) (Fin 2) R
  k_cv_ : Matrix (Fin 5) (Fin 2) R
  k_ctrv_ : Matrix (Fin 5) (Fin 2) R
  k_rm_ : Matrix (Fin 5) (Fin 2) R
  mode_prob_cv_ : R
  mode_prob_ctrv_ : R
  mode_prob_rm_ : R
  init_meas_ : Fin 2 → R
  vel_history_ : List R
  dist_from_init_ : R
  jsk_bb_ : jsk_recognition_msgs.BoundingBox R
  best_jsk_bb_ : jsk_recognition_msgs.BoundingBox R
  best_yaw_ : R
  bb_area_ : R
  other_ : List R

/-- What the translation unit takes from outside: libm, `std::numeric_limits`, tf, and
the methods of class `UKF` defined in ukf.cpp (`initializeUKF m t id` is
`UKF ukf; ukf.initialize(m, t, id);`). -/
structure Env (R : Type) where
  sqrt : R → R
  exp : R → R
  pow : R → R → R
  atan2 : R → R → R
  M_PI : R
  dbl_max : R
  isnan : R → Bool
  getRPYyaw : geometry_msgs.Quaternion R → R
  initializeUKF : (Fin 2 → R) → R → Int → UKF R
  predictionIMMUKF : R → UKF R → UKF R
  updateIMMUKF : List R → UKF R → UKF R

/-- The data members of class `ImmUkfPda` that the tracker core uses. -/
structure ImmUkfPda (R : Type) where
  init_ : Bool
  target_id_ : Int
  timestamp_ : R
  targets_ : List (UKF R)
  life_time_thres_ : Int
  gating_thres_ : R
  gate_probability_ : R
  detection_probability_ : R
  distance_thres_ : R
  static_velocity_thres_ : R
  bb_yaw_change_thres_ : R

/-- The loop `for (size_t i = start; i < start + xs.size(); i++) s = body(i, xs[i - start], s)`. -/
def forLoop {α σ : Type} (body : Nat → α → σ → σ) : Nat → List α → σ → σ
  | _, [], s => s
  | i, x :: xs, s => forLoop body (i + 1) xs (body i x s)

/-- A default-constructed `autoware_msgs::DetectedObject` (all fields zero, empty label). -/
def autoware_msgs.DetectedObject.default {R : Type} [Zero R] : autoware_msgs.DetectedObject R :=
  { id := 0, label := "", pose := { position := { x := 0, y := 0, z := 0 },
                                    orientation := { x := 0, y := 0, z := 0, w := 0 } },
    dimensions := { x := 0, y := 0, z := 0 }, velocity_linear_x := 0, velocity_linear_y := 0 }

namespace ImmUkfPda

variable {R : Type} [LinearOrderedField R]

/-- Eigen's `m.inverse()` for an innovation covariance (2×2): adjugate over determinant.
This is the inverse when `det m ≠ 0`. For a singular `m` the division by the determinant is
not finite in the source, while here `0⁻¹ = 0`; the theorems about the gate therefore assume
`det ≠ 0` for the matrix they invert. -/
def inverse (m : Matrix (Fin 2) (Fin 2) R) : Matrix (Fin 2) (Fin 2) R :=
  (m.det)⁻¹ • m.adjugate

/-- `ImmUkfPda::findMaxZandS`: the out-parameters `(max_det_z, max_det_s)`. -/
def findMaxZandS (target : UKF R) : (Fin 2 → R) × Matrix (Fin 2) (Fin 2) R :=
  let cv_det := target.s_cv_.det
  let ctrv_det := target.s_ctrv_.det
  let rm_det := target.s_rm_.det
  if cv_det > ctrv_det then
    if cv_det > rm_det then (target.z_pred_cv_, target.s_cv_)
    else (target.z_pred_rm_, target.s_rm_)
  else
    if ctrv_det > rm_det then (target.z_pred_ctrv_, target.s_ctrv_)
    else (target.z_pred_rm_, target.s_rm_)

/-- The local `nis` of `measurementValidation` (lines 213-220):
`diff.transpose() * max_det_s.inverse() * diff` with `diff = (x, y) - max_det_z`. -/
def nis (max_det_z : Fin 2 → R) (max_det_s : Matrix (Fin 2) (Fin 2) R)
    (obj : autoware_msgs.DetectedObject R) : R :=
  let x := obj.pose.position.x
  let y := obj.pose.position.y
  let meas : Fin 2 → R := ![x, y]
  let diff := meas - max_det_z
  Matrix.dotProduct (Matrix.vecMul diff (inverse max_det_s)) diff

/-- The variables `measurementValidation` carries through its loop. -/
structure MeasurementValidationState (R : Type) where
  count : Int
  second_init_done : Bool
  smallest_nis : R
  smallest_meas_object : autoware_msgs.DetectedObject R
  target : UKF R
  object_vec : List (autoware_msgs.DetectedObject R)
  matching_vec : List Bool

/-- The body of the `for` loop of `measurementValidation` (lines 212-244) at index `i`. -/
def measurementValidationBody (self : ImmUkfPda R) (second_init : Bool)
    (max_det_z : Fin 2 → R) (max_det_s : Matrix (Fin 2) (Fin 2) R)
    (i : Nat) (obj : autoware_msgs.DetectedObject R)
    (st : MeasurementValidationState R) : MeasurementValidationState R :=
  let nis := nis max_det_z max_det_s obj
  if nis < self.gating_thres_ then
    let st1 := { st with count := st.count + 1 }
    let st2 :=
      if st1.matching_vec.getD i false = false then
        { st1 with target := { st1.target with lifetime_ := st1.target.lifetime_ + 1 } }
      else st1
    if second_init then
      if nis < st2.smallest_nis then
        { st2 with smallest_nis := nis, smallest_meas_object := obj,
                   matching_vec := st2.matching_vec.set i true, second_init_done := true }
      else st2
    else
      { st2 with object_vec := st2.object_vec ++ [obj],
                 matching_vec := st2.matching_vec.set i true }
  else st

/-- The by-reference results of `measurementValidation`. -/
structure MeasurementValidationOut (R : Type) where
  target : UKF R
  object_vec : List (autoware_msgs.DetectedObject R)
  matching_vec : List Bool

/-- The state of `measurementValidation` on entry to its loop (lines 207-210). -/
def measurementValidationInit (E : Env R) (target : UKF R)
    (object_vec : List (autoware_msgs.DetectedObject R)) (matching_vec : List Bool) :
    MeasurementValidationState R :=
  { count := 0, second_init_done := false, smallest_nis := E.dbl_max,
    smallest_meas_object := autoware_msgs.DetectedObject.default,
    target := target, object_vec := object_vec, matching_vec := matching_vec }

/-- `ImmUkfPda::measurementValidation`. -/
def measurementValidation (E : Env R) (self : ImmUkfPda R)
    (input : autoware_msgs.DetectedObjectArray R) (target : UKF R) (second_init : Bool)
    (max_det_z : Fin 2 → R) (max_det_s : Matrix (Fin 2) (Fin 2) R)
    (object_vec : List (autoware_msgs.DetectedObject R)) (matching_vec : List Bool) :
    MeasurementValidationOut R :=
  let st := forLoop (measurementValidationBody self second_init max_det_z max_det_s) 0
    input.objects (measurementValidationInit E target object_vec matching_vec)
  if st.second_init_done then
    { target := st.target, object_vec := st.object_vec ++ [st.smallest_meas_object],
      matching_vec := st.matching_vec }
  else
    { target := st.target, object_vec := st.object_vec, matching_vec := st.matching_vec }

/-- `while (a > M_PI) a -= 2. * M_PI;` cut off after `fuel` iterations. -/
def whileAbove (pi : R) : Nat → R → R
  | 0, a => a
  | fuel + 1, a => if a > pi then whileAbove pi fuel (a - 2 * pi) else a

/-- `while (a < -M_PI) a += 2. * M_PI;` cut off after `fuel` iterations. -/
def whileBelow (pi : R) : Nat → R → R
  | 0, a => a
  | fuel + 1, a => if a < -pi then whileBelow pi fuel (a + 2 * pi) else a

/-- The pair of yaw loops `while (a > M_PI) ...; while (a < -M_PI) ...;`. The fuel handed
to each loop is the number of iterations it makes when `M_PI > 0`
(see `whileAbove_exit`, `whileBelow_exit`). -/
def normalizeYaw [FloorRing R] (E : Env R) (a : R) : R :=
  let a1 := whileAbove E.M_PI ⌈(a - E.M_PI) / (2 * E.M_PI)⌉₊ a
  whileBelow E.M_PI ⌈(-E.M_PI - a1) / (2 * E.M_PI)⌉₊ a1

/-- What `filterPDA` computes for one of the three models: the members `x`, `p` it writes
back, and the locals `e_cv_sum`, `beta_cv_zero` and `beta_cv` (for CTRV and RM their
counterparts). -/
structure FilterPDAModel (R : Type) where
  x : Fin 5 → R
  p : Matrix (Fin 5) (Fin 5) R
  e_sum : R
  beta_zero : R
  beta : List R

/-- The part of `filterPDA` (lines 262-378) written out three times in the source, once
per model (`_cv`, `_ctrv`, `_rm`): association probabilities, combined innovation,
spread, and the update of `x` and `P`. -/
def filterPDAModel [FloorRing R] (E : Env R) (b num_meas : R)
    (object_vec : List (autoware_msgs.DetectedObject R))
    (z_pred : Fin 2 → R) (s : Matrix (Fin 2) (Fin 2) R) (k : Matrix (Fin 5) (Fin 2) R)
    (x : Fin 5 → R) (p : Matrix (Fin 5) (Fin 5) R) : FilterPDAModel R :=
  let diff_vec : List (Fin 2 → R) :=
    object_vec.map (fun o => ![o.pose.position.x, o.pose.position.y] - z_pred)
  let e_vec : List R :=
    diff_vec.map (fun diff =>
      E.exp (Matrix.dotProduct (Matrix.vecMul ((-(1 / 2) : R) • diff) (inverse s)) diff))
  let e_sum : R := e_vec.foldl (fun acc e => acc + e) 0
  let beta_zero : R := b / (b + e_sum)
  let beta : List R := e_vec.map (fun e => e / (b + e_sum))
  let sigma_x : Fin 2 → R :=
    (beta.zip diff_vec).foldl (fun acc bd => acc + bd.1 • bd.2) 0
  let sigma_p : Matrix (Fin 2) (Fin 2) R :=
    (beta.zip diff_vec).foldl
      (fun acc bd => acc + (Matrix.vecMulVec (bd.1 • bd.2) bd.2 - Matrix.vecMulVec sigma_x sigma_x)) 0
  let x1 : Fin 5 → R := x + k.mulVec sigma_x
  let x2 : Fin 5 → R := Function.update x1 3 (normalizeYaw E (x1 3))
  let p1 : Matrix (Fin 5) (Fin 5) R :=
    if num_meas ≠ 0 then
      beta_zero • p + (1 - beta_zero) • (p - k * s * k.transpose) + k * sigma_p * k.transpose
    else
      p - k * s * k.transpose
  { x := x2, p := p1, e_sum := e_sum, beta_zero := beta_zero, beta := beta }

/-- `ImmUkfPda::filterPDA`: the updated target and the extended `lambda_vec`. -/
def filterPDA [FloorRing R] (E : Env R) (self : ImmUkfPda R) (target : UKF R)
    (object_vec : List (autoware_msgs.DetectedObject R)) (lambda_vec : List R) :
    UKF R × List R :=
  let num_meas : R := (object_vec.length : R)
  let b : R := 2 * num_meas * (1 - self.detection_probability_ * self.gate_probability_) /
    (self.gating_thres_ * self.detection_probability_)
  let cv := filterPDAModel E b num_meas object_vec target.z_pred_cv_ target.s_cv_ target.k_cv_
    target.x_cv_ target.p_cv_
  let ctrv := filterPDAModel E b num_meas object_vec target.z_pred_ctrv_ target.s_ctrv_
    target.k_ctrv_ target.x_ctrv_ target.p_ctrv_
  let rm := filterPDAModel E b num_meas object_vec target.z_pred_rm_ target.s_rm_ target.k_rm_
    target.x_rm_ target.p_rm_
  let target1 : UKF R :=
    { target with x_cv_ := cv.x, x_ctrv_ := ctrv.x, x_rm_ := rm.x,
                  p_cv_ := cv.p, p_ctrv_ := ctrv.p, p_rm_ := rm.p }
  let max_det_s := (findMaxZandS target1).2
  let Vk : R := E.M_PI * E.sqrt (self.gating_thres_ * max_det_s.det)
  let lambda (e_sum : R) (s : Matrix (Fin 2) (Fin 2) R) : R :=
    if num_meas ≠ 0 then
      (1 - self.gate_probability_ * self.detection_probability_) / E.pow Vk num_meas +
        self.detection_probability_ * E.pow Vk (1 - num_meas) * e_sum /
          (num_meas * E.sqrt (2 * E.M_PI * s.det))
    else
      (1 - self.gate_probability_ * self.detection_probability_) / E.pow Vk num_meas
  let lambda_cv := lambda cv.e_sum target1.s_cv_
  let lambda_ctrv := lambda ctrv.e_sum target1.s_ctrv_
  let lambda_rm := lambda rm.e_sum target1.s_rm_
  (target1, lambda_vec ++ [lambda_cv, lambda_ctrv, lambda_rm])

/-- `ImmUkfPda::getNearestEuclidCluster`: the out-parameters `(object, min_dist)`; the loop
carries `(min_dist, min_ind)`. -/
def getNearestEuclidCluster (E : Env R) (target : UKF R)
    (object_vec : List (autoware_msgs.DetectedObject R)) (min_dist : R) :
    autoware_msgs.DetectedObject R × R :=
  let px := target.x_merge_ 0
  let py := target.x_merge_ 1
  let st : R × Nat :=
    forLoop
      (fun i (obj : autoware_msgs.DetectedObject R) (st : R × Nat) =>
        let meas_x := obj.pose.position.x
        let meas_y := obj.pose.position.y
        let dist := E.sqrt ((px - meas_x) * (px - meas_x) + (py - meas_y) * (py - meas_y))
        if dist < st.1 then (dist, i) else st)
      0 object_vec (min_dist, 0)
  (object_vec.getD st.2 autoware_msgs.DetectedObject.default, st.1)

/-- `ImmUkfPda::associateBB`. -/
def associateBB (E : Env R) (self : ImmUkfPda R)
    (object_vec : List (autoware_msgs.DetectedObject R)) (target : UKF R) : UKF R :=
  if object_vec.length = 0 then target
  else if target.tracking_num_ = TrackingState.Stable ∧ target.lifetime_ ≥ self.life_time_thres_ then
    let r := getNearestEuclidCluster E target object_vec E.dbl_max
    let nearest_object := r.1
    let min_dist := r.2
    if min_dist < self.distance_thres_ then
      { target with is_vis_bb_ := true,
                    jsk_bb_ := { target.jsk_bb_ with pose := nearest_object.pose,
                                                     dimensions := nearest_object.dimensions } }
    else target
  else target

/-- `ImmUkfPda::secondInit`. -/
def secondInit [FloorRing R] (E : Env R) (target : UKF R)
    (object_vec : List (autoware_msgs.DetectedObject R)) (dt : R) : UKF R :=
  match object_vec with
  | [] => { target with tracking_num_ := TrackingState.Die }
  | obj0 :: _ =>
    let init_meas : Fin 2 → R := ![target.x_merge_ 0, target.x_merge_ 1]
    let target_x := obj0.pose.position.x
    let target_y := obj0.pose.position.y
    let target_diff_x := target_x - target.x_merge_ 0
    let target_diff_y := target_y - target.x_merge_ 1
    let target_yaw := E.atan2 target_diff_y target_diff_x
    let dist := E.sqrt (target_diff_x * target_diff_x + target_diff_y * target_diff_y)
    let target_v := dist / dt
    let target_yaw := normalizeYaw E target_yaw
    let seed (x : Fin 5 → R) : Fin 5 → R :=
      Function.update (Function.update (Function.update (Function.update x 0 target_x)
        1 target_y) 2 target_v) 3 target_yaw
    { target with init_meas_ := init_meas,
                  x_merge_ := seed target.x_merge_, x_cv_ := seed target.x_cv_,
                  x_ctrv_ := seed target.x_ctrv_, x_rm_ := seed target.x_rm_,
                  tracking_num_ := target.tracking_num_ + 1 }

/-- `ImmUkfPda::updateTrackingNum`. -/
def updateTrackingNum (object_vec : List (autoware_msgs.DetectedObject R)) (target : UKF R) : UKF R :=
  if object_vec.length > 0 then
    if target.tracking_num_ < TrackingState.Stable then
      { target with tracking_num_ := target.tracking_num_ + 1 }
    else if target.tracking_num_ = TrackingState.Stable then
      { target with tracking_num_ := TrackingState.Stable }
    else if target.tracking_num_ ≥ TrackingState.Stable ∧ target.tracking_num_ < TrackingState.Lost then
      { target with tracking_num_ := TrackingState.Stable }
    else if target.tracking_num_ = TrackingState.Lost then
      { target with tracking_num_ := TrackingState.Die }
    else target
  else
    if target.tracking_num_ < TrackingState.Stable then
      { target with tracking_num_ := TrackingState.Die }
    else if target.tracking_num_ ≥ TrackingState.Stable ∧ target.tracking_num_ < TrackingState.Lost then
      { target with tracking_num_ := target.tracking_num_ + 1 }
    else if target.tracking_num_ = TrackingState.Lost then
      { target with tracking_num_ := TrackingState.Die }
    else target

/-- The by-reference results of `probabilisticDataAssociation`. -/
structure ProbabilisticDataAssociationOut (R : Type) where
  matching_vec : List Bool
  lambda_vec : List R
  target : UKF R
  is_skip_target : Bool

/-- `ImmUkfPda::probabilisticDataAssociation`. -/
def probabilisticDataAssociation [FloorRing R] (E : Env R) (self : ImmUkfPda R)
    (input : autoware_msgs.DetectedObjectArray R) (dt : R) (det_explode_param : R)
    (matching_vec : List Bool) (lambda_vec : List R) (target : UKF R) :
    ProbabilisticDataAssociationOut R :=
  let max_det_z := (findMaxZandS target).1
  let max_det_s := (findMaxZandS target).2
  let det_s := max_det_s.det
  if E.isnan det_s = true ∨ det_s > det_explode_param then
    { matching_vec := matching_vec, lambda_vec := lambda_vec,
      target := { target with tracking_num_ := TrackingState.Die }, is_skip_target := true }
  else
    let is_second_init : Bool := decide (target.tracking_num_ = TrackingState.Init)
    let mv := measurementValidation E self input target is_second_init max_det_z max_det_s
      [] matching_vec
    let target1 := associateBB E self mv.object_vec mv.target
    if is_second_init then
      { matching_vec := mv.matching_vec, lambda_vec := lambda_vec,
        target := secondInit E target1 mv.object_vec dt, is_skip_target := true }
    else
      let target2 := updateTrackingNum mv.object_vec target1
      if target2.tracking_num_ = TrackingState.Die then
        { matching_vec := mv.matching_vec, lambda_vec := lambda_vec,
          target := target2, is_skip_target := true }
      else
        let r := filterPDA E self target2 mv.object_vec lambda_vec
        { matching_vec := mv.matching_vec, lambda_vec := r.2,
          target := r.1, is_skip_target := false }

/-- `ImmUkfPda::getJskBBoxYaw`: the yaw tf's `getRPY` reads off the box orientation. -/
def getJskBBoxYaw (E : Env R) (jsk_bb : jsk_recognition_msgs.BoundingBox R) : R :=
  E.getRPYyaw jsk_bb.pose.orientation

/-- `ImmUkfPda::getJskBBoxArea`. -/
def getJskBBoxArea (jsk_bb : jsk_recognition_msgs.BoundingBox R) : R :=
  let area := jsk_bb.dimensions.x * jsk_bb.dimensions.y
  area

/-- `ImmUkfPda::updateBB`. Modelled from the spec: `abs(diff_yaw)` is the absolute value
`|Δyaw|` of the double; which overload the unqualified `abs` resolves to is decided by
headers that are not among the sources. -/
def updateBB (E : Env R) (self : ImmUkfPda R) (target : UKF R) : UKF R :=
  if ¬ target.is_vis_bb_ then target
  else
    let yaw := getJskBBoxYaw E target.jsk_bb_
    if target.is_best_jsk_bb_empty_ = false then
      { target with best_jsk_bb_ := target.jsk_bb_, best_yaw_ := yaw,
                    is_best_jsk_bb_empty_ := true }
    else
      let diff_yaw := yaw - target.best_yaw_
      let target1 : UKF R :=
        if |diff_yaw| < self.bb_yaw_change_thres_ then
          { target with
              best_jsk_bb_ :=
                { target.best_jsk_bb_ with
                    pose := { target.best_jsk_bb_.pose with
                                orientation := target.jsk_bb_.pose.orientation } },
              best_yaw_ := yaw }
        else
          { target with
              jsk_bb_ :=
                { target.jsk_bb_ with
                    pose := { target.jsk_bb_.pose with
                                orientation := target.best_jsk_bb_.pose.orientation } } }
      let area := getJskBBoxArea target1.jsk_bb_
      let best_area := getJskBBoxArea target1.best_jsk_bb_
      let delta_area := area - best_area
      if delta_area < 0 then
        { target1 with
            jsk_bb_ := { target1.jsk_bb_ with dimensions := target1.best_jsk_bb_.dimensions },
            bb_area_ := best_area }
      else if delta_area > 0 then
        { target1 with
            best_jsk_bb_ := { target1.best_jsk_bb_ with dimensions := target1.jsk_bb_.dimensions },
            bb_area_ := area }
      else target1

/-- `ImmUkfPda::updateLabel`: the label written to `dd.label`. -/
def updateLabel (target : UKF R) (dd : autoware_msgs.DetectedObject R) :
    autoware_msgs.DetectedObject R :=
  let tracking_num := target.tracking_num_
  if target.is_static_ then { dd with label := "Static" }
  else if tracking_num > TrackingState.Die ∧ tracking_num < TrackingState.Stable then
    { dd with label := "Initialized" }
  else if tracking_num = TrackingState.Stable then { dd with label := "Stable" }
  else if tracking_num > TrackingState.Stable ∧ tracking_num ≤ TrackingState.Lost then
    { dd with label := "Lost" }
  else { dd with label := "None" }

/-- `ImmUkfPda::updateJskLabel`. -/
def updateJskLabel (target : UKF R) (bb : jsk_recognition_msgs.BoundingBox R) :
    jsk_recognition_msgs.BoundingBox R :=
  let tracking_num := target.tracking_num_
  if target.is_static_ then { bb with label := 15 }
  else if tracking_num = TrackingState.Stable then { bb with label := 2 }
  else bb

/-- `ImmUkfPda::initTracker`. -/
def initTracker (E : Env R) (input : autoware_msgs.DetectedObjectArray R) (timestamp : R)
    (self : ImmUkfPda R) : ImmUkfPda R :=
  let self1 :=
    forLoop
      (fun _ (obj : autoware_msgs.DetectedObject R) (self : ImmUkfPda R) =>
        let px := obj.pose.position.x
        let py := obj.pose.position.y
        let init_meas : Fin 2 → R := ![px, py]
        let ukf := E.initializeUKF init_meas timestamp self.target_id_
        { self with targets_ := self.targets_ ++ [ukf], target_id_ := self.target_id_ + 1 })
      0 input.objects self
  { self1 with timestamp_ := timestamp, init_ := true }

/-- `ImmUkfPda::makeNewTargets`. -/
def makeNewTargets (E : Env R) (timestamp : R) (input : autoware_msgs.DetectedObjectArray R)
    (matching_vec : List Bool) (self : ImmUkfPda R) : ImmUkfPda R :=
  forLoop
    (fun i (obj : autoware_msgs.DetectedObject R) (self : ImmUkfPda R) =>
      if matching_vec.getD i false = false then
        let px := obj.pose.position.x
        let py := obj.pose.position.y
        let init_meas : Fin 2 → R := ![px, py]
        let ukf := E.initializeUKF init_meas timestamp self.target_id_
        { self with targets_ := self.targets_ ++ [ukf], target_id_ := self.target_id_ + 1 }
      else self)
    0 input.objects self

/-- The read `vel_history_.end()[-ind]`; a read before `begin()` (undefined in C++) gives 0. -/
def endAt (vel_history : List R) (ind : Nat) : R :=
  if ind ≤ vel_history.length then vel_history.getD (vel_history.length - ind) 0 else 0

/-- The body of the loop of `staticClassification` for one target. -/
def staticClassificationBody (self : ImmUkfPda R) (target : UKF R) : UKF R :=
  let target1 : UKF R :=
    { target with vel_history_ := target.vel_history_ ++ [target.x_merge_ 2] }
  if target1.tracking_num_ = TrackingState.Stable ∧ target1.lifetime_ > self.life_time_thres_ then
    let sum_vel : R :=
      (List.range' 1 (self.life_time_thres_ - 1).toNat).foldl
        (fun sum_vel ind => sum_vel + endAt target1.vel_history_ ind) 0
    let avg_vel : R := sum_vel / (self.life_time_thres_ : R)
    if avg_vel < self.static_velocity_thres_ ∧
        (target1.mode_prob_rm_ > target1.mode_prob_cv_ ∨
         target1.mode_prob_rm_ > target1.mode_prob_ctrv_) then
      { target1 with is_static_ := true }
    else target1
  else target1

/-- `ImmUkfPda::staticClassification`. -/
def staticClassification (self : ImmUkfPda R) : ImmUkfPda R :=
  { self with targets_ := self.targets_.map (staticClassificationBody self) }

/-- The by-reference results of `makeOutput` and `tracker`. -/
structure TrackerOut (R : Type) where
  self : ImmUkfPda R
  jskbboxes_output : List (jsk_recognition_msgs.BoundingBox R)
  detected_objects_output : List (autoware_msgs.DetectedObject R)

/-- The body of the loop of `makeOutput` for one target; `yaw` is the yaw of the
tracking-to-pointcloud transform looked up from tf. -/
def makeOutputBody [FloorRing R] (E : Env R) (yaw : R) (target : UKF R)
    (out : List (UKF R) × List (jsk_recognition_msgs.BoundingBox R) ×
      List (autoware_msgs.DetectedObject R)) :
    List (UKF R) × List (jsk_recognition_msgs.BoundingBox R) ×
      List (autoware_msgs.DetectedObject R) :=
  if target.is_vis_bb_ then
    let tx := target.x_merge_ 0
    let ty := target.x_merge_ 1
    let mx := target.init_meas_ 0
    let my := target.init_meas_ 1
    let target1 : UKF R :=
      { target with dist_from_init_ := E.sqrt ((tx - mx) * (tx - mx) + (ty - my) * (ty - my)) }
    let tv := target1.x_merge_ 2
    let tyaw := normalizeYaw E (target1.x_merge_ 3 - yaw)
    let bb := updateJskLabel target1 target1.jsk_bb_
    let dd0 : autoware_msgs.DetectedObject R := autoware_msgs.DetectedObject.default
    let dd : autoware_msgs.DetectedObject R :=
      { dd0 with
          id := target1.ukf_id_, velocity_linear_x := tv, pose := target1.jsk_bb_.pose,
          dimensions := target1.jsk_bb_.dimensions, velocity_linear_y := tyaw }
    (out.1 ++ [target1], out.2.1 ++ [bb], out.2.2 ++ [updateLabel target1 dd])
  else (out.1 ++ [target], out.2.1, out.2.2)

/-- `ImmUkfPda::makeOutput`. -/
def makeOutput [FloorRing R] (E : Env R) (yaw : R) (self : ImmUkfPda R)
    (jskbboxes_output : List (jsk_recognition_msgs.BoundingBox R))
    (detected_objects_output : List (autoware_msgs.DetectedObject R)) : TrackerOut R :=
  let out := self.targets_.foldl (fun out target => makeOutputBody E yaw target out)
    ([], jskbboxes_output, detected_objects_output)
  { self := { self with targets_ := out.1 }, jskbboxes_output := out.2.1,
    detected_objects_output := out.2.2 }

/-- `ImmUkfPda::removeUnnecessaryTarget`. -/
def removeUnnecessaryTarget (self : ImmUkfPda R) : ImmUkfPda R :=
  let temp_targets :=
    self.targets_.foldl
      (fun (temp_targets : List (UKF R)) target =>
        if target.tracking_num_ ≠ TrackingState.Die then temp_targets ++ [target]
        else temp_targets) []
  { self with targets_ := temp_targets }

/-- The body of the UKF loop of `tracker` (lines 945-968) for one target. -/
def trackerBody [FloorRing R] (E : Env R) (self : ImmUkfPda R)
    (input : autoware_msgs.DetectedObjectArray R) (dt det_explode_param cov_explode_param : R)
    (target : UKF R) (matching_vec : List Bool) : UKF R × List Bool :=
  let target1 : UKF R := { target with is_vis_bb_ := false, is_static_ := false }
  if target1.tracking_num_ = TrackingState.Die then (target1, matching_vec)
  else if target1.p_merge_.det > det_explode_param ∨ target1.p_merge_ 4 4 > cov_explode_param then
    ({ target1 with tracking_num_ := TrackingState.Die }, matching_vec)
  else
    let target2 := E.predictionIMMUKF dt target1
    let r := probabilisticDataAssociation E self input dt det_explode_param matching_vec []
      target2
    if r.is_skip_target then (r.target, r.matching_vec)
    else (E.updateIMMUKF r.lambda_vec r.target, r.matching_vec)

/-- `ImmUkfPda::tracker`; `yaw` is the yaw `makeOutput` obtains from tf. -/
def tracker [FloorRing R] (E : Env R) (yaw : R) (input : autoware_msgs.DetectedObjectArray R)
    (self : ImmUkfPda R)
    (jskbboxes_output : List (jsk_recognition_msgs.BoundingBox R))
    (detected_objects_output : List (autoware_msgs.DetectedObject R)) : TrackerOut R :=
  let timestamp := input.stamp
  let det_explode_param : R := 10
  let cov_explode_param : R := 1000
  if ¬ self.init_ then
    { self := initTracker E input timestamp self, jskbboxes_output := jskbboxes_output,
      detected_objects_output := detected_objects_output }
  else
    let dt := timestamp - self.timestamp_
    let self1 := { self with timestamp_ := timestamp }
    let matching_vec : List Bool := List.replicate input.objects.length false
    let loop : List (UKF R) × List Bool :=
      self1.targets_.foldl
        (fun (acc : List (UKF R) × List Bool) target =>
          let r := trackerBody E self1 input dt det_explode_param cov_explode_param target acc.2
          (acc.1 ++ [r.1], r.2))
        ([], matching_vec)
    let self2 := { self1 with targets_ := loop.1 }
    let matching_vec := loop.2
    let self3 := makeNewTargets E timestamp input matching_vec self2
    let self4 := staticClassification self3
    let out := makeOutput E yaw self4 jskbboxes_output detected_objects_output
    { out with self := removeUnnecessaryTarget out.self }

/-- The state the constructor `ImmUkfPda::ImmUkfPda()` leaves: the parameters as read from
the parameter server, `init_ = false`, `target_id_ = 0`, no targets. The members
`timestamp_` and `bb_yaw_change_thres_` are not set by the constructor. -/
def construct (life_time_thres : Int)
    (gating_thres gate_probability detection_probability distance_thres static_velocity_thres
      timestamp bb_yaw_change_thres : R) : ImmUkfPda R :=
  { init_ := false, target_id_ := 0, timestamp_ := timestamp, targets_ := [],
    life_time_thres_ := life_time_thres, gating_thres_ := gating_thres,
    gate_probability_ := gate_probability, detection_probability_ := detection_probability,
    distance_thres_ := distance_thres, static_velocity_thres_ := static_velocity_thres,
    bb_yaw_change_thres_ := bb_yaw_change_thres }

/-- The tracker states reachable from construction by calls of `tracker`. -/
inductive Reachable [FloorRing R] (E : Env R) : ImmUkfPda R → Prop
  | construct (life_time_thres : Int)
      (gating_thres gate_probability detection_probability distance_thres static_velocity_thres
        timestamp bb_yaw_change_thres : R) :
      Reachable E (ImmUkfPda.construct life_time_thres gating_thres gate_probability
        detection_probability distance_thres static_velocity_thres timestamp bb_yaw_change_thres)
  | tick (yaw : R) (input : autoware_msgs.DetectedObjectArray R) (self : ImmUkfPda R)
      (jskbboxes_output : List (jsk_recognition_msgs.BoundingBox R))
      (detected_objects_output : List (autoware_msgs.DetectedObject R)) :
      Reachable E self →
      Reachable E (tracker E yaw input self jskbboxes_output detected_objects_output).self

/-- The tracker states that calls of `tracker` lead to from the state `start`. -/
inductive TicksTo [FloorRing R] (E : Env R) (start : ImmUkfPda R) : ImmUkfPda R → Prop
  | refl : TicksTo E start start
  | tick (yaw : R) (input : autoware_msgs.DetectedObjectArray R) (self : ImmUkfPda R)
      (jskbboxes_output : List (jsk_recognition_msgs.BoundingBox R))
      (detected_objects_output : List (autoware_msgs.DetectedObject R)) :
      TicksTo E start self →
      TicksTo E start (tracker E yaw input self jskbboxes_output detected_objects_output).self

end ImmUkfPda

/-! ## Concrete inputs over `ℚ` used to evaluate the definitions -/

namespace Sample

/-- A track with unit innovation covariances, predicted measurement at the origin and
every other numeric member zero. -/
def track (ukf_id tracking_num lifetime : Int) : UKF ℚ :=
  { ukf_id_ := ukf_id, tracking_num_ := tracking_num, lifetime_ := lifetime,
    is_static_ := false, is_vis_bb_ := false, is_best_jsk_bb_empty_ := false,
    x_merge_ := 0, x_cv_ := 0, x_ctrv_ := 0, x_rm_ := 0,
    p_merge_ := 0, p_cv_ := 0, p_ctrv_ := 0, p_rm_ := 0,
    z_pred_cv_ := 0, z_pred_ctrv_ := 0, z_pred_rm_ := 0,
    s_cv_ := 1, s_ctrv_ := 1, s_rm_ := 1,
    k_cv_ := 0, k_ctrv_ := 0, k_rm_ := 0,
    mode_prob_cv_ := 1 / 3, mode_prob_ctrv_ := 1 / 3, mode_prob_rm_ := 1 / 3,
    init_meas_ := 0, vel_history_ := [], dist_from_init_ := 0,
    jsk_bb_ := { pose := autoware_msgs.DetectedObject.default.pose,
                 dimensions := autoware_msgs.DetectedObject.default.dimensions, label := 0 },
    best_jsk_bb_ := { pose := autoware_msgs.DetectedObject.default.pose,
                      dimensions := autoware_msgs.DetectedObject.default.dimensions, label := 0 },
    best_yaw_ := 0, bb_area_ := 0, other_ := [] }

/-- A detection at `(x, y)`. -/
def object (x y : ℚ) : autoware_msgs.DetectedObject ℚ :=
  { id := 0, label := "", pose := { position := { x := x, y := y, z := 0 },
                                    orientation := { x := 0, y := 0, z := 0, w := 1 } },
    dimensions := { x := 1, y := 1, z := 1 }, velocity_linear_x := 0, velocity_linear_y := 0 }

/-- An environment over `ℚ`. `dbl_max` is the largest finite double; the libm entries are
rational stand-ins (the theorems below hold for every environment); a new track starts
in `Init` at the measured position; the IMM steps are the identity. -/
def env : Env ℚ :=
  { sqrt := fun a => a, exp := fun _ => 1, pow := fun _ _ => 1, atan2 := fun _ _ => 0,
    M_PI := 355 / 113, dbl_max := 2 ^ 1024 - 2 ^ 971, isnan := fun _ => false,
    getRPYyaw := fun q => q.z,
    initializeUKF := fun m _ id =>
      { track id TrackingState.Init 0 with
          x_merge_ := ![m 0, m 1, 0, 0, 0], x_cv_ := ![m 0, m 1, 0, 0, 0],
          x_ctrv_ := ![m 0, m 1, 0, 0, 0], x_rm_ := ![m 0, m 1, 0, 0, 0],
          z_pred_cv_ := m, z_pred_ctrv_ := m, z_pred_rm_ := m },
    predictionIMMUKF := fun _ t => t,
    updateIMMUKF := fun _ t => t }

/-- The tracker as constructed with the default parameters of the source. -/
def immUkfPda : ImmUkfPda ℚ :=
  ImmUkfPda.construct 8 (922 / 100) (99 / 100) (9 / 10) 99 (1 / 2) 0 0

/-- An initialised tracker holding a track in Die (id 0) and a Stable track (id 1). -/
def stateWithDie : ImmUkfPda ℚ :=
  { immUkfPda with init_ := true, target_id_ := 2,
                   targets_ := [track 0 TrackingState.Die 0, track 1 TrackingState.Stable 0] }

/-- A BB-visible Stable track that has adopted a best box of 2 × 2 and whose candidate
box, at `(1, 0)`, is 1 × 1. -/
def boxedTrack : UKF ℚ :=
  { track 0 TrackingState.Stable 9 with
      is_vis_bb_ := true, is_best_jsk_bb_empty_ := true,
      jsk_bb_ := { pose := (object 1 0).pose, dimensions := { x := 1, y := 1, z := 1 },
                   label := 0 },
      best_jsk_bb_ := { pose := (object 0 0).pose, dimensions := { x := 2, y := 2, z := 1 },
                        label := 0 } }

/-- A Stable track past the lifetime threshold whose merged speed has been 11/20 for the
last nine frames and whose random-motion mode is the most probable one. -/
def cruisingTrack : UKF ℚ :=
  { track 0 TrackingState.Stable 9 with
      x_merge_ := ![0, 0, 11 / 20, 0, 0],
      vel_history_ := List.replicate 9 (11 / 20),
      mode_prob_cv_ := 1 / 4, mode_prob_ctrv_ := 1 / 4, mode_prob_rm_ := 1 / 2 }

/-- The track `boxedTrack` with nine frames of history at speed 0. -/
def trackedBox : UKF ℚ :=
  { boxedTrack with vel_history_ := List.replicate 9 0 }

/-- An initialised tracker holding the track `trackedBox`. -/
def stateWithBox : ImmUkfPda ℚ :=
  { immUkfPda with init_ := true, target_id_ := 1, targets_ := [trackedBox] }

/-- The tracker after its first call, on a frame with one detection at the origin. -/
def bornState : ImmUkfPda ℚ :=
  { immUkfPda with init_ := true, target_id_ := 1, timestamp_ := 0,
                   targets_ := [track 0 TrackingState.Init 0] }

/-- A frame with three detections, at `(2, 0)`, `(1, 0)` and `(0, 0)`. -/
def crowdedFrame (stamp : ℚ) : autoware_msgs.DetectedObjectArray ℚ :=
  { stamp := stamp, objects := [object 2 0, object 1 0, object 0 0] }

/-- The tracker after the first frame and three crowded frames. -/
def crowdedState : ImmUkfPda ℚ :=
  { bornState with
      timestamp_ := 3,
      targets_ := [{ track 0 4 9 with init_meas_ := ![0, 0], vel_history_ := [0, 0, 0] }] }

end Sample

/-! ## Theorems -/

namespace ImmUkfPda

variable {R : Type}

/-- C1: `updateTrackingNum` changes no member of the track other than `tracking_num_`, and
`tracking_num_` follows the lifecycle table: with a non-empty gated list 1..3 becomes
`tracking_num_ + 1`, 4 stays 4, 5..9 becomes 4 and 10 becomes 0; with an empty gated list
1..3 becomes 0, 4..9 becomes `tracking_num_ + 1` and 10 becomes 0. -/
theorem updateTrackingNum_lifecycle_table
    (object_vec : List (autoware_msgs.DetectedObject R)) (target : UKF R) :
    updateTrackingNum object_vec target =
      { target with tracking_num_ := (updateTrackingNum object_vec target).tracking_num_ } ∧
    (object_vec ≠ [] →
      (1 ≤ target.tracking_num_ ∧ target.tracking_num_ ≤ 3 →
        (updateTrackingNum object_vec target).tracking_num_ = target.tracking_num_ + 1) ∧
      (target.tracking_num_ = 4 → (updateTrackingNum object_vec target).tracking_num_ = 4) ∧
      (5 ≤ target.tracking_num_ ∧ target.tracking_num_ ≤ 9 →
        (updateTrackingNum object_vec target).tracking_num_ = 4) ∧
      (target.tracking_num_ = 10 → (updateTrackingNum object_vec target).tracking_num_ = 0)) ∧
    (object_vec = [] →
      (1 ≤ target.tracking_num_ ∧ target.tracking_num_ ≤ 3 →
        (updateTrackingNum object_vec target).tracking_num_ = 0) ∧
      (4 ≤ target.tracking_num_ ∧ target.tracking_num_ ≤ 9 →
        (updateTrackingNum object_vec target).tracking_num_ = target.tracking_num_ + 1) ∧
      (target.tracking_num_ = 10 → (updateTrackingNum object_vec target).tracking_num_ = 0)) := by
  have hlen : object_vec = [] ∨ object_vec.length > 0 := by
    cases object_vec with
    | nil => exact Or.inl rfl
    | cons a l => exact Or.inr (by simp)
  refine ⟨?_, ?_, ?_⟩
  · unfold updateTrackingNum
    split_ifs <;> rfl
  · intro hne
    have hpos : object_vec.length > 0 := by
      rcases hlen with h | h
      · exact absurd h hne
      · exact h
    unfold updateTrackingNum
    simp only [hpos, if_true, TrackingState.Stable, TrackingState.Lost, TrackingState.Die]
    refine ⟨?_, ?_, ?_, ?_⟩ <;> intro h <;> split_ifs <;> first | rfl | omega
  · intro he
    subst he
    unfold updateTrackingNum
    simp only [List.length_nil, gt_iff_lt, lt_self_iff_false, if_false, TrackingState.Stable,
      TrackingState.Lost, TrackingState.Die]
    refine ⟨?_, ?_, ?_⟩ <;> intro h <;> split_ifs <;> first | rfl | omega

/-- Witness for C1: an in-progress track (`tracking_num_ = 3`) with one gated detection. -/
theorem updateTrackingNum_lifecycle_table_witness :
    (updateTrackingNum [Sample.object 0 0] (Sample.track 0 3 0)).tracking_num_ = 4 ∧
    (updateTrackingNum [] (Sample.track 0 4 0)).tracking_num_ = 5 :=
  ⟨((updateTrackingNum_lifecycle_table [Sample.object 0 0] (Sample.track 0 3 0)).2.1
      (by simp)).1 ⟨by decide, by decide⟩,
   ((updateTrackingNum_lifecycle_table [] (Sample.track 0 4 0)).2.2 rfl).2.1
      ⟨by decide, by decide⟩⟩

end ImmUkfPda

/-! ### `measurementValidation`: one iteration of the loop -/

namespace ImmUkfPda
variable {R : Type} [LinearOrderedField R]

theorem body_object_vec_false (self : ImmUkfPda R) (z : Fin 2 → R)
    (s : Matrix (Fin 2) (Fin 2) R) (i : Nat) (d : autoware_msgs.DetectedObject R)
    (st : MeasurementValidationState R) :
    (measurementValidationBody self false z s i d st).object_vec =
      st.object_vec ++ (if nis z s d < self.gating_thres_ then [d] else []) := by
  unfold measurementValidationBody
  by_cases hg : nis z s d < self.gating_thres_ <;>
    by_cases hm : st.matching_vec.getD i false = false <;> simp [hg, hm, -List.getD_eq_getElem?_getD]

theorem body_second_init_done_false (self : ImmUkfPda R) (z : Fin 2 → R)
    (s : Matrix (Fin 2) (Fin 2) R) (i : Nat) (d : autoware_msgs.DetectedObject R)
    (st : MeasurementValidationState R) :
    (measurementValidationBody self false z s i d st).second_init_done = st.second_init_done := by
  unfold measurementValidationBody
  by_cases hg : nis z s d < self.gating_thres_ <;>
    by_cases hm : st.matching_vec.getD i false = false <;> simp [hg, hm, -List.getD_eq_getElem?_getD]

theorem body_object_vec_true (self : ImmUkfPda R) (z : Fin 2 → R)
    (s : Matrix (Fin 2) (Fin 2) R) (i : Nat) (d : autoware_msgs.DetectedObject R)
    (st : MeasurementValidationState R) :
    (measurementValidationBody self true z s i d st).object_vec = st.object_vec := by
  unfold measurementValidationBody
  by_cases hg : nis z s d < self.gating_thres_ <;>
    by_cases hm : st.matching_vec.getD i false = false <;>
    by_cases hs : nis z s d < st.smallest_nis <;> simp [hg, hm, hs, -List.getD_eq_getElem?_getD]

theorem body_target (self : ImmUkfPda R) (b : Bool) (z : Fin 2 → R)
    (s : Matrix (Fin 2) (Fin 2) R) (i : Nat) (d : autoware_msgs.DetectedObject R)
    (st : MeasurementValidationState R) :
    (measurementValidationBody self b z s i d st).target =
      { st.target with lifetime_ := st.target.lifetime_ +
          (if nis z s d < self.gating_thres_ ∧ st.matching_vec.getD i false = false then 1 else 0) } := by
  unfold measurementValidationBody
  cases b <;> by_cases hg : nis z s d < self.gating_thres_ <;>
    by_cases hm : st.matching_vec.getD i false = false <;>
    by_cases hs : nis z s d < st.smallest_nis <;> simp [hg, hm, hs, -List.getD_eq_getElem?_getD]

theorem body_matching_vec_false (self : ImmUkfPda R) (z : Fin 2 → R)
    (s : Matrix (Fin 2) (Fin 2) R) (i : Nat) (d : autoware_msgs.DetectedObject R)
    (st : MeasurementValidationState R) :
    (measurementValidationBody self false z s i d st).matching_vec =
      if nis z s d < self.gating_thres_ then st.matching_vec.set i true else st.matching_vec := by
  unfold measurementValidationBody
  by_cases hg : nis z s d < self.gating_thres_ <;>
    by_cases hm : st.matching_vec.getD i false = false <;> simp [hg, hm, -List.getD_eq_getElem?_getD]

theorem body_matching_vec_true (self : ImmUkfPda R) (z : Fin 2 → R)
    (s : Matrix (Fin 2) (Fin 2) R) (i : Nat) (d : autoware_msgs.DetectedObject R)
    (st : MeasurementValidationState R) :
    (measurementValidationBody self true z s i d st).matching_vec =
      if nis z s d < self.gating_thres_ ∧ nis z s d < st.smallest_nis then
        st.matching_vec.set i true else st.matching_vec := by
  unfold measurementValidationBody
  by_cases hg : nis z s d < self.gating_thres_ <;>
    by_cases hm : st.matching_vec.getD i false = false <;>
    by_cases hs : nis z s d < st.smallest_nis <;> simp [hg, hm, hs, -List.getD_eq_getElem?_getD]

theorem body_smallest_true (self : ImmUkfPda R) (z : Fin 2 → R)
    (s : Matrix (Fin 2) (Fin 2) R) (i : Nat) (d : autoware_msgs.DetectedObject R)
    (st : MeasurementValidationState R) :
    ((measurementValidationBody self true z s i d st).smallest_nis,
     (measurementValidationBody self true z s i d st).second_init_done,
     (measurementValidationBody self true z s i d st).smallest_meas_object) =
      if nis z s d < self.gating_thres_ ∧ nis z s d < st.smallest_nis then
        (nis z s d, true, d) else (st.smallest_nis, st.second_init_done, st.smallest_meas_object) := by
  unfold measurementValidationBody
  by_cases hg : nis z s d < self.gating_thres_ <;>
    by_cases hm : st.matching_vec.getD i false = false <;>
    by_cases hs : nis z s d < st.smallest_nis <;> simp [hg, hm, hs, -List.getD_eq_getElem?_getD]

end ImmUkfPda

/-! ### `measurementValidation`: the whole loop -/

namespace ImmUkfPda
variable {R : Type} [LinearOrderedField R]

theorem loop_target (self : ImmUkfPda R) (b : Bool) (z : Fin 2 → R)
    (s : Matrix (Fin 2) (Fin 2) R) (l : List (autoware_msgs.DetectedObject R)) :
    ∀ (i : Nat) (st : MeasurementValidationState R),
      (forLoop (measurementValidationBody self b z s) i l st).target =
        { st.target with lifetime_ :=
            (forLoop (measurementValidationBody self b z s) i l st).target.lifetime_ } := by
  induction l with
  | nil => intro i st; rfl
  | cons d l ih =>
    intro i st
    simp only [forLoop]
    rw [ih (i + 1) (measurementValidationBody self b z s i d st), body_target]

theorem loop_object_vec_false (self : ImmUkfPda R) (z : Fin 2 → R)
    (s : Matrix (Fin 2) (Fin 2) R) (l : List (autoware_msgs.DetectedObject R)) :
    ∀ (i : Nat) (st : MeasurementValidationState R),
      (forLoop (measurementValidationBody self false z s) i l st).object_vec =
        st.object_vec ++ l.filter (fun d => decide (nis z s d < self.gating_thres_)) ∧
      (forLoop (measurementValidationBody self false z s) i l st).second_init_done =
        st.second_init_done := by
  induction l with
  | nil => intro i st; simp [forLoop]
  | cons d l ih =>
    intro i st
    simp only [forLoop]
    rw [(ih (i + 1) _).1, (ih (i + 1) _).2, body_object_vec_false, body_second_init_done_false]
    by_cases hg : nis z s d < self.gating_thres_ <;> simp [hg, List.filter_cons]

theorem loop_object_vec_true (self : ImmUkfPda R) (z : Fin 2 → R)
    (s : Matrix (Fin 2) (Fin 2) R) (l : List (autoware_msgs.DetectedObject R)) :
    ∀ (i : Nat) (st : MeasurementValidationState R),
      (forLoop (measurementValidationBody self true z s) i l st).object_vec = st.object_vec := by
  induction l with
  | nil => intro i st; rfl
  | cons d l ih =>
    intro i st
    simp only [forLoop]
    rw [ih, body_object_vec_true]

/-- In second-init mode the running minimum `(smallest_nis, second_init_done,
smallest_meas_object)` is a fold over the detections that reads nothing else. -/
theorem loop_smallest_true (self : ImmUkfPda R) (z : Fin 2 → R)
    (s : Matrix (Fin 2) (Fin 2) R) (l : List (autoware_msgs.DetectedObject R)) :
    ∀ (i : Nat) (st : MeasurementValidationState R),
      ((forLoop (measurementValidationBody self true z s) i l st).smallest_nis,
       (forLoop (measurementValidationBody self true z s) i l st).second_init_done,
       (forLoop (measurementValidationBody self true z s) i l st).smallest_meas_object) =
      l.foldl (fun (acc : R × Bool × autoware_msgs.DetectedObject R) d =>
          if nis z s d < self.gating_thres_ ∧ nis z s d < acc.1 then (nis z s d, true, d) else acc)
        (st.smallest_nis, st.second_init_done, st.smallest_meas_object) := by
  induction l with
  | nil => intro i st; rfl
  | cons d l ih =>
    intro i st
    simp only [forLoop, List.foldl_cons]
    rw [ih, body_smallest_true]

/-- The fold of `loop_smallest_true` picks the first detection of least `nis` among the gated
ones that beat the starting value, or leaves the start untouched when none does. -/
theorem foldl_smallest_spec (g : R) (N : autoware_msgs.DetectedObject R → R)
    (l : List (autoware_msgs.DetectedObject R)) :
    ∀ (acc : R × Bool × autoware_msgs.DetectedObject R),
      ((∀ d ∈ l, N d < g → ¬ N d < acc.1) ∧
        l.foldl (fun (acc : R × Bool × autoware_msgs.DetectedObject R) d =>
          if N d < g ∧ N d < acc.1 then (N d, true, d) else acc) acc = acc) ∨
      (∃ pre d post, l = pre ++ d :: post ∧ N d < g ∧ N d < acc.1 ∧
        (∀ d' ∈ pre, N d' < g → N d < N d') ∧ (∀ d' ∈ post, N d' < g → N d ≤ N d') ∧
        l.foldl (fun (acc : R × Bool × autoware_msgs.DetectedObject R) d =>
          if N d < g ∧ N d < acc.1 then (N d, true, d) else acc) acc = (N d, true, d)) := by
  induction l with
  | nil => intro acc; left; simp
  | cons d0 l ih =>
    intro acc
    simp only [List.foldl_cons]
    by_cases h0 : N d0 < g ∧ N d0 < acc.1
    · simp only [h0, and_self, if_true]
      right
      rcases ih (N d0, true, d0) with ⟨hnone, heq⟩ | ⟨pre, d, post, hl, hg, hlt, hpre, hpost, heq⟩
      · refine ⟨[], d0, l, rfl, h0.1, h0.2, ?_, ?_, heq⟩
        · intro d' hd'; simp at hd'
        · intro d' hd' hg'
          exact not_lt.mp (hnone d' hd' hg')
      · refine ⟨d0 :: pre, d, post, by simp [hl], hg, lt_trans hlt h0.2, ?_, hpost, heq⟩
        intro d' hd' hg'
        rcases List.mem_cons.mp hd' with rfl | hmem
        · exact hlt
        · exact hpre d' hmem hg'
    · simp only [h0, if_false]
      rcases ih acc with ⟨hnone, heq⟩ | ⟨pre, d, post, hl, hg, hlt, hpre, hpost, heq⟩
      · left
        refine ⟨?_, heq⟩
        intro d' hd' hg'
        rcases List.mem_cons.mp hd' with rfl | hmem
        · exact fun hlt => h0 ⟨hg', hlt⟩
        · exact hnone d' hmem hg'
      · right
        refine ⟨d0 :: pre, d, post, by simp [hl], hg, hlt, ?_, hpost, heq⟩
        intro d' hd' hg'
        rcases List.mem_cons.mp hd' with rfl | hmem
        · have : ¬ N d' < acc.1 := fun hlt' => h0 ⟨hg', hlt'⟩
          exact lt_of_lt_of_le hlt (not_lt.mp this)
        · exact hpre d' hmem hg'

theorem loop_matching_vec_length (self : ImmUkfPda R) (b : Bool) (z : Fin 2 → R)
    (s : Matrix (Fin 2) (Fin 2) R) (l : List (autoware_msgs.DetectedObject R)) :
    ∀ (i : Nat) (st : MeasurementValidationState R),
      (forLoop (measurementValidationBody self b z s) i l st).matching_vec.length =
        st.matching_vec.length := by
  induction l with
  | nil => intro i st; rfl
  | cons d l ih =>
    intro i st
    simp only [forLoop]
    rw [ih]
    cases b
    · rw [body_matching_vec_false]; split_ifs <;> simp
    · rw [body_matching_vec_true]; split_ifs <;> simp

end ImmUkfPda

/-! ### `measurementValidation`: the call -/

namespace ImmUkfPda
variable {R : Type} [LinearOrderedField R]

theorem measurementValidation_target_eq (E : Env R) (self : ImmUkfPda R)
    (input : autoware_msgs.DetectedObjectArray R) (target : UKF R) (b : Bool)
    (z : Fin 2 → R) (s : Matrix (Fin 2) (Fin 2) R)
    (object_vec : List (autoware_msgs.DetectedObject R)) (matching_vec : List Bool) :
    (measurementValidation E self input target b z s object_vec matching_vec).target =
      (forLoop (measurementValidationBody self b z s) 0 input.objects
        (measurementValidationInit E target object_vec matching_vec)).target := by
  unfold measurementValidation
  dsimp only
  split_ifs <;> rfl

theorem measurementValidation_matching_vec_eq (E : Env R) (self : ImmUkfPda R)
    (input : autoware_msgs.DetectedObjectArray R) (target : UKF R) (b : Bool)
    (z : Fin 2 → R) (s : Matrix (Fin 2) (Fin 2) R)
    (object_vec : List (autoware_msgs.DetectedObject R)) (matching_vec : List Bool) :
    (measurementValidation E self input target b z s object_vec matching_vec).matching_vec =
      (forLoop (measurementValidationBody self b z s) 0 input.objects
        (measurementValidationInit E target object_vec matching_vec)).matching_vec := by
  unfold measurementValidation
  dsimp only
  split_ifs <;> rfl

/-- Second-init mode of `measurementValidation`: nothing is appended when no detection is
gated; otherwise exactly the first gated detection of least `nis` is appended. -/
theorem measurementValidation_second_init_object_vec (E : Env R) (self : ImmUkfPda R)
    (input : autoware_msgs.DetectedObjectArray R) (target : UKF R)
    (z : Fin 2 → R) (s : Matrix (Fin 2) (Fin 2) R)
    (object_vec : List (autoware_msgs.DetectedObject R)) (matching_vec : List Bool)
    (hmax : self.gating_thres_ ≤ E.dbl_max) :
    ((∀ d ∈ input.objects, ¬ nis z s d < self.gating_thres_) ∧
      (measurementValidation E self input target true z s object_vec matching_vec).object_vec =
        object_vec) ∨
    (∃ pre d post, input.objects = pre ++ d :: post ∧ nis z s d < self.gating_thres_ ∧
      (∀ d' ∈ pre, nis z s d' < self.gating_thres_ → nis z s d < nis z s d') ∧
      (∀ d' ∈ post, nis z s d' < self.gating_thres_ → nis z s d ≤ nis z s d') ∧
      (measurementValidation E self input target true z s object_vec matching_vec).object_vec =
        object_vec ++ [d]) := by
  have hfold := loop_smallest_true self z s input.objects 0
    (measurementValidationInit E target object_vec matching_vec)
  have hov := loop_object_vec_true self z s input.objects 0
    (measurementValidationInit E target object_vec matching_vec)
  have hinit : ((measurementValidationInit E target object_vec matching_vec).smallest_nis,
      (measurementValidationInit E target object_vec matching_vec).second_init_done,
      (measurementValidationInit E target object_vec matching_vec).smallest_meas_object) =
      (E.dbl_max, false, autoware_msgs.DetectedObject.default) := rfl
  have hov0 : (measurementValidationInit E target object_vec matching_vec).object_vec =
      object_vec := rfl
  rw [hinit] at hfold
  rw [hov0] at hov
  rcases foldl_smallest_spec self.gating_thres_ (nis z s) input.objects
      (E.dbl_max, false, autoware_msgs.DetectedObject.default) with
    ⟨hnone, heq⟩ | ⟨pre, d, post, hl, hg, _, hpre, hpost, heq⟩
  · left
    rw [heq] at hfold
    have hdone := congrArg (fun t => t.2.1) hfold
    simp only at hdone
    refine ⟨?_, ?_⟩
    · intro d hd hg
      exact hnone d hd hg (lt_of_lt_of_le hg hmax)
    · unfold measurementValidation
      simp only [hdone, hov, Bool.false_eq_true, if_false]
  · right
    rw [heq] at hfold
    have hdone := congrArg (fun t => t.2.1) hfold
    have hobj := congrArg (fun t => t.2.2) hfold
    simp only at hdone hobj
    refine ⟨pre, d, post, hl, hg, hpre, hpost, ?_⟩
    unfold measurementValidation
    simp only [hdone, hov, hobj, if_true]

/-- `measurementValidation` touches no member of the track other than `lifetime_`. -/
theorem measurementValidation_target (E : Env R) (self : ImmUkfPda R)
    (input : autoware_msgs.DetectedObjectArray R) (target : UKF R) (b : Bool)
    (z : Fin 2 → R) (s : Matrix (Fin 2) (Fin 2) R)
    (object_vec : List (autoware_msgs.DetectedObject R)) (matching_vec : List Bool) :
    (measurementValidation E self input target b z s object_vec matching_vec).target =
      { target with lifetime_ :=
          (measurementValidation E self input target b z s object_vec matching_vec).target.lifetime_ } := by
  rw [measurementValidation_target_eq]
  exact loop_target self b z s input.objects 0
    (measurementValidationInit E target object_vec matching_vec)

/-- `associateBB` is the identity on a track that is not `Stable`. -/
theorem associateBB_not_stable (E : Env R) (self : ImmUkfPda R)
    (object_vec : List (autoware_msgs.DetectedObject R)) (target : UKF R)
    (h : target.tracking_num_ ≠ TrackingState.Stable) :
    associateBB E self object_vec target = target := by
  unfold associateBB
  simp [h]

end ImmUkfPda

/-! ### C2: the Init branch of `probabilisticDataAssociation` -/

namespace ImmUkfPda
variable {R : Type} [LinearOrderedField R]

/-- The Init branch of `probabilisticDataAssociation`, once the divergence guard is passed. -/
theorem probabilisticDataAssociation_init_eq [FloorRing R] (E : Env R) (self : ImmUkfPda R)
    (input : autoware_msgs.DetectedObjectArray R) (dt det_explode_param : R)
    (matching_vec : List Bool) (lambda_vec : List R) (target : UKF R)
    (hinit : target.tracking_num_ = TrackingState.Init)
    (hguard : ¬ (E.isnan (findMaxZandS target).2.det = true ∨
      (findMaxZandS target).2.det > det_explode_param)) :
    probabilisticDataAssociation E self input dt det_explode_param matching_vec lambda_vec target =
      { matching_vec := (measurementValidation E self input target true (findMaxZandS target).1
          (findMaxZandS target).2 [] matching_vec).matching_vec,
        lambda_vec := lambda_vec,
        target := secondInit E
          (measurementValidation E self input target true (findMaxZandS target).1
            (findMaxZandS target).2 [] matching_vec).target
          (measurementValidation E self input target true (findMaxZandS target).1
            (findMaxZandS target).2 [] matching_vec).object_vec dt,
        is_skip_target := true } := by
  have htn : (measurementValidation E self input target true (findMaxZandS target).1
      (findMaxZandS target).2 [] matching_vec).target.tracking_num_ = TrackingState.Init := by
    rw [measurementValidation_target]
    exact hinit
  have hbb := associateBB_not_stable E self
    (measurementValidation E self input target true (findMaxZandS target).1
      (findMaxZandS target).2 [] matching_vec).object_vec
    (measurementValidation E self input target true (findMaxZandS target).1
      (findMaxZandS target).2 [] matching_vec).target (by rw [htn]; decide)
  unfold probabilisticDataAssociation
  simp only [hguard, if_false, hinit, decide_True, if_true, hbb]

/-- C2: for a track in Init whose max-determinant `S` passes the divergence guard,
`probabilisticDataAssociation` sets `tracking_num_` to 2 when some detection is inside the
gate and to Die when none is; it reports the track as skipped, leaves `lambda_vec` as it
was and does not touch the covariances of the three filters (no PDA update). The gate
threshold is assumed to be a finite double (`gating_thres_ ≤ dbl_max`) and the
max-determinant `S` to be non-singular (`det S ≠ 0`), so that `nis` is the squared
Mahalanobis distance the source computes with `S.inverse()`. -/
theorem probabilisticDataAssociation_init [FloorRing R] (E : Env R) (self : ImmUkfPda R)
    (input : autoware_msgs.DetectedObjectArray R) (dt det_explode_param : R)
    (matching_vec : List Bool) (lambda_vec : List R) (target : UKF R)
    (hinit : target.tracking_num_ = TrackingState.Init)
    (hguard : ¬ (E.isnan (findMaxZandS target).2.det = true ∨
      (findMaxZandS target).2.det > det_explode_param))
    (hmax : self.gating_thres_ ≤ E.dbl_max)
    (_hdet : (findMaxZandS target).2.det ≠ 0) :
    ((∃ d ∈ input.objects,
        nis (findMaxZandS target).1 (findMaxZandS target).2 d < self.gating_thres_) →
      (probabilisticDataAssociation E self input dt det_explode_param matching_vec lambda_vec
        target).target.tracking_num_ = 2) ∧
    ((¬ ∃ d ∈ input.objects,
        nis (findMaxZandS target).1 (findMaxZandS target).2 d < self.gating_thres_) →
      (probabilisticDataAssociation E self input dt det_explode_param matching_vec lambda_vec
        target).target.tracking_num_ = TrackingState.Die) ∧
    (probabilisticDataAssociation E self input dt det_explode_param matching_vec lambda_vec
      target).is_skip_target = true ∧
    (probabilisticDataAssociation E self input dt det_explode_param matching_vec lambda_vec
      target).lambda_vec = lambda_vec ∧
    (probabilisticDataAssociation E self input dt det_explode_param matching_vec lambda_vec
      target).target.p_cv_ = target.p_cv_ ∧
    (probabilisticDataAssociation E self input dt det_explode_param matching_vec lambda_vec
      target).target.p_ctrv_ = target.p_ctrv_ ∧
    (probabilisticDataAssociation E self input dt det_explode_param matching_vec lambda_vec
      target).target.p_rm_ = target.p_rm_ := by
  rw [probabilisticDataAssociation_init_eq E self input dt det_explode_param matching_vec
    lambda_vec target hinit hguard]
  have hmvt := measurementValidation_target E self input target true (findMaxZandS target).1
    (findMaxZandS target).2 [] matching_vec
  have hov := measurementValidation_second_init_object_vec E self input target
    (findMaxZandS target).1 (findMaxZandS target).2 [] matching_vec hmax
  rw [hmvt]
  rcases hov with ⟨hnone, hov⟩ | ⟨pre, d, post, hl, hg, _, _, hov⟩
  · rw [hov]
    refine ⟨?_, ?_, rfl, rfl, rfl, rfl, rfl⟩
    · rintro ⟨d, hd, hg⟩
      exact absurd hg (hnone d hd)
    · intro _
      rfl
  · rw [hov]
    refine ⟨?_, ?_, rfl, rfl, rfl, rfl, rfl⟩
    · intro _
      simp only [List.nil_append, secondInit, hinit]
      rfl
    · intro hno
      exact absurd ⟨d, by simp [hl], hg⟩ hno

end ImmUkfPda

/-! ### Evaluations at the sample inputs -/

namespace Sample
open ImmUkfPda

theorem findMaxZandS_track (ukf_id tracking_num lifetime : Int) :
    findMaxZandS (track ukf_id tracking_num lifetime) = (0, 1) := by
  simp [findMaxZandS, track]

theorem nis_object (x y : ℚ) : nis (0 : Fin 2 → ℚ) 1 (object x y) = x * x + y * y := by
  simp [nis, inverse, object, Matrix.dotProduct, Fin.sum_univ_two]

theorem gating_le_dbl_max : immUkfPda.gating_thres_ ≤ env.dbl_max := by
  norm_num [immUkfPda, ImmUkfPda.construct, env]

theorem guard_track (ukf_id tracking_num lifetime : Int) :
    ¬ (env.isnan (findMaxZandS (track ukf_id tracking_num lifetime)).2.det = true ∨
      (findMaxZandS (track ukf_id tracking_num lifetime)).2.det > 10) := by
  rw [findMaxZandS_track]
  norm_num [env]

/-- The unit innovation covariance of the sample tracks is non-singular. -/
theorem det_one_ne_zero : (1 : Matrix (Fin 2) (Fin 2) ℚ).det ≠ 0 := by
  simp

theorem findMaxZandS_track_det (ukf_id tracking_num lifetime : Int) :
    (findMaxZandS (track ukf_id tracking_num lifetime)).2.det ≠ 0 := by
  rw [findMaxZandS_track]
  exact det_one_ne_zero

end Sample


namespace ImmUkfPda

/-- Witness for C2: an Init track at the origin with unit covariances and one detection at
`(1, 0)`, which lies inside the gate. -/
theorem probabilisticDataAssociation_init_witness :
    (Sample.track 0 1 0).tracking_num_ = TrackingState.Init ∧
    ¬ (Sample.env.isnan (findMaxZandS (Sample.track 0 1 0)).2.det = true ∨
      (findMaxZandS (Sample.track 0 1 0)).2.det > 10) ∧
    Sample.immUkfPda.gating_thres_ ≤ Sample.env.dbl_max ∧
    (findMaxZandS (Sample.track 0 1 0)).2.det ≠ 0 ∧
    (probabilisticDataAssociation Sample.env Sample.immUkfPda
      { stamp := 1, objects := [Sample.object 1 0] } 1 10 [false] [] (Sample.track 0 1 0)
        ).target.tracking_num_ = 2 :=
  ⟨rfl, Sample.guard_track 0 1 0, Sample.gating_le_dbl_max,
    Sample.findMaxZandS_track_det 0 1 0,
    (probabilisticDataAssociation_init Sample.env Sample.immUkfPda { stamp := 1, objects := [Sample.object 1 0] } 1 10
      [false] [] (Sample.track 0 1 0) rfl (Sample.guard_track 0 1 0)
      Sample.gating_le_dbl_max (Sample.findMaxZandS_track_det 0 1 0)).1
      ⟨Sample.object 1 0, by simp, by
        rw [Sample.findMaxZandS_track, Sample.nis_object]
        norm_num [Sample.immUkfPda, ImmUkfPda.construct]⟩⟩

end ImmUkfPda

/-! ### C3: `makeNewTargets` -/

namespace ImmUkfPda
variable {R : Type}

theorem zip_unclaimed_length {α : Type} (l : List α) :
    ∀ (m : List Bool), m.length = l.length →
      ((l.zip m).filter (fun p => !p.2)).length + m.count true = l.length := by
  induction l with
  | nil => intro m hm; simp [List.length_eq_zero.mp hm]
  | cons a l ih =>
    intro m hm
    cases m with
    | nil => simp at hm
    | cons b m =>
      have ih' := ih m (by simpa using hm)
      cases b
      · simp [List.filter_cons] at ih' ⊢
        omega
      · simp [List.filter_cons] at ih' ⊢
        omega

theorem makeNewTargets_loop (E : Env R) (timestamp : R) (matching_vec : List Bool)
    (l : List (autoware_msgs.DetectedObject R)) :
    ∀ (i : Nat) (self : ImmUkfPda R), i + l.length ≤ matching_vec.length →
      forLoop
        (fun i (obj : autoware_msgs.DetectedObject R) (self : ImmUkfPda R) =>
          if matching_vec.getD i false = false then
            let px := obj.pose.position.x
            let py := obj.pose.position.y
            let init_meas : Fin 2 → R := ![px, py]
            let ukf := E.initializeUKF init_meas timestamp self.target_id_
            { self with targets_ := self.targets_ ++ [ukf], target_id_ := self.target_id_ + 1 }
          else self)
        i l self =
      { self with
          targets_ := self.targets_ ++
            List.mapIdx
              (fun k (d : autoware_msgs.DetectedObject R) =>
                E.initializeUKF ![d.pose.position.x, d.pose.position.y] timestamp
                  (self.target_id_ + k))
              (((l.zip (matching_vec.drop i)).filter (fun p => !p.2)).map Prod.fst),
          target_id_ := self.target_id_ +
            (((l.zip (matching_vec.drop i)).filter (fun p => !p.2)).map Prod.fst).length } := by
  induction l with
  | nil => intro i self _; simp [forLoop]
  | cons d l ih =>
    intro i self hi
    have hlt : i < matching_vec.length := by simp at hi; omega
    have hdrop := List.drop_eq_getElem_cons hlt
    have hget : matching_vec.getD i false = matching_vec[i] := by
      simp [List.getD_eq_getElem?_getD, List.getElem?_eq_getElem hlt]
    simp only [forLoop]
    rw [ih (i + 1) _ (by simp at hi ⊢; omega), hdrop, hget]
    cases hb : matching_vec[i]
    · simp [List.filter_cons, List.mapIdx_cons, add_assoc, add_comm (1 : Int)]
    · simp [List.filter_cons]

/-- C3: for a claimed vector as long as the detection list, `makeNewTargets` keeps the
existing tracks and appends, in detection order, one track per detection whose claimed flag
is false, initialised from that detection's `(x, y)` with consecutive ids starting at
`target_id_`; nothing is appended for a claimed detection, no other member of the tracker
changes, and the number of new tracks plus the number of claimed detections is the number
of detections. -/
theorem makeNewTargets_spawns_unclaimed (E : Env R) (timestamp : R)
    (input : autoware_msgs.DetectedObjectArray R) (matching_vec : List Bool)
    (self : ImmUkfPda R) (hlen : matching_vec.length = input.objects.length) :
    makeNewTargets E timestamp input matching_vec self =
      { self with
          targets_ := self.targets_ ++
            List.mapIdx
              (fun k (d : autoware_msgs.DetectedObject R) =>
                E.initializeUKF ![d.pose.position.x, d.pose.position.y] timestamp
                  (self.target_id_ + k))
              (((input.objects.zip matching_vec).filter (fun p => !p.2)).map Prod.fst),
          target_id_ := self.target_id_ +
            (((input.objects.zip matching_vec).filter (fun p => !p.2)).map Prod.fst).length } ∧
    (makeNewTargets E timestamp input matching_vec self).targets_.length =
      self.targets_.length +
        (((input.objects.zip matching_vec).filter (fun p => !p.2)).map Prod.fst).length ∧
    (((input.objects.zip matching_vec).filter (fun p => !p.2)).map Prod.fst).length +
      matching_vec.count true = input.objects.length := by
  have h := makeNewTargets_loop E timestamp matching_vec input.objects 0 self (by omega)
  rw [List.drop_zero] at h
  refine ⟨h, ?_, ?_⟩
  · unfold makeNewTargets
    rw [h]
    simp
  · rw [List.length_map]
    exact zip_unclaimed_length input.objects matching_vec hlen

/-- Witness for C3: two detections, the first claimed, the second not. -/
theorem makeNewTargets_spawns_unclaimed_witness :
    [true, false].length =
      ({ stamp := 1, objects := [Sample.object 1 0, Sample.object 5 5] } :
        autoware_msgs.DetectedObjectArray ℚ).objects.length ∧
    (makeNewTargets Sample.env 1 { stamp := 1, objects := [Sample.object 1 0, Sample.object 5 5] }
      [true, false] Sample.immUkfPda).targets_.length =
      Sample.immUkfPda.targets_.length +
        ((([Sample.object 1 0, Sample.object 5 5].zip [true, false]).filter
          (fun p => !p.2)).map Prod.fst).length :=
  ⟨rfl, (makeNewTargets_spawns_unclaimed Sample.env 1
    { stamp := 1, objects := [Sample.object 1 0, Sample.object 5 5] } [true, false]
    Sample.immUkfPda rfl).2.1⟩

end ImmUkfPda

/-! ### Track ids through `probabilisticDataAssociation` and the tracker loop -/

namespace ImmUkfPda
variable {R : Type}

theorem updateTrackingNum_ukf_id (object_vec : List (autoware_msgs.DetectedObject R))
    (target : UKF R) : (updateTrackingNum object_vec target).ukf_id_ = target.ukf_id_ := by
  unfold updateTrackingNum
  split_ifs <;> rfl

variable [LinearOrderedField R]

theorem associateBB_ukf_id (E : Env R) (self : ImmUkfPda R)
    (object_vec : List (autoware_msgs.DetectedObject R)) (target : UKF R) :
    (associateBB E self object_vec target).ukf_id_ = target.ukf_id_ := by
  unfold associateBB
  dsimp only
  split_ifs <;> rfl

theorem secondInit_ukf_id [FloorRing R] (E : Env R) (target : UKF R)
    (object_vec : List (autoware_msgs.DetectedObject R)) (dt : R) :
    (secondInit E target object_vec dt).ukf_id_ = target.ukf_id_ := by
  cases object_vec <;> rfl

theorem filterPDA_ukf_id [FloorRing R] (E : Env R) (self : ImmUkfPda R) (target : UKF R)
    (object_vec : List (autoware_msgs.DetectedObject R)) (lambda_vec : List R) :
    (filterPDA E self target object_vec lambda_vec).1.ukf_id_ = target.ukf_id_ := rfl

theorem measurementValidation_ukf_id (E : Env R) (self : ImmUkfPda R)
    (input : autoware_msgs.DetectedObjectArray R) (target : UKF R) (b : Bool)
    (z : Fin 2 → R) (s : Matrix (Fin 2) (Fin 2) R)
    (object_vec : List (autoware_msgs.DetectedObject R)) (matching_vec : List Bool) :
    (measurementValidation E self input target b z s object_vec matching_vec).target.ukf_id_ =
      target.ukf_id_ := by
  rw [measurementValidation_target]

theorem probabilisticDataAssociation_ukf_id [FloorRing R] (E : Env R) (self : ImmUkfPda R)
    (input : autoware_msgs.DetectedObjectArray R) (dt det_explode_param : R)
    (matching_vec : List Bool) (lambda_vec : List R) (target : UKF R) :
    (probabilisticDataAssociation E self input dt det_explode_param matching_vec lambda_vec
      target).target.ukf_id_ = target.ukf_id_ := by
  unfold probabilisticDataAssociation
  dsimp only
  split_ifs
  · rfl
  · rw [secondInit_ukf_id, associateBB_ukf_id, measurementValidation_ukf_id]
  · rw [updateTrackingNum_ukf_id, associateBB_ukf_id, measurementValidation_ukf_id]
  · rw [filterPDA_ukf_id, updateTrackingNum_ukf_id, associateBB_ukf_id,
      measurementValidation_ukf_id]

theorem trackerBody_ukf_id [FloorRing R] (E : Env R) (self : ImmUkfPda R)
    (input : autoware_msgs.DetectedObjectArray R) (dt det_explode_param cov_explode_param : R)
    (target : UKF R) (matching_vec : List Bool)
    (hpred : ∀ (dt : R) (t : UKF R), (E.predictionIMMUKF dt t).ukf_id_ = t.ukf_id_)
    (hupd : ∀ (lambda_vec : List R) (t : UKF R), (E.updateIMMUKF lambda_vec t).ukf_id_ = t.ukf_id_) :
    (trackerBody E self input dt det_explode_param cov_explode_param target matching_vec).1.ukf_id_ =
      target.ukf_id_ := by
  unfold trackerBody
  dsimp only
  split_ifs
  · rfl
  · rfl
  · rw [probabilisticDataAssociation_ukf_id, hpred]
  · rw [hupd, probabilisticDataAssociation_ukf_id, hpred]

theorem trackerBody_die [FloorRing R] (E : Env R) (self : ImmUkfPda R)
    (input : autoware_msgs.DetectedObjectArray R) (dt det_explode_param cov_explode_param : R)
    (target : UKF R) (matching_vec : List Bool)
    (h : target.tracking_num_ = TrackingState.Die) :
    (trackerBody E self input dt det_explode_param cov_explode_param target matching_vec).1.tracking_num_ =
      TrackingState.Die := by
  unfold trackerBody
  simp [h]

end ImmUkfPda

/-! ### The loops of one tick -/

namespace ImmUkfPda
variable {R : Type}

theorem foldl_acc_forall2 {α β γ : Type} (f : α → γ → β × γ) (Rel : α → β → Prop)
    (h : ∀ a c, Rel a (f a c).1) (l : List α) :
    ∀ (acc : List β × γ), ∃ out,
      (l.foldl (fun (acc : List β × γ) a => (acc.1 ++ [(f a acc.2).1], (f a acc.2).2)) acc).1 =
        acc.1 ++ out ∧ List.Forall₂ Rel l out := by
  induction l with
  | nil => intro acc; exact ⟨[], by simp, List.Forall₂.nil⟩
  | cons a l ih =>
    intro acc
    obtain ⟨out, hout, hrel⟩ := ih (acc.1 ++ [(f a acc.2).1], (f a acc.2).2)
    refine ⟨(f a acc.2).1 :: out, ?_, List.Forall₂.cons (h a acc.2) hrel⟩
    rw [List.foldl_cons, hout]
    simp

theorem removeUnnecessaryTarget_foldl (l : List (UKF R)) :
    ∀ (acc : List (UKF R)),
      l.foldl (fun (temp_targets : List (UKF R)) target =>
        if target.tracking_num_ ≠ TrackingState.Die then temp_targets ++ [target]
        else temp_targets) acc =
      acc ++ l.filter (fun t => decide (t.tracking_num_ ≠ TrackingState.Die)) := by
  induction l with
  | nil => intro acc; simp
  | cons t l ih =>
    intro acc
    rw [List.foldl_cons, ih]
    by_cases h : t.tracking_num_ = TrackingState.Die <;> simp [h, List.filter_cons]

theorem removeUnnecessaryTarget_eq (self : ImmUkfPda R) :
    removeUnnecessaryTarget self =
      { self with targets_ :=
          self.targets_.filter (fun t => decide (t.tracking_num_ ≠ TrackingState.Die)) } := by
  unfold removeUnnecessaryTarget
  rw [removeUnnecessaryTarget_foldl]
  simp

theorem makeNewTargets_ids (E : Env R) (timestamp : R) (matching_vec : List Bool)
    (hinit : ∀ (m : Fin 2 → R) (t : R) (id : Int), (E.initializeUKF m t id).ukf_id_ = id)
    (l : List (autoware_msgs.DetectedObject R)) :
    ∀ (i : Nat) (self : ImmUkfPda R), ∃ news : List (UKF R),
      forLoop
        (fun i (obj : autoware_msgs.DetectedObject R) (self : ImmUkfPda R) =>
          if matching_vec.getD i false = false then
            let px := obj.pose.position.x
            let py := obj.pose.position.y
            let init_meas : Fin 2 → R := ![px, py]
            let ukf := E.initializeUKF init_meas timestamp self.target_id_
            { self with targets_ := self.targets_ ++ [ukf], target_id_ := self.target_id_ + 1 }
          else self)
        i l self =
        { self with targets_ := self.targets_ ++ news,
                    target_id_ := self.target_id_ + news.length } ∧
      news.map UKF.ukf_id_ = (List.range news.length).map (fun (k : Nat) => self.target_id_ + (k : Int)) := by
  induction l with
  | nil => intro i self; exact ⟨[], by simp [forLoop], by simp⟩
  | cons d l ih =>
    intro i self
    simp only [forLoop]
    by_cases hb : matching_vec.getD i false = false
    · simp only [hb, if_true]
      obtain ⟨news, hloop, hids⟩ := ih (i + 1)
        { self with
            targets_ := self.targets_ ++
              [E.initializeUKF ![d.pose.position.x, d.pose.position.y] timestamp self.target_id_],
            target_id_ := self.target_id_ + 1 }
      refine ⟨E.initializeUKF ![d.pose.position.x, d.pose.position.y] timestamp self.target_id_ ::
        news, ?_, ?_⟩
      · rw [hloop]
        simp [add_assoc, add_comm (1 : Int)]
      · rw [List.map_cons, hids, hinit, List.length_cons, List.range_succ_eq_map]
        simp [Function.comp_def, add_assoc, add_comm (1 : Int)]
    · simp only [hb, if_false]
      exact ih (i + 1) self

theorem initTracker_ids (E : Env R) (timestamp : R)
    (hinit : ∀ (m : Fin 2 → R) (t : R) (id : Int), (E.initializeUKF m t id).ukf_id_ = id)
    (l : List (autoware_msgs.DetectedObject R)) :
    ∀ (i : Nat) (self : ImmUkfPda R), ∃ news : List (UKF R),
      forLoop
        (fun _ (obj : autoware_msgs.DetectedObject R) (self : ImmUkfPda R) =>
          let px := obj.pose.position.x
          let py := obj.pose.position.y
          let init_meas : Fin 2 → R := ![px, py]
          let ukf := E.initializeUKF init_meas timestamp self.target_id_
          { self with targets_ := self.targets_ ++ [ukf], target_id_ := self.target_id_ + 1 })
        i l self =
        { self with targets_ := self.targets_ ++ news,
                    target_id_ := self.target_id_ + news.length } ∧
      news.map UKF.ukf_id_ = (List.range news.length).map (fun (k : Nat) => self.target_id_ + (k : Int)) := by
  induction l with
  | nil => intro i self; exact ⟨[], by simp [forLoop], by simp⟩
  | cons d l ih =>
    intro i self
    simp only [forLoop]
    obtain ⟨news, hloop, hids⟩ := ih (i + 1)
      { self with
          targets_ := self.targets_ ++
            [E.initializeUKF ![d.pose.position.x, d.pose.position.y] timestamp self.target_id_],
          target_id_ := self.target_id_ + 1 }
    refine ⟨E.initializeUKF ![d.pose.position.x, d.pose.position.y] timestamp self.target_id_ ::
      news, ?_, ?_⟩
    · rw [hloop]
      simp [add_assoc, add_comm (1 : Int)]
    · rw [List.map_cons, hids, hinit, List.length_cons, List.range_succ_eq_map]
      simp [Function.comp_def, add_assoc, add_comm (1 : Int)]

variable [LinearOrderedField R]

theorem staticClassificationBody_id_num (self : ImmUkfPda R) (target : UKF R) :
    (staticClassificationBody self target).ukf_id_ = target.ukf_id_ ∧
    (staticClassificationBody self target).tracking_num_ = target.tracking_num_ := by
  unfold staticClassificationBody
  dsimp only
  split_ifs <;> exact ⟨rfl, rfl⟩

theorem makeOutputBody_targets [FloorRing R] (E : Env R) (yaw : R) (t : UKF R)
    (out : List (UKF R) × List (jsk_recognition_msgs.BoundingBox R) ×
      List (autoware_msgs.DetectedObject R)) :
    ∃ v : UKF R, (makeOutputBody E yaw t out).1 = out.1 ++ [v] ∧
      v.ukf_id_ = t.ukf_id_ ∧ v.tracking_num_ = t.tracking_num_ := by
  unfold makeOutputBody
  dsimp only
  split_ifs
  · exact ⟨_, rfl, rfl, rfl⟩
  · exact ⟨_, rfl, rfl, rfl⟩

theorem makeOutput_foldl [FloorRing R] (E : Env R) (yaw : R) (l : List (UKF R)) :
    ∀ (out : List (UKF R) × List (jsk_recognition_msgs.BoundingBox R) ×
        List (autoware_msgs.DetectedObject R)), ∃ final : List (UKF R),
      (l.foldl (fun out target => makeOutputBody E yaw target out) out).1 = out.1 ++ final ∧
      List.Forall₂ (fun (u v : UKF R) => v.ukf_id_ = u.ukf_id_ ∧
        v.tracking_num_ = u.tracking_num_) l final := by
  induction l with
  | nil => intro out; exact ⟨[], by simp, List.Forall₂.nil⟩
  | cons t l ih =>
    intro out
    obtain ⟨final, hfinal, hrel⟩ := ih (makeOutputBody E yaw t out)
    obtain ⟨v, hv, hid, hnum⟩ := makeOutputBody_targets E yaw t out
    refine ⟨v :: final, ?_, List.Forall₂.cons ⟨hid, hnum⟩ hrel⟩
    rw [List.foldl_cons, hfinal, hv]
    simp

end ImmUkfPda

/-! ### The shape of one tick -/

namespace ImmUkfPda
variable {R : Type} [LinearOrderedField R]

/-- The shape of one tick of an initialised tracker: every old track is processed in place
(same id, Die stays Die), new tracks get the next ids, classification and output keep id
and `tracking_num_`, and the tracks in Die are dropped at the end. -/
theorem tracker_structure [FloorRing R] (E : Env R) (yaw : R)
    (input : autoware_msgs.DetectedObjectArray R) (self : ImmUkfPda R)
    (jskbboxes_output : List (jsk_recognition_msgs.BoundingBox R))
    (detected_objects_output : List (autoware_msgs.DetectedObject R))
    (hinit : ∀ (m : Fin 2 → R) (t : R) (id : Int), (E.initializeUKF m t id).ukf_id_ = id)
    (hpred : ∀ (dt : R) (t : UKF R), (E.predictionIMMUKF dt t).ukf_id_ = t.ukf_id_)
    (hupd : ∀ (lambda_vec : List R) (t : UKF R), (E.updateIMMUKF lambda_vec t).ukf_id_ = t.ukf_id_)
    (hi : self.init_ = true) :
    ∃ processed news final : List (UKF R),
      List.Forall₂ (fun (t u : UKF R) => u.ukf_id_ = t.ukf_id_ ∧
        (t.tracking_num_ = TrackingState.Die → u.tracking_num_ = TrackingState.Die))
        self.targets_ processed ∧
      news.map UKF.ukf_id_ =
        (List.range news.length).map (fun (k : Nat) => self.target_id_ + (k : Int)) ∧
      (tracker E yaw input self jskbboxes_output detected_objects_output).self.target_id_ =
        self.target_id_ + news.length ∧
      List.Forall₂ (fun (u v : UKF R) => v.ukf_id_ = u.ukf_id_ ∧
        v.tracking_num_ = u.tracking_num_) (processed ++ news) final ∧
      (tracker E yaw input self jskbboxes_output detected_objects_output).self.targets_ =
        final.filter (fun t => decide (t.tracking_num_ ≠ TrackingState.Die)) := by
  obtain ⟨processed, hproc, hrel1⟩ := foldl_acc_forall2
    (fun (target : UKF R) (mv : List Bool) =>
      trackerBody E { self with timestamp_ := input.stamp } input (input.stamp - self.timestamp_)
        10 1000 target mv)
    (fun (t u : UKF R) => u.ukf_id_ = t.ukf_id_ ∧
        (t.tracking_num_ = TrackingState.Die → u.tracking_num_ = TrackingState.Die))
    (fun t mv => ⟨trackerBody_ukf_id E _ input _ 10 1000 t mv hpred hupd,
      trackerBody_die E _ input _ 10 1000 t mv⟩)
    self.targets_ ([], List.replicate input.objects.length false)
  simp only [List.nil_append] at hproc
  unfold tracker
  dsimp only
  rw [if_neg (by simp [hi]), hproc]
  generalize (List.foldl _ ([], List.replicate input.objects.length false) self.targets_).2 = mvf
  obtain ⟨news, hloop, hids⟩ := makeNewTargets_ids E input.stamp mvf hinit input.objects 0
    { self with timestamp_ := input.stamp, targets_ := processed }
  unfold makeNewTargets
  rw [hloop]
  unfold staticClassification
  unfold makeOutput
  dsimp only
  obtain ⟨final, hfinal, hrel2⟩ := makeOutput_foldl E yaw
    ((processed ++ news).map (staticClassificationBody
      { self with timestamp_ := input.stamp, targets_ := processed ++ news,
                  target_id_ := self.target_id_ + news.length }))
    ([], jskbboxes_output, detected_objects_output)
  simp only [List.nil_append] at hfinal
  rw [hfinal, removeUnnecessaryTarget_eq]
  refine ⟨processed, news, final, hrel1, hids, rfl, ?_, rfl⟩
  rw [List.forall₂_map_left_iff] at hrel2
  refine List.Forall₂.imp ?_ hrel2
  intro u v huv
  have hs := staticClassificationBody_id_num
    { self with timestamp_ := input.stamp, targets_ := processed ++ news,
                target_id_ := self.target_id_ + news.length } u
  exact ⟨huv.1.trans hs.1, huv.2.trans hs.2⟩

end ImmUkfPda

/-! ### Ids after one tick -/

namespace ImmUkfPda
variable {R : Type}

theorem forall2_map_eq {α β γ : Type} (f : α → γ) (g : β → γ) (l₁ : List α) (l₂ : List β)
    (h : List.Forall₂ (fun a b => g b = f a) l₁ l₂) : l₂.map g = l₁.map f := by
  induction h with
  | nil => rfl
  | cons hab _ ih => simp [hab, ih]

theorem forall2_exists_left {α β : Type} (Rel : α → β → Prop) (l₁ : List α) (l₂ : List β)
    (h : List.Forall₂ Rel l₁ l₂) : ∀ b ∈ l₂, ∃ a ∈ l₁, Rel a b := by
  induction h with
  | nil => intro b hb; simp at hb
  | cons hab _ ih =>
    intro b hb
    rcases List.mem_cons.mp hb with rfl | hmem
    · exact ⟨_, List.mem_cons_self _ _, hab⟩
    · obtain ⟨a, ha, hr⟩ := ih b hmem
      exact ⟨a, List.mem_cons_of_mem _ ha, hr⟩

/-- Appending the next `n` counter values to a duplicate-free list of ids below the counter
gives a duplicate-free list of ids below the advanced counter. -/
theorem ids_append_fresh (ids : List Int) (tid : Int) (n : Nat)
    (hnd : ids.Nodup) (hlt : ∀ i ∈ ids, i < tid) :
    (ids ++ (List.range n).map (fun (k : Nat) => tid + (k : Int))).Nodup ∧
    ∀ i ∈ ids ++ (List.range n).map (fun (k : Nat) => tid + (k : Int)), i < tid + n := by
  refine ⟨?_, ?_⟩
  · rw [List.nodup_append]
    refine ⟨hnd, ?_, ?_⟩
    · refine List.Nodup.map ?_ (List.nodup_range n)
      intro a b hab
      simp only at hab
      omega
    · intro i hi hi'
      obtain ⟨k, _, hk⟩ := List.mem_map.mp hi'
      have := hlt i hi
      omega
  · intro i hi
    rcases List.mem_append.mp hi with h | h
    · have := hlt i h
      omega
    · obtain ⟨k, hk, hk'⟩ := List.mem_map.mp h
      have := List.mem_range.mp hk
      omega

variable [LinearOrderedField R]

/-- One call of `tracker`, initialising or not: the counter advances by some `n ≥ 0` and
the ids in the track set afterwards are a sublist of the old ids followed by the `n`
counter values handed out. -/
theorem tracker_ids [FloorRing R] (E : Env R) (yaw : R)
    (input : autoware_msgs.DetectedObjectArray R) (self : ImmUkfPda R)
    (jskbboxes_output : List (jsk_recognition_msgs.BoundingBox R))
    (detected_objects_output : List (autoware_msgs.DetectedObject R))
    (hinit : ∀ (m : Fin 2 → R) (t : R) (id : Int), (E.initializeUKF m t id).ukf_id_ = id)
    (hpred : ∀ (dt : R) (t : UKF R), (E.predictionIMMUKF dt t).ukf_id_ = t.ukf_id_)
    (hupd : ∀ (lambda_vec : List R) (t : UKF R), (E.updateIMMUKF lambda_vec t).ukf_id_ = t.ukf_id_) :
    ∃ n : Nat,
      (tracker E yaw input self jskbboxes_output detected_objects_output).self.target_id_ =
        self.target_id_ + n ∧
      List.Sublist
        ((tracker E yaw input self jskbboxes_output detected_objects_output).self.targets_.map
          UKF.ukf_id_)
        (self.targets_.map UKF.ukf_id_ ++
          (List.range n).map (fun (k : Nat) => self.target_id_ + (k : Int))) := by
  by_cases hi : self.init_ = true
  · obtain ⟨processed, news, final, hrel1, hids, htid, hrel2, htargets⟩ :=
      tracker_structure E yaw input self jskbboxes_output detected_objects_output
        hinit hpred hupd hi
    refine ⟨news.length, htid, ?_⟩
    rw [htargets]
    have h1 : processed.map UKF.ukf_id_ = self.targets_.map UKF.ukf_id_ :=
      forall2_map_eq UKF.ukf_id_ UKF.ukf_id_ _ _ (List.Forall₂.imp (fun _ _ h => h.1) hrel1)
    have h2 : final.map UKF.ukf_id_ = (processed ++ news).map UKF.ukf_id_ :=
      forall2_map_eq UKF.ukf_id_ UKF.ukf_id_ _ _ (List.Forall₂.imp (fun _ _ h => h.1) hrel2)
    rw [← h1, ← hids, ← List.map_append, ← h2]
    exact List.Sublist.map _ (List.filter_sublist _)
  · obtain ⟨news, hloop, hids⟩ := initTracker_ids E input.stamp hinit input.objects 0 self
    refine ⟨news.length, ?_, ?_⟩
    · unfold tracker
      dsimp only
      rw [if_pos (by simpa using hi)]
      unfold initTracker
      rw [hloop]
    · unfold tracker
      dsimp only
      rw [if_pos (by simpa using hi)]
      unfold initTracker
      rw [hloop]
      dsimp only
      rw [List.map_append, hids]

end ImmUkfPda

/-! ### C4: ids are unique and never reused -/

namespace ImmUkfPda
variable {R : Type} [LinearOrderedField R]

/-- An id below the counter that is in the track set after a call of `tracker` was in the
track set before the call, and the counter does not decrease. -/
theorem tracker_step_ids [FloorRing R] (E : Env R) (yaw : R)
    (input : autoware_msgs.DetectedObjectArray R) (self : ImmUkfPda R)
    (jskbboxes_output : List (jsk_recognition_msgs.BoundingBox R))
    (detected_objects_output : List (autoware_msgs.DetectedObject R))
    (hinit : ∀ (m : Fin 2 → R) (t : R) (id : Int), (E.initializeUKF m t id).ukf_id_ = id)
    (hpred : ∀ (dt : R) (t : UKF R), (E.predictionIMMUKF dt t).ukf_id_ = t.ukf_id_)
    (hupd : ∀ (lambda_vec : List R) (t : UKF R), (E.updateIMMUKF lambda_vec t).ukf_id_ = t.ukf_id_) :
    self.target_id_ ≤
      (tracker E yaw input self jskbboxes_output detected_objects_output).self.target_id_ ∧
    ∀ t' ∈ (tracker E yaw input self jskbboxes_output detected_objects_output).self.targets_,
      t'.ukf_id_ < self.target_id_ → ∃ t ∈ self.targets_, t.ukf_id_ = t'.ukf_id_ := by
  obtain ⟨n, htid, hsub⟩ := tracker_ids E yaw input self jskbboxes_output
    detected_objects_output hinit hpred hupd
  refine ⟨by rw [htid]; omega, ?_⟩
  intro t' ht' hlt
  have hmem : t'.ukf_id_ ∈ self.targets_.map UKF.ukf_id_ ++
      (List.range n).map (fun (k : Nat) => self.target_id_ + (k : Int)) :=
    hsub.subset (List.mem_map_of_mem _ ht')
  rcases List.mem_append.mp hmem with h | h
  · obtain ⟨t, ht, hid⟩ := List.mem_map.mp h
    exact ⟨t, ht, hid⟩
  · obtain ⟨k, _, hk⟩ := List.mem_map.mp h
    omega

/-- Unique ids below the counter are kept by a call of `tracker`. -/
theorem tracker_step_inv [FloorRing R] (E : Env R) (yaw : R)
    (input : autoware_msgs.DetectedObjectArray R) (self : ImmUkfPda R)
    (jskbboxes_output : List (jsk_recognition_msgs.BoundingBox R))
    (detected_objects_output : List (autoware_msgs.DetectedObject R))
    (hinit : ∀ (m : Fin 2 → R) (t : R) (id : Int), (E.initializeUKF m t id).ukf_id_ = id)
    (hpred : ∀ (dt : R) (t : UKF R), (E.predictionIMMUKF dt t).ukf_id_ = t.ukf_id_)
    (hupd : ∀ (lambda_vec : List R) (t : UKF R), (E.updateIMMUKF lambda_vec t).ukf_id_ = t.ukf_id_)
    (hnd : (self.targets_.map UKF.ukf_id_).Nodup)
    (hlt : ∀ t ∈ self.targets_, t.ukf_id_ < self.target_id_) :
    ((tracker E yaw input self jskbboxes_output detected_objects_output).self.targets_.map
      UKF.ukf_id_).Nodup ∧
    ∀ t ∈ (tracker E yaw input self jskbboxes_output detected_objects_output).self.targets_,
      t.ukf_id_ <
        (tracker E yaw input self jskbboxes_output detected_objects_output).self.target_id_ := by
  obtain ⟨n, htid, hsub⟩ := tracker_ids E yaw input self jskbboxes_output
    detected_objects_output hinit hpred hupd
  have hfresh := ids_append_fresh (self.targets_.map UKF.ukf_id_) self.target_id_ n hnd
    (by
      intro i hi
      obtain ⟨t, ht, rfl⟩ := List.mem_map.mp hi
      exact hlt t ht)
  refine ⟨List.Nodup.sublist hsub hfresh.1, ?_⟩
  intro t ht
  rw [htid]
  exact hfresh.2 _ (hsub.subset (List.mem_map_of_mem _ ht))

/-- C4: in every tracker state reachable from construction by calls of `tracker`, the ids of
the tracks in the track set are pairwise distinct and smaller than the counter `target_id_`;
and from such a state on, through any further calls, the counter never decreases and a track
whose id is below the earlier counter value carries the id of a track that was in the set at
that earlier time, so an id handed out once (also to a track since removed) is never given to
another track. Machine integers are unbounded here, and `UKF::initialize` is assumed to store
the id it is passed and the two IMM steps to leave the id alone. -/
theorem track_ids_unique_never_reused [FloorRing R] (E : Env R)
    (hinit : ∀ (m : Fin 2 → R) (t : R) (id : Int), (E.initializeUKF m t id).ukf_id_ = id)
    (hpred : ∀ (dt : R) (t : UKF R), (E.predictionIMMUKF dt t).ukf_id_ = t.ukf_id_)
    (hupd : ∀ (lambda_vec : List R) (t : UKF R), (E.updateIMMUKF lambda_vec t).ukf_id_ = t.ukf_id_)
    (self : ImmUkfPda R) (hreach : Reachable E self) :
    ((self.targets_.map UKF.ukf_id_).Nodup ∧
      ∀ t ∈ self.targets_, t.ukf_id_ < self.target_id_) ∧
    ∀ later : ImmUkfPda R, TicksTo E self later →
      self.target_id_ ≤ later.target_id_ ∧
      ∀ t' ∈ later.targets_, t'.ukf_id_ < self.target_id_ →
        ∃ t ∈ self.targets_, t.ukf_id_ = t'.ukf_id_ := by
  refine ⟨?_, ?_⟩
  · induction hreach with
    | construct => exact ⟨by simp [construct], by simp [construct]⟩
    | tick yaw input s jsk det _ ih =>
      exact tracker_step_inv E yaw input s jsk det hinit hpred hupd ih.1 ih.2
  · intro later hticks
    induction hticks with
    | refl => exact ⟨le_refl _, fun t' ht' _ => ⟨t', ht', rfl⟩⟩
    | tick yaw input s jsk det _ ih =>
      obtain ⟨hle, hold⟩ := tracker_step_ids E yaw input s jsk det hinit hpred hupd
      refine ⟨le_trans ih.1 hle, ?_⟩
      intro t' ht' hlt
      obtain ⟨t1, ht1, hid1⟩ := hold t' ht' (lt_of_lt_of_le hlt ih.1)
      obtain ⟨t, ht, hid⟩ := ih.2 t1 ht1 (by rw [hid1]; exact hlt)
      exact ⟨t, ht, hid.trans hid1⟩

end ImmUkfPda

namespace Sample

theorem env_initialize_id (m : Fin 2 → ℚ) (t : ℚ) (id : Int) :
    (env.initializeUKF m t id).ukf_id_ = id := rfl

theorem env_prediction_id (dt : ℚ) (t : UKF ℚ) : (env.predictionIMMUKF dt t).ukf_id_ = t.ukf_id_ :=
  rfl

theorem env_update_id (lambda_vec : List ℚ) (t : UKF ℚ) :
    (env.updateIMMUKF lambda_vec t).ukf_id_ = t.ukf_id_ := rfl

end Sample


namespace ImmUkfPda
variable {R : Type} [LinearOrderedField R]

/-- Witness for C4: the state after the initialising tick on two detections. -/
theorem track_ids_unique_never_reused_witness :
    (∀ (m : Fin 2 → ℚ) (t : ℚ) (id : Int), (Sample.env.initializeUKF m t id).ukf_id_ = id) ∧
    (∀ (dt : ℚ) (t : UKF ℚ), (Sample.env.predictionIMMUKF dt t).ukf_id_ = t.ukf_id_) ∧
    (∀ (lambda_vec : List ℚ) (t : UKF ℚ),
      (Sample.env.updateIMMUKF lambda_vec t).ukf_id_ = t.ukf_id_) ∧
    Reachable Sample.env
      (tracker Sample.env 0 { stamp := 0, objects := [Sample.object 0 0, Sample.object 5 5] }
        Sample.immUkfPda [] []).self ∧
    ((tracker Sample.env 0 { stamp := 0, objects := [Sample.object 0 0, Sample.object 5 5] }
        Sample.immUkfPda [] []).self.targets_.map UKF.ukf_id_).Nodup :=
  ⟨Sample.env_initialize_id, Sample.env_prediction_id, Sample.env_update_id,
    Reachable.tick 0 _ _ [] [] (Reachable.construct 8 (922 / 100) (99 / 100) (9 / 10) 99 (1 / 2) 0 0),
    (track_ids_unique_never_reused Sample.env Sample.env_initialize_id Sample.env_prediction_id
      Sample.env_update_id _
      (Reachable.tick 0 _ _ [] []
        (Reachable.construct 8 (922 / 100) (99 / 100) (9 / 10) 99 (1 / 2) 0 0))).1.1⟩

/-! ### C5: tracks in Die are removed -/

/-- After a call of `tracker` on an initialised tracker no track in the set is in Die. -/
theorem tracker_no_die [FloorRing R] (E : Env R) (yaw : R)
    (input : autoware_msgs.DetectedObjectArray R) (self : ImmUkfPda R)
    (jskbboxes_output : List (jsk_recognition_msgs.BoundingBox R))
    (detected_objects_output : List (autoware_msgs.DetectedObject R))
    (hi : self.init_ = true) :
    ∀ t' ∈ (tracker E yaw input self jskbboxes_output detected_objects_output).self.targets_,
      t'.tracking_num_ ≠ TrackingState.Die := by
  unfold tracker
  dsimp only
  rw [if_neg (by simp [hi]), removeUnnecessaryTarget_eq]
  intro t' ht'
  simpa using (List.mem_filter.mp ht').2

/-- C5: `removeUnnecessaryTarget` changes nothing but the track set, which becomes the list
of the tracks whose `tracking_num_` is not Die, unchanged and in their original order; so
after every call of `tracker` on an initialised tracker no track in the set is in Die, and
(track ids being unique and below the counter, `UKF::initialize` storing the id and the IMM
steps keeping it) a track that was in Die when the call started is absent afterwards: no
track in the set has its id. -/
theorem removeUnnecessaryTarget_drops_die [FloorRing R] (E : Env R) (yaw : R)
    (input : autoware_msgs.DetectedObjectArray R) (self : ImmUkfPda R)
    (jskbboxes_output : List (jsk_recognition_msgs.BoundingBox R))
    (detected_objects_output : List (autoware_msgs.DetectedObject R)) :
    removeUnnecessaryTarget self =
      { self with targets_ :=
          self.targets_.filter (fun t => decide (t.tracking_num_ ≠ TrackingState.Die)) } ∧
    (self.init_ = true →
      (∀ t' ∈ (tracker E yaw input self jskbboxes_output detected_objects_output).self.targets_,
        t'.tracking_num_ ≠ TrackingState.Die) ∧
      ((∀ (m : Fin 2 → R) (t : R) (id : Int), (E.initializeUKF m t id).ukf_id_ = id) →
        (∀ (dt : R) (t : UKF R), (E.predictionIMMUKF dt t).ukf_id_ = t.ukf_id_) →
        (∀ (lambda_vec : List R) (t : UKF R),
          (E.updateIMMUKF lambda_vec t).ukf_id_ = t.ukf_id_) →
        (self.targets_.map UKF.ukf_id_).Nodup →
        (∀ t ∈ self.targets_, t.ukf_id_ < self.target_id_) →
        ∀ t ∈ self.targets_, t.tracking_num_ = TrackingState.Die →
          ∀ t' ∈ (tracker E yaw input self jskbboxes_output detected_objects_output).self.targets_,
            t'.ukf_id_ ≠ t.ukf_id_)) := by
  refine ⟨removeUnnecessaryTarget_eq self, ?_⟩
  intro hi
  refine ⟨tracker_no_die E yaw input self jskbboxes_output detected_objects_output hi, ?_⟩
  intro hinit hpred hupd hnd hlt t ht hdie t' ht' hid
  obtain ⟨processed, news, final, hrel1, hids, _, hrel2, htargets⟩ :=
    tracker_structure E yaw input self jskbboxes_output detected_objects_output
      hinit hpred hupd hi
  rw [htargets] at ht'
  obtain ⟨hfin, hnum⟩ := List.mem_filter.mp ht'
  have hnum' : t'.tracking_num_ ≠ TrackingState.Die := by simpa using hnum
  obtain ⟨u, hu, hu_id, hu_num⟩ := forall2_exists_left _ _ _ hrel2 t' hfin
  rcases List.mem_append.mp hu with hup | hun
  · obtain ⟨t0, ht0, ht0_id, ht0_die⟩ := forall2_exists_left _ _ _ hrel1 u hup
    have heq : t0 = t :=
      List.inj_on_of_nodup_map hnd ht0 ht (by rw [← ht0_id, ← hu_id, hid])
    subst heq
    exact hnum' (hu_num.trans (ht0_die hdie))
  · have hmem : u.ukf_id_ ∈ (List.range news.length).map
        (fun (k : Nat) => self.target_id_ + (k : Int)) := by
      rw [← hids]
      exact List.mem_map_of_mem _ hun
    obtain ⟨k, _, hk⟩ := List.mem_map.mp hmem
    have := hlt t ht
    omega

end ImmUkfPda

namespace ImmUkfPda

/-- Witness for C5: a tick without detections on a tracker that holds a Die track with id 0
and a Stable track with id 1. -/
theorem removeUnnecessaryTarget_drops_die_witness :
    Sample.stateWithDie.init_ = true ∧
    (Sample.stateWithDie.targets_.map UKF.ukf_id_).Nodup ∧
    (∀ t ∈ Sample.stateWithDie.targets_, t.ukf_id_ < Sample.stateWithDie.target_id_) ∧
    Sample.track 0 TrackingState.Die 0 ∈ Sample.stateWithDie.targets_ ∧
    (Sample.track 0 TrackingState.Die 0).tracking_num_ = TrackingState.Die ∧
    ∀ t' ∈ (tracker Sample.env 0 { stamp := 1, objects := [] } Sample.stateWithDie [] []
        ).self.targets_,
      t'.ukf_id_ ≠ (Sample.track 0 TrackingState.Die 0).ukf_id_ :=
  have hnd : (Sample.stateWithDie.targets_.map UKF.ukf_id_).Nodup := by
    simp [Sample.stateWithDie, Sample.track]
  have hlt : ∀ t ∈ Sample.stateWithDie.targets_, t.ukf_id_ < Sample.stateWithDie.target_id_ := by
    simp [Sample.stateWithDie, Sample.track]
  have hmem : Sample.track 0 TrackingState.Die 0 ∈ Sample.stateWithDie.targets_ := by
    simp [Sample.stateWithDie]
  ⟨rfl, hnd, hlt, hmem, rfl,
    ((removeUnnecessaryTarget_drops_die Sample.env 0 { stamp := 1, objects := [] }
      Sample.stateWithDie [] []).2 rfl).2 Sample.env_initialize_id Sample.env_prediction_id
      Sample.env_update_id hnd hlt _ hmem rfl⟩

end ImmUkfPda

/-! ### The yaw loops reach their exit condition -/

namespace ImmUkfPda
variable {R : Type} [LinearOrderedField R]

/-- With `M_PI > 0`, `fuel ≥ (a - M_PI) / (2 M_PI)` iterations bring the first yaw loop to
its exit condition, and more fuel does not change the result. -/
theorem whileAbove_fuel (pi : R) (hpi : 0 < pi) :
    ∀ (fuel : Nat) (a : R), (a - pi) / (2 * pi) ≤ fuel →
      ¬ (whileAbove pi fuel a > pi) ∧
      ∀ more : Nat, whileAbove pi (fuel + more) a = whileAbove pi fuel a := by
  have h2 : (0 : R) < 2 * pi := by positivity
  intro fuel
  induction fuel with
  | zero =>
    intro a ha
    have hle : a ≤ pi := by
      have := (div_le_iff₀ h2).mp ha
      simp only [Nat.cast_zero, zero_mul] at this
      linarith
    refine ⟨by simpa [whileAbove] using hle, ?_⟩
    intro more
    cases more with
    | zero => rfl
    | succ m => simp [whileAbove, not_lt.mpr hle]
  | succ n ih =>
    intro a ha
    have hstep : (a - 2 * pi - pi) / (2 * pi) ≤ n := by
      have := (div_le_iff₀ h2).mp ha
      rw [div_le_iff₀ h2]
      push_cast at this
      linarith
    by_cases hgt : a > pi
    · refine ⟨by simpa [whileAbove, hgt] using (ih _ hstep).1, ?_⟩
      intro more
      have := (ih _ hstep).2 more
      rw [Nat.add_right_comm]
      simpa [whileAbove, hgt] using this
    · refine ⟨by simp [whileAbove, hgt], ?_⟩
      intro more
      rw [Nat.add_right_comm]
      simp [whileAbove, hgt]

/-- The fuel `normalizeYaw` gives the first loop suffices when `M_PI > 0`. -/
theorem whileAbove_exit [FloorRing R] (pi : R) (hpi : 0 < pi) (a : R) :
    ¬ (whileAbove pi ⌈(a - pi) / (2 * pi)⌉₊ a > pi) :=
  (whileAbove_fuel pi hpi _ a (Nat.le_ceil _)).1

/-- With `M_PI > 0`, `fuel ≥ (-M_PI - a) / (2 M_PI)` iterations bring the second yaw loop
to its exit condition, and more fuel does not change the result. -/
theorem whileBelow_fuel (pi : R) (hpi : 0 < pi) :
    ∀ (fuel : Nat) (a : R), (-pi - a) / (2 * pi) ≤ fuel →
      ¬ (whileBelow pi fuel a < -pi) ∧
      ∀ more : Nat, whileBelow pi (fuel + more) a = whileBelow pi fuel a := by
  have h2 : (0 : R) < 2 * pi := by positivity
  intro fuel
  induction fuel with
  | zero =>
    intro a ha
    have hle : -pi ≤ a := by
      have := (div_le_iff₀ h2).mp ha
      simp only [Nat.cast_zero, zero_mul] at this
      linarith
    refine ⟨by simpa [whileBelow] using hle, ?_⟩
    intro more
    cases more with
    | zero => rfl
    | succ m => simp [whileBelow, not_lt.mpr hle]
  | succ n ih =>
    intro a ha
    have hstep : (-pi - (a + 2 * pi)) / (2 * pi) ≤ n := by
      have := (div_le_iff₀ h2).mp ha
      rw [div_le_iff₀ h2]
      push_cast at this
      linarith
    by_cases hlt : a < -pi
    · refine ⟨by simpa [whileBelow, hlt] using (ih _ hstep).1, ?_⟩
      intro more
      have := (ih _ hstep).2 more
      rw [Nat.add_right_comm]
      simpa [whileBelow, hlt] using this
    · refine ⟨by simp [whileBelow, hlt], ?_⟩
      intro more
      rw [Nat.add_right_comm]
      simp [whileBelow, hlt]

/-- The fuel `normalizeYaw` gives the second loop suffices when `M_PI > 0`. -/
theorem whileBelow_exit [FloorRing R] (pi : R) (hpi : 0 < pi) (a : R) :
    ¬ (whileBelow pi ⌈(-pi - a) / (2 * pi)⌉₊ a < -pi) :=
  (whileBelow_fuel pi hpi _ a (Nat.le_ceil _)).1

end ImmUkfPda

/-! ### Claimed flags after `measurementValidation` -/

namespace ImmUkfPda
variable {R : Type} [LinearOrderedField R]

theorem body_matching_vec_length (self : ImmUkfPda R) (b : Bool) (z : Fin 2 → R)
    (s : Matrix (Fin 2) (Fin 2) R) (i : Nat) (d : autoware_msgs.DetectedObject R)
    (st : MeasurementValidationState R) :
    (measurementValidationBody self b z s i d st).matching_vec.length =
      st.matching_vec.length := by
  cases b
  · rw [body_matching_vec_false]; split_ifs <;> simp
  · rw [body_matching_vec_true]; split_ifs <;> simp

theorem getD_set_true (v : List Bool) (i j : Nat) :
    (v.set i true).getD j false = true ↔ v.getD j false = true ∨ (j = i ∧ i < v.length) := by
  simp only [List.getD_eq_getElem?_getD, List.getElem?_set]
  by_cases hij : i = j
  · subst hij
    by_cases hlt : i < v.length
    · simp [hlt]
    · simp [hlt, List.getElem?_eq_none (not_lt.mp hlt)]
  · simp [hij, Ne.symm hij]

theorem body_matching_vec_getD (self : ImmUkfPda R) (b : Bool) (z : Fin 2 → R)
    (s : Matrix (Fin 2) (Fin 2) R) (i : Nat) (d : autoware_msgs.DetectedObject R)
    (st : MeasurementValidationState R) (j : Nat) :
    (measurementValidationBody self b z s i d st).matching_vec.getD j false = true ↔
      st.matching_vec.getD j false = true ∨
      (j = i ∧ i < st.matching_vec.length ∧ nis z s d < self.gating_thres_ ∧
        (b = true → nis z s d < st.smallest_nis)) := by
  cases b
  · rw [body_matching_vec_false]
    by_cases hg : nis z s d < self.gating_thres_
    · simp only [hg, if_true, getD_set_true]
      simp
    · simp [hg]
  · rw [body_matching_vec_true]
    by_cases hg : nis z s d < self.gating_thres_ ∧ nis z s d < st.smallest_nis
    · simp only [hg, and_self, if_true, getD_set_true]
      simp [hg.1, hg.2]
    · simp only [hg, if_false]
      constructor
      · exact Or.inl
      · rintro (h | ⟨_, _, h1, h2⟩)
        · exact h
        · exact absurd ⟨h1, by simpa using h2⟩ hg

theorem body_smallest_nis (self : ImmUkfPda R) (b : Bool) (z : Fin 2 → R)
    (s : Matrix (Fin 2) (Fin 2) R) (i : Nat) (d : autoware_msgs.DetectedObject R)
    (st : MeasurementValidationState R) :
    (measurementValidationBody self b z s i d st).smallest_nis =
      if b = true ∧ nis z s d < self.gating_thres_ ∧ nis z s d < st.smallest_nis then nis z s d
      else st.smallest_nis := by
  unfold measurementValidationBody
  cases b <;> by_cases hg : nis z s d < self.gating_thres_ <;>
    by_cases hm : st.matching_vec.getD i false = false <;>
    by_cases hs : nis z s d < st.smallest_nis <;>
    simp [hg, hm, hs, -List.getD_eq_getElem?_getD]

/-- Being below the running minimum after one more detection. -/
theorem lt_smallest_step (g m n0 n : R) :
    n < (if n0 < g ∧ n0 < m then n0 else m) ↔ n < m ∧ (n0 < g → n < n0) := by
  by_cases h : n0 < g ∧ n0 < m
  · rw [if_pos h]
    constructor
    · intro hn
      exact ⟨lt_trans hn h.2, fun _ => hn⟩
    · intro hn
      exact hn.2 h.1
  · rw [if_neg h]
    constructor
    · intro hn
      refine ⟨hn, fun hg => ?_⟩
      have : ¬ n0 < m := fun hlt => h ⟨hg, hlt⟩
      exact lt_of_lt_of_le hn (not_lt.mp this)
    · intro hn
      exact hn.1

/-- Which claimed flags are true after the loop of `measurementValidation`: those that
were true, and those of the gated detections (in second-init mode: of the gated detections
that were a new strict minimum when the loop reached them). -/
theorem loop_matching_vec_getD (self : ImmUkfPda R) (b : Bool) (z : Fin 2 → R)
    (s : Matrix (Fin 2) (Fin 2) R) (l : List (autoware_msgs.DetectedObject R)) :
    ∀ (i : Nat) (st : MeasurementValidationState R) (j : Nat),
      (forLoop (measurementValidationBody self b z s) i l st).matching_vec.getD j false = true ↔
        st.matching_vec.getD j false = true ∨
        (i ≤ j ∧ j < st.matching_vec.length ∧ ∃ d, l[j - i]? = some d ∧
          nis z s d < self.gating_thres_ ∧
          (b = true → nis z s d < st.smallest_nis ∧
            ∀ d' ∈ l.take (j - i), nis z s d' < self.gating_thres_ → nis z s d < nis z s d')) := by
  induction l with
  | nil =>
    intro i st j
    simp [forLoop]
  | cons d0 l ih =>
    intro i st j
    simp only [forLoop]
    rw [ih (i + 1) _ j, body_matching_vec_getD, body_matching_vec_length, body_smallest_nis]
    rcases Nat.lt_trichotomy j i with hlt | heq | hgt
    · constructor
      · rintro ((h | ⟨h, _⟩) | ⟨h, _⟩)
        · exact Or.inl h
        · omega
        · omega
      · rintro (h | ⟨h, _⟩)
        · exact Or.inl (Or.inl h)
        · omega
    · subst heq
      constructor
      · rintro ((h | ⟨_, hlen, hg, hb⟩) | ⟨h, _⟩)
        · exact Or.inl h
        · refine Or.inr ⟨le_refl _, hlen, d0, by simp, hg, fun hb' => ⟨hb hb', by simp⟩⟩
        · omega
      · rintro (h | ⟨_, hlen, d, hd, hg, hb⟩)
        · exact Or.inl (Or.inl h)
        · simp at hd
          subst hd
          exact Or.inl (Or.inr ⟨rfl, hlen, hg, fun hb' => (hb hb').1⟩)
    · have hji : j - i = (j - (i + 1)) + 1 := by omega
      constructor
      · rintro ((h | ⟨h, _⟩) | ⟨_, hlen, d, hd, hg, hb⟩)
        · exact Or.inl h
        · omega
        · refine Or.inr ⟨by omega, hlen, d, by rw [hji, List.getElem?_cons_succ]; exact hd, hg, ?_⟩
          intro hb'
          obtain ⟨h1, h2⟩ := hb hb'
          simp only [hb', true_and] at h1
          rw [lt_smallest_step] at h1
          refine ⟨h1.1, ?_⟩
          intro d' hd' hg'
          rw [hji, List.take_succ_cons] at hd'
          rcases List.mem_cons.mp hd' with rfl | hmem
          · exact h1.2 hg'
          · exact h2 d' hmem hg'
      · rintro (h | ⟨_, hlen, d, hd, hg, hb⟩)
        · exact Or.inl (Or.inl h)
        · rw [hji, List.getElem?_cons_succ] at hd
          refine Or.inr ⟨by omega, hlen, d, hd, hg, ?_⟩
          intro hb'
          obtain ⟨h1, h2⟩ := hb hb'
          simp only [hb', true_and]
          rw [lt_smallest_step]
          rw [hji, List.take_succ_cons] at h2
          exact ⟨⟨h1, fun hg0 => h2 d0 (List.mem_cons_self _ _) hg0⟩,
            fun d' hd' hg' => h2 d' (List.mem_cons_of_mem _ hd') hg'⟩

end ImmUkfPda

/-! ### Two concrete second-init passes -/

namespace Sample
open ImmUkfPda

/-- The second-init pass of `measurementValidation` over detections at `(1, 0)` and
`(2, 0)`, both inside the gate of a track at the origin: only the first flag is set. -/
theorem measurementValidation_two_gated :
    measurementValidation env immUkfPda { stamp := 1, objects := [object 1 0, object 2 0] }
      (track 0 TrackingState.Init 0) true 0 1 [] [false, false] =
      { target := track 0 TrackingState.Init 2, object_vec := [object 1 0],
        matching_vec := [true, false] } := by
  simp [measurementValidation, measurementValidationInit, forLoop, measurementValidationBody,
    nis_object, immUkfPda, ImmUkfPda.construct, env, track]
  norm_num

end Sample

namespace Sample
open ImmUkfPda

theorem nis_object_at (a b x y : ℚ) :
    nis ![a, b] 1 (object x y) = (x - a) * (x - a) + (y - b) * (y - b) := by
  simp [nis, inverse, object, Matrix.dotProduct, Fin.sum_univ_two]

/-- Two second-init passes in one frame over the single detection `(1, 0)`: the first for a
track predicted at the origin, the second, with the claimed vector the first one left, for a
track predicted at `(2, 0)`. Both select the detection. -/
theorem measurementValidation_shared_seed :
    measurementValidation env immUkfPda { stamp := 1, objects := [object 1 0] }
      (track 0 TrackingState.Init 0) true ![0, 0] 1 [] [false] =
      { target := track 0 TrackingState.Init 1, object_vec := [object 1 0],
        matching_vec := [true] } ∧
    measurementValidation env immUkfPda { stamp := 1, objects := [object 1 0] }
      (track 1 TrackingState.Init 0) true ![2, 0] 1 [] [true] =
      { target := track 1 TrackingState.Init 0, object_vec := [object 1 0],
        matching_vec := [true] } := by
  constructor
  · simp [measurementValidation, measurementValidationInit, forLoop, measurementValidationBody,
      nis_object_at, immUkfPda, ImmUkfPda.construct, env, track]
    norm_num
  · simp [measurementValidation, measurementValidationInit, forLoop, measurementValidationBody,
      nis_object_at, immUkfPda, ImmUkfPda.construct, env, track]
    norm_num

end Sample

/-! ### C6, C7 and the lifetime count -/

namespace ImmUkfPda
variable {R : Type} [LinearOrderedField R]

theorem body_matching_vec_drop (self : ImmUkfPda R) (b : Bool) (z : Fin 2 → R)
    (s : Matrix (Fin 2) (Fin 2) R) (i : Nat) (d : autoware_msgs.DetectedObject R)
    (st : MeasurementValidationState R) :
    (measurementValidationBody self b z s i d st).matching_vec.drop (i + 1) =
      st.matching_vec.drop (i + 1) := by
  cases b
  · rw [body_matching_vec_false]
    split_ifs
    · exact List.drop_set_of_lt _ _ (Nat.lt_succ_self i)
    · rfl
  · rw [body_matching_vec_true]
    split_ifs
    · exact List.drop_set_of_lt _ _ (Nat.lt_succ_self i)
    · rfl

/-- The loop of `measurementValidation` adds to `lifetime_` one for every detection that is
gated and whose claimed flag is false in the vector the loop started with. -/
theorem loop_lifetime (self : ImmUkfPda R) (b : Bool) (z : Fin 2 → R)
    (s : Matrix (Fin 2) (Fin 2) R) (l : List (autoware_msgs.DetectedObject R)) :
    ∀ (i : Nat) (st : MeasurementValidationState R), i + l.length ≤ st.matching_vec.length →
      (forLoop (measurementValidationBody self b z s) i l st).target.lifetime_ =
        st.target.lifetime_ +
          ((l.zip (st.matching_vec.drop i)).filter
            (fun p => decide (nis z s p.1 < self.gating_thres_) && !p.2)).length := by
  induction l with
  | nil => intro i st _; simp [forLoop]
  | cons d l ih =>
    intro i st hi
    have hlt : i < st.matching_vec.length := by simp at hi; omega
    have hget : st.matching_vec.getD i false = st.matching_vec[i] := by
      simp [List.getD_eq_getElem?_getD, List.getElem?_eq_getElem hlt]
    simp only [forLoop]
    rw [ih (i + 1) _ (by rw [body_matching_vec_length]; simp at hi ⊢; omega),
      body_matching_vec_drop, body_target, List.drop_eq_getElem_cons hlt, hget]
    by_cases hg : nis z s d < self.gating_thres_ <;> cases hb : st.matching_vec[i] <;>
      simp [hg, List.filter_cons, add_assoc, add_comm (1 : Int)]

/-- C6: for a track that is not in its second-init phase (`second_init = false`),
`measurementValidation` appends to `object_vec` exactly the detections whose squared
Mahalanobis distance `nis` to the predicted measurement is strictly below `gating_thres_`,
in input order; the gated list is the same for every incoming claimed vector (and every
track state), so it does not depend on what earlier tracks claimed. The innovation
covariance `s` is assumed non-singular, so that `nis` is `diffᵀ · s⁻¹ · diff`. -/
theorem measurementValidation_gated_list (E : Env R) (self : ImmUkfPda R)
    (input : autoware_msgs.DetectedObjectArray R) (z : Fin 2 → R)
    (s : Matrix (Fin 2) (Fin 2) R) (object_vec : List (autoware_msgs.DetectedObject R))
    (_hdet : s.det ≠ 0) :
    (∀ (target : UKF R) (matching_vec : List Bool),
      (measurementValidation E self input target false z s object_vec matching_vec).object_vec =
        object_vec ++
          input.objects.filter (fun d => decide (nis z s d < self.gating_thres_))) ∧
    (∀ (target₁ target₂ : UKF R) (matching_vec₁ matching_vec₂ : List Bool),
      (measurementValidation E self input target₁ false z s object_vec matching_vec₁).object_vec =
        (measurementValidation E self input target₂ false z s object_vec matching_vec₂).object_vec) := by
  have key : ∀ (target : UKF R) (matching_vec : List Bool),
      (measurementValidation E self input target false z s object_vec matching_vec).object_vec =
        object_vec ++
          input.objects.filter (fun d => decide (nis z s d < self.gating_thres_)) := by
    intro target matching_vec
    have h := loop_object_vec_false self z s input.objects 0
      (measurementValidationInit E target object_vec matching_vec)
    have hdone : (measurementValidationInit E target object_vec matching_vec).second_init_done =
        false := rfl
    unfold measurementValidation
    simp only [h.2, hdone, Bool.false_eq_true, if_false, h.1]
    rfl
  exact ⟨key, fun t₁ t₂ m₁ m₂ => (key t₁ m₁).trans (key t₂ m₂).symm⟩

/-- Witness for C6: unit innovation covariance, one detection inside the gate and one
outside, the first already claimed by an earlier track. -/
theorem measurementValidation_gated_list_witness :
    (1 : Matrix (Fin 2) (Fin 2) ℚ).det ≠ 0 ∧
    (measurementValidation Sample.env Sample.immUkfPda
        { stamp := 1, objects := [Sample.object 1 0, Sample.object 9 9] }
        (Sample.track 0 TrackingState.Stable 5) false 0 1 [] [true, false]).object_vec =
      [] ++ [Sample.object 1 0, Sample.object 9 9].filter
        (fun d => decide (nis 0 1 d < Sample.immUkfPda.gating_thres_)) :=
  ⟨Sample.det_one_ne_zero,
    (measurementValidation_gated_list Sample.env Sample.immUkfPda
      { stamp := 1, objects := [Sample.object 1 0, Sample.object 9 9] } 0 1 []
      Sample.det_one_ne_zero).1 (Sample.track 0 TrackingState.Stable 5) [true, false]⟩

/-- Counterexample to C7 as stated: a track in second-init with two gated detections, the
nearer one first. The second detection is inside the gate and was not claimed, yet its flag
is false after the call. -/
theorem measurementValidation_claimed_iff_gated_counterexample :
    ¬ ((measurementValidation Sample.env Sample.immUkfPda
          { stamp := 1, objects := [Sample.object 1 0, Sample.object 2 0] }
          (Sample.track 0 TrackingState.Init 0) true 0 1 [] [false, false]
        ).matching_vec.getD 1 false = true ↔
      ([false, false].getD 1 false = true ∨
        nis 0 1 (Sample.object 2 0) < Sample.immUkfPda.gating_thres_)) := by
  rw [Sample.measurementValidation_two_gated]
  intro h
  have hg : nis 0 1 (Sample.object 2 0) < Sample.immUkfPda.gating_thres_ := by
    rw [Sample.nis_object]
    norm_num [Sample.immUkfPda, ImmUkfPda.construct]
  have := h.mpr (Or.inr hg)
  simp at this

/-- C7 (amended): with a claimed vector as long as the detection list, a finite gate
threshold and a non-singular `s`, `measurementValidation` keeps the length of the claimed
vector and turns no flag from true to false. For a track that is not in second-init, the
flag of detection `i` is true afterwards if and only if it was true before or detection `i`
is within the gate. For a track in second-init, a flag that is true afterwards was true
before or belongs to a detection within the gate, and, when some detection is within the
gate, the flag of the one detection selected as the seed (the one returned in `object_vec`)
is true afterwards; which other gated detections get their flag set is left open. -/
theorem measurementValidation_claimed_flags (E : Env R) (self : ImmUkfPda R)
    (input : autoware_msgs.DetectedObjectArray R) (target : UKF R) (second_init : Bool)
    (z : Fin 2 → R) (s : Matrix (Fin 2) (Fin 2) R)
    (object_vec : List (autoware_msgs.DetectedObject R)) (matching_vec : List Bool)
    (hlen : matching_vec.length = input.objects.length)
    (hmax : self.gating_thres_ ≤ E.dbl_max)
    (_hdet : s.det ≠ 0) :
    (measurementValidation E self input target second_init z s object_vec matching_vec
      ).matching_vec.length = matching_vec.length ∧
    (∀ i : Nat, matching_vec.getD i false = true →
      (measurementValidation E self input target second_init z s object_vec matching_vec
        ).matching_vec.getD i false = true) ∧
    (second_init = false → ∀ (i : Nat) (hi : i < input.objects.length),
      ((measurementValidation E self input target second_init z s object_vec matching_vec
        ).matching_vec.getD i false = true ↔
        (matching_vec.getD i false = true ∨
          nis z s input.objects[i] < self.gating_thres_))) ∧
    (second_init = true →
      (∀ (i : Nat) (hi : i < input.objects.length),
        (measurementValidation E self input target second_init z s object_vec matching_vec
          ).matching_vec.getD i false = true →
        (matching_vec.getD i false = true ∨
          nis z s input.objects[i] < self.gating_thres_)) ∧
      ((∃ d ∈ input.objects, nis z s d < self.gating_thres_) →
        ∃ pre d post, input.objects = pre ++ d :: post ∧
          (measurementValidation E self input target second_init z s object_vec matching_vec
            ).object_vec = object_vec ++ [d] ∧
          (measurementValidation E self input target second_init z s object_vec matching_vec
            ).matching_vec.getD pre.length false = true)) := by
  have hloop := loop_matching_vec_getD self second_init z s input.objects 0
    (measurementValidationInit E target object_vec matching_vec)
  have hmv : (measurementValidationInit E target object_vec matching_vec).matching_vec =
      matching_vec := rfl
  have hsm : (measurementValidationInit E target object_vec matching_vec).smallest_nis =
      E.dbl_max := rfl
  refine ⟨?_, ?_, ?_, ?_⟩
  · rw [measurementValidation_matching_vec_eq, loop_matching_vec_length, hmv]
  · intro i h
    rw [measurementValidation_matching_vec_eq]
    exact (hloop i).mpr (Or.inl (by rw [hmv]; exact h))
  · intro hb i hi
    rw [measurementValidation_matching_vec_eq, hloop i, hmv, hsm, Nat.sub_zero,
      List.getElem?_eq_getElem hi]
    constructor
    · rintro (h | ⟨_, _, d, hd, hg, _⟩)
      · exact Or.inl h
      · simp only [Option.some.injEq] at hd
        subst hd
        exact Or.inr hg
    · rintro (h | hg)
      · exact Or.inl h
      · refine Or.inr ⟨Nat.zero_le _, by omega, _, rfl, hg, fun hb' => ?_⟩
        rw [hb] at hb'
        exact absurd hb' (by decide)
  · intro hb
    subst hb
    refine ⟨?_, ?_⟩
    · intro i hi
      rw [measurementValidation_matching_vec_eq, hloop i, hmv, Nat.sub_zero,
        List.getElem?_eq_getElem hi]
      rintro (h | ⟨_, _, d, hd, hg, _⟩)
      · exact Or.inl h
      · simp only [Option.some.injEq] at hd
        subst hd
        exact Or.inr hg
    · rintro ⟨d0, hd0, hg0⟩
      rcases measurementValidation_second_init_object_vec E self input target z s object_vec
          matching_vec hmax with ⟨hnone, _⟩ | ⟨pre, d, post, hl, hg, hpre, _, hov⟩
      · exact absurd hg0 (hnone d0 hd0)
      · refine ⟨pre, d, post, hl, hov, ?_⟩
        rw [measurementValidation_matching_vec_eq, hloop pre.length, hmv, hsm, Nat.sub_zero]
        refine Or.inr ⟨Nat.zero_le _, ?_, d, ?_, hg, fun _ => ⟨lt_of_lt_of_le hg hmax, ?_⟩⟩
        · rw [hlen, hl]
          simp
        · rw [hl]
          exact List.getElem?_append_right (le_refl _) |>.trans (by simp)
        · intro d' hd' hg'
          rw [hl] at hd'
          simp only [List.take_left'] at hd'
          exact hpre d' hd' hg'

/-- Witness for C7 (amended): the second-init pass over two gated detections; the nearer
one is selected and claimed. -/
theorem measurementValidation_claimed_flags_witness :
    [false, false].length =
      ({ stamp := 1, objects := [Sample.object 1 0, Sample.object 2 0] } :
        autoware_msgs.DetectedObjectArray ℚ).objects.length ∧
    Sample.immUkfPda.gating_thres_ ≤ Sample.env.dbl_max ∧
    (1 : Matrix (Fin 2) (Fin 2) ℚ).det ≠ 0 ∧
    (measurementValidation Sample.env Sample.immUkfPda
        { stamp := 1, objects := [Sample.object 1 0, Sample.object 2 0] }
        (Sample.track 0 TrackingState.Init 0) true 0 1 [] [false, false]
      ).matching_vec.length = [false, false].length :=
  ⟨rfl, Sample.gating_le_dbl_max, Sample.det_one_ne_zero,
    (measurementValidation_claimed_flags Sample.env Sample.immUkfPda
      { stamp := 1, objects := [Sample.object 1 0, Sample.object 2 0] }
      (Sample.track 0 TrackingState.Init 0) true 0 1 [] [false, false] rfl
      Sample.gating_le_dbl_max Sample.det_one_ne_zero).1⟩

end ImmUkfPda

/-! ### C8, C9, C10 -/

namespace ImmUkfPda
variable {R : Type} [LinearOrderedField R]

/-- In second-init mode the list `measurementValidation` returns is read off the running
minimum alone; neither the track nor the claimed vector enters. -/
theorem measurementValidation_second_init_fold (E : Env R) (self : ImmUkfPda R)
    (input : autoware_msgs.DetectedObjectArray R) (target : UKF R)
    (z : Fin 2 → R) (s : Matrix (Fin 2) (Fin 2) R)
    (object_vec : List (autoware_msgs.DetectedObject R)) (matching_vec : List Bool) :
    (measurementValidation E self input target true z s object_vec matching_vec).object_vec =
      if (input.objects.foldl
            (fun (acc : R × Bool × autoware_msgs.DetectedObject R) d =>
              if nis z s d < self.gating_thres_ ∧ nis z s d < acc.1 then (nis z s d, true, d)
              else acc)
            (E.dbl_max, false, autoware_msgs.DetectedObject.default)).2.1 = true then
        object_vec ++
          [(input.objects.foldl
            (fun (acc : R × Bool × autoware_msgs.DetectedObject R) d =>
              if nis z s d < self.gating_thres_ ∧ nis z s d < acc.1 then (nis z s d, true, d)
              else acc)
            (E.dbl_max, false, autoware_msgs.DetectedObject.default)).2.2]
      else object_vec := by
  have hfold := loop_smallest_true self z s input.objects 0
    (measurementValidationInit E target object_vec matching_vec)
  have hov := loop_object_vec_true self z s input.objects 0
    (measurementValidationInit E target object_vec matching_vec)
  have hinit : ((measurementValidationInit E target object_vec matching_vec).smallest_nis,
      (measurementValidationInit E target object_vec matching_vec).second_init_done,
      (measurementValidationInit E target object_vec matching_vec).smallest_meas_object) =
      (E.dbl_max, false, autoware_msgs.DetectedObject.default) := rfl
  have hov0 : (measurementValidationInit E target object_vec matching_vec).object_vec =
      object_vec := rfl
  rw [hinit] at hfold
  rw [hov0] at hov
  have hdone := congrArg (fun t => t.2.1) hfold
  have hobj := congrArg (fun t => t.2.2) hfold
  simp only at hdone hobj
  rw [← hdone, ← hobj]
  unfold measurementValidation
  dsimp only
  split_ifs
  · rw [hov]
  · rw [hov]

/-- C8: called with `second_init = true` and an empty `object_vec` (the gate threshold being
a finite double and `s` non-singular), `measurementValidation` returns the empty list if no
detection is within
the gate; otherwise it returns exactly one detection of the input, which is within the gate,
whose `nis` is at most that of every gated detection and strictly below that of every gated
detection before it in the input (the first of least `nis`). -/
theorem measurementValidation_second_init_picks_smallest (E : Env R) (self : ImmUkfPda R)
    (input : autoware_msgs.DetectedObjectArray R) (target : UKF R)
    (z : Fin 2 → R) (s : Matrix (Fin 2) (Fin 2) R) (matching_vec : List Bool)
    (hmax : self.gating_thres_ ≤ E.dbl_max)
    (_hdet : s.det ≠ 0) :
    ((¬ ∃ d ∈ input.objects, nis z s d < self.gating_thres_) →
      (measurementValidation E self input target true z s [] matching_vec).object_vec = []) ∧
    ((∃ d ∈ input.objects, nis z s d < self.gating_thres_) →
      ∃ pre d post, input.objects = pre ++ d :: post ∧
        (measurementValidation E self input target true z s [] matching_vec).object_vec = [d] ∧
        nis z s d < self.gating_thres_ ∧
        (∀ d' ∈ input.objects, nis z s d' < self.gating_thres_ → nis z s d ≤ nis z s d') ∧
        (∀ d' ∈ pre, nis z s d' < self.gating_thres_ → nis z s d < nis z s d')) := by
  rcases measurementValidation_second_init_object_vec E self input target z s [] matching_vec
      hmax with ⟨hnone, hov⟩ | ⟨pre, d, post, hl, hg, hpre, hpost, hov⟩
  · refine ⟨fun _ => hov, ?_⟩
    rintro ⟨d, hd, hg⟩
    exact absurd hg (hnone d hd)
  · refine ⟨fun hno => absurd ⟨d, by simp [hl], hg⟩ hno, fun _ => ?_⟩
    refine ⟨pre, d, post, hl, by simpa using hov, hg, ?_, hpre⟩
    intro d' hd' hg'
    rw [hl] at hd'
    rcases List.mem_append.mp hd' with h | h
    · exact le_of_lt (hpre d' h hg')
    · rcases List.mem_cons.mp h with rfl | h'
      · exact le_refl _
      · exact hpost d' h' hg'

/-- Witness for C8: the default gate threshold is a finite double; of two gated detections
at `(2, 0)` and `(1, 0)` one is returned. -/
theorem measurementValidation_second_init_picks_smallest_witness :
    Sample.immUkfPda.gating_thres_ ≤ Sample.env.dbl_max ∧
    (1 : Matrix (Fin 2) (Fin 2) ℚ).det ≠ 0 ∧
    ∃ pre d post, [Sample.object 2 0, Sample.object 1 0] = pre ++ d :: post ∧
      (measurementValidation Sample.env Sample.immUkfPda
        { stamp := 1, objects := [Sample.object 2 0, Sample.object 1 0] }
        (Sample.track 0 TrackingState.Init 0) true 0 1 [] [false, false]).object_vec = [d] ∧
      nis 0 1 d < Sample.immUkfPda.gating_thres_ ∧
      (∀ d' ∈ [Sample.object 2 0, Sample.object 1 0],
        nis 0 1 d' < Sample.immUkfPda.gating_thres_ → nis 0 1 d ≤ nis 0 1 d') ∧
      (∀ d' ∈ pre, nis 0 1 d' < Sample.immUkfPda.gating_thres_ → nis 0 1 d < nis 0 1 d') :=
  ⟨Sample.gating_le_dbl_max, Sample.det_one_ne_zero,
    (measurementValidation_second_init_picks_smallest Sample.env Sample.immUkfPda
      { stamp := 1, objects := [Sample.object 2 0, Sample.object 1 0] }
      (Sample.track 0 TrackingState.Init 0) 0 1 [false, false] Sample.gating_le_dbl_max
      Sample.det_one_ne_zero).2
      ⟨Sample.object 1 0, by simp, by
        rw [Sample.nis_object]
        norm_num [Sample.immUkfPda, ImmUkfPda.construct]⟩⟩

/-- Counterexample to C9 as stated: two Init tracks in one frame, predicted at `(0, 0)` and
`(2, 0)`, and one detection at `(1, 0)`. The earlier track claims and selects the detection;
the later track, handed the claimed vector the earlier one left, selects it too. -/
theorem second_init_at_most_one_track_counterexample :
    (measurementValidation Sample.env Sample.immUkfPda
        { stamp := 1, objects := [Sample.object 1 0] }
        (Sample.track 0 TrackingState.Init 0) true ![0, 0] 1 [] [false]).object_vec =
      [Sample.object 1 0] ∧
    (measurementValidation Sample.env Sample.immUkfPda
        { stamp := 1, objects := [Sample.object 1 0] }
        (Sample.track 0 TrackingState.Init 0) true ![0, 0] 1 [] [false]
      ).matching_vec.getD 0 false = true ∧
    (measurementValidation Sample.env Sample.immUkfPda
        { stamp := 1, objects := [Sample.object 1 0] }
        (Sample.track 1 TrackingState.Init 0) true ![2, 0] 1 []
        (measurementValidation Sample.env Sample.immUkfPda
          { stamp := 1, objects := [Sample.object 1 0] }
          (Sample.track 0 TrackingState.Init 0) true ![0, 0] 1 [] [false]).matching_vec
      ).object_vec = [Sample.object 1 0] := by
  rw [Sample.measurementValidation_shared_seed.1, Sample.measurementValidation_shared_seed.2]
  exact ⟨rfl, rfl, rfl⟩

/-- C9 (amended): a track in second-init selects at most one detection, and which one it
selects does not depend on the claimed vector it is handed: the later of two Init tracks
processed in the same tick selects the same seed as it would had the earlier track claimed
nothing, so the seed may be a detection the earlier track already claimed or selected. -/
theorem second_init_seed_ignores_claims (E : Env R) (self : ImmUkfPda R)
    (input : autoware_msgs.DetectedObjectArray R) (target₁ target₂ : UKF R)
    (z₁ z₂ : Fin 2 → R) (s₁ s₂ : Matrix (Fin 2) (Fin 2) R) (matching_vec : List Bool) :
    (measurementValidation E self input target₂ true z₂ s₂ []
        (measurementValidation E self input target₁ true z₁ s₁ [] matching_vec).matching_vec
      ).object_vec =
      (measurementValidation E self input target₂ true z₂ s₂ [] matching_vec).object_vec ∧
    (measurementValidation E self input target₂ true z₂ s₂ []
        (measurementValidation E self input target₁ true z₁ s₁ [] matching_vec).matching_vec
      ).object_vec.length ≤ 1 := by
  refine ⟨?_, ?_⟩
  · rw [measurementValidation_second_init_fold, measurementValidation_second_init_fold]
  · rw [measurementValidation_second_init_fold]
    split_ifs <;> simp

/-- C10: with a claimed vector as long as the detection list and a non-singular `s`,
`measurementValidation` (in either mode) increases `lifetime_` by exactly the number of
detections that are within the gate and whose claimed flag was false when the call
started. -/
theorem measurementValidation_lifetime (E : Env R) (self : ImmUkfPda R)
    (input : autoware_msgs.DetectedObjectArray R) (target : UKF R) (second_init : Bool)
    (z : Fin 2 → R) (s : Matrix (Fin 2) (Fin 2) R)
    (object_vec : List (autoware_msgs.DetectedObject R)) (matching_vec : List Bool)
    (hlen : matching_vec.length = input.objects.length)
    (_hdet : s.det ≠ 0) :
    (measurementValidation E self input target second_init z s object_vec matching_vec
      ).target.lifetime_ =
      target.lifetime_ +
        ((input.objects.zip matching_vec).filter
          (fun p => decide (nis z s p.1 < self.gating_thres_) && !p.2)).length := by
  have h := loop_lifetime self second_init z s input.objects 0
    (measurementValidationInit E target object_vec matching_vec)
    (by
      have : (measurementValidationInit E target object_vec matching_vec).matching_vec =
        matching_vec := rfl
      rw [this]
      omega)
  rw [measurementValidation_target_eq, h]
  rfl

/-- Witness for C10: one gated detection already claimed, one gated and unclaimed, one
outside the gate. -/
theorem measurementValidation_lifetime_witness :
    [true, false, false].length =
      ({ stamp := 1, objects := [Sample.object 1 0, Sample.object 2 0, Sample.object 9 9] } :
        autoware_msgs.DetectedObjectArray ℚ).objects.length ∧
    (1 : Matrix (Fin 2) (Fin 2) ℚ).det ≠ 0 ∧
    (measurementValidation Sample.env Sample.immUkfPda
        { stamp := 1, objects := [Sample.object 1 0, Sample.object 2 0, Sample.object 9 9] }
        (Sample.track 0 TrackingState.Stable 5) false 0 1 [] [true, false, false]
      ).target.lifetime_ =
      (Sample.track 0 TrackingState.Stable 5).lifetime_ +
        (([Sample.object 1 0, Sample.object 2 0, Sample.object 9 9].zip
            [true, false, false]).filter
          (fun p => decide (nis 0 1 p.1 < Sample.immUkfPda.gating_thres_) && !p.2)).length :=
  ⟨rfl, Sample.det_one_ne_zero, measurementValidation_lifetime Sample.env Sample.immUkfPda
    { stamp := 1, objects := [Sample.object 1 0, Sample.object 2 0, Sample.object 9 9] }
    (Sample.track 0 TrackingState.Stable 5) false 0 1 [] [true, false, false] rfl
    Sample.det_one_ne_zero⟩

end ImmUkfPda

/-! ### C11: how much `lifetime_` grows in one call -/

namespace ImmUkfPda
variable {R : Type}

theorem zip_filter_length_le {α : Type} (g : α → Bool) (l : List α) :
    ∀ (m : List Bool),
      ((l.zip m).filter (fun p => g p.1 && !p.2)).length ≤ (l.filter g).length := by
  induction l with
  | nil => intro m; simp
  | cons a l ih =>
    intro m
    cases m with
    | nil => simp
    | cons b m =>
      have ih' := ih m
      cases b <;> cases hg : g a <;> simp [List.filter_cons, hg] <;> omega

theorem zip_filter_length_all_false {α : Type} (g : α → Bool) (l : List α) :
    ∀ (m : List Bool), m.length = l.length → (∀ b ∈ m, b = false) →
      ((l.zip m).filter (fun p => g p.1 && !p.2)).length = (l.filter g).length := by
  induction l with
  | nil => intro m _ _; simp
  | cons a l ih =>
    intro m hm hall
    cases m with
    | nil => simp at hm
    | cons b m =>
      have hb : b = false := hall b (List.mem_cons_self _ _)
      have ih' := ih m (by simpa using hm) (fun b' hb' => hall b' (List.mem_cons_of_mem _ hb'))
      subst hb
      cases hg : g a <;> simp [List.filter_cons, hg, ih']

variable [LinearOrderedField R]

/-- Counterexample to C11 as stated: one second-init call over two gated, unclaimed
detections raises `lifetime_` from 0 to 2. -/
theorem measurementValidation_lifetime_at_most_one_counterexample :
    ¬ ((measurementValidation Sample.env Sample.immUkfPda
          { stamp := 1, objects := [Sample.object 1 0, Sample.object 2 0] }
          (Sample.track 0 TrackingState.Init 0) true 0 1 [] [false, false]).target.lifetime_ ≤
        (Sample.track 0 TrackingState.Init 0).lifetime_ + 1) := by
  rw [Sample.measurementValidation_two_gated]
  decide

/-- C11 (amended): `lifetime_` counts gated detections not yet claimed, not frames. With a
claimed vector as long as the detection list and a non-singular `s`, one call of
`measurementValidation` raises `lifetime_` by exactly the number of detections that are
within the gate and whose claimed flag was false on entry. So the call never lowers
`lifetime_` and raises it by at most the number of gated detections; by 0 when no
detection is gated, and by exactly the number of gated detections when no flag was set on
entry. -/
theorem measurementValidation_lifetime_bounds (E : Env R) (self : ImmUkfPda R)
    (input : autoware_msgs.DetectedObjectArray R) (target : UKF R) (second_init : Bool)
    (z : Fin 2 → R) (s : Matrix (Fin 2) (Fin 2) R)
    (object_vec : List (autoware_msgs.DetectedObject R)) (matching_vec : List Bool)
    (hlen : matching_vec.length = input.objects.length)
    (_hdet : s.det ≠ 0) :
    (measurementValidation E self input target second_init z s object_vec matching_vec
      ).target.lifetime_ =
      target.lifetime_ +
        ((input.objects.zip matching_vec).filter
          (fun p => decide (nis z s p.1 < self.gating_thres_) && !p.2)).length ∧
    target.lifetime_ ≤
      (measurementValidation E self input target second_init z s object_vec matching_vec
        ).target.lifetime_ ∧
    (measurementValidation E self input target second_init z s object_vec matching_vec
      ).target.lifetime_ ≤
      target.lifetime_ +
        (input.objects.filter (fun d => decide (nis z s d < self.gating_thres_))).length ∧
    ((∀ d ∈ input.objects, ¬ nis z s d < self.gating_thres_) →
      (measurementValidation E self input target second_init z s object_vec matching_vec
        ).target.lifetime_ = target.lifetime_) ∧
    ((∀ b ∈ matching_vec, b = false) →
      (measurementValidation E self input target second_init z s object_vec matching_vec
        ).target.lifetime_ =
        target.lifetime_ +
          (input.objects.filter (fun d => decide (nis z s d < self.gating_thres_))).length) := by
  have h := loop_lifetime self second_init z s input.objects 0
    (measurementValidationInit E target object_vec matching_vec)
    (by
      have : (measurementValidationInit E target object_vec matching_vec).matching_vec =
        matching_vec := rfl
      rw [this]
      omega)
  have h0 : (measurementValidationInit E target object_vec matching_vec).target.lifetime_ =
      target.lifetime_ := rfl
  have h1 : (measurementValidationInit E target object_vec matching_vec).matching_vec.drop 0 =
      matching_vec := rfl
  rw [h0, h1] at h
  rw [measurementValidation_target_eq, h]
  have hle := zip_filter_length_le (fun d => decide (nis z s d < self.gating_thres_))
    input.objects matching_vec
  refine ⟨rfl, by omega, by omega, ?_, ?_⟩
  · intro hnone
    have hnil : input.objects.filter (fun d => decide (nis z s d < self.gating_thres_)) = [] := by
      rw [List.filter_eq_nil_iff]
      intro d hd
      simpa using hnone d hd
    rw [hnil] at hle
    simp only [List.length_nil, Nat.le_zero] at hle
    rw [hle]
    simp
  · intro hall
    rw [zip_filter_length_all_false (fun d => decide (nis z s d < self.gating_thres_))
      input.objects matching_vec hlen hall]

/-- Witness for C11 (amended): two gated detections, none claimed. -/
theorem measurementValidation_lifetime_bounds_witness :
    [false, false].length =
      ({ stamp := 1, objects := [Sample.object 1 0, Sample.object 2 0] } :
        autoware_msgs.DetectedObjectArray ℚ).objects.length ∧
    (1 : Matrix (Fin 2) (Fin 2) ℚ).det ≠ 0 ∧
    (measurementValidation Sample.env Sample.immUkfPda
        { stamp := 1, objects := [Sample.object 1 0, Sample.object 2 0] }
        (Sample.track 0 TrackingState.Init 0) true 0 1 [] [false, false]).target.lifetime_ =
      (Sample.track 0 TrackingState.Init 0).lifetime_ +
        (([Sample.object 1 0, Sample.object 2 0].zip [false, false]).filter
          (fun p => decide (nis 0 1 p.1 < Sample.immUkfPda.gating_thres_) && !p.2)).length :=
  ⟨rfl, Sample.det_one_ne_zero, (measurementValidation_lifetime_bounds Sample.env
    Sample.immUkfPda { stamp := 1, objects := [Sample.object 1 0, Sample.object 2 0] }
    (Sample.track 0 TrackingState.Init 0) true 0 1 [] [false, false] rfl
    Sample.det_one_ne_zero).1⟩

/-! ### C12: the divergence guard of `probabilisticDataAssociation` -/

/-- C12: if the determinant of the max-determinant innovation covariance is NaN or exceeds
`det_explode_param`, `probabilisticDataAssociation` returns the claimed vector and
`lambda_vec` as they came, reports the track as skipped, and the track differs from the
incoming one in `tracking_num_` alone, which is Die: `lifetime_`, the BB-visible flag and
the states and covariances of the filters are untouched. -/
theorem probabilisticDataAssociation_guard [FloorRing R] (E : Env R) (self : ImmUkfPda R)
    (input : autoware_msgs.DetectedObjectArray R) (dt det_explode_param : R)
    (matching_vec : List Bool) (lambda_vec : List R) (target : UKF R)
    (hdet : E.isnan (findMaxZandS target).2.det = true ∨
      (findMaxZandS target).2.det > det_explode_param) :
    probabilisticDataAssociation E self input dt det_explode_param matching_vec lambda_vec target =
      { matching_vec := matching_vec, lambda_vec := lambda_vec,
        target := { target with tracking_num_ := TrackingState.Die },
        is_skip_target := true } := by
  unfold probabilisticDataAssociation
  simp only [hdet, if_true]

/-- Witness for C12: unit covariances (determinant 1) against a guard value of 1/2. -/
theorem probabilisticDataAssociation_guard_witness :
    (Sample.env.isnan (findMaxZandS (Sample.track 0 TrackingState.Stable 9)).2.det = true ∨
      (findMaxZandS (Sample.track 0 TrackingState.Stable 9)).2.det > 1 / 2) ∧
    probabilisticDataAssociation Sample.env Sample.immUkfPda
        { stamp := 1, objects := [Sample.object 1 0] } 1 (1 / 2) [false] []
        (Sample.track 0 TrackingState.Stable 9) =
      { matching_vec := [false], lambda_vec := [],
        target := { Sample.track 0 TrackingState.Stable 9 with
                      tracking_num_ := TrackingState.Die },
        is_skip_target := true } :=
  have h : Sample.env.isnan (findMaxZandS (Sample.track 0 TrackingState.Stable 9)).2.det = true ∨
      (findMaxZandS (Sample.track 0 TrackingState.Stable 9)).2.det > 1 / 2 := by
    rw [Sample.findMaxZandS_track]
    right
    norm_num
  ⟨h, probabilisticDataAssociation_guard Sample.env Sample.immUkfPda
    { stamp := 1, objects := [Sample.object 1 0] } 1 (1 / 2) [false] []
    (Sample.track 0 TrackingState.Stable 9) h⟩

end ImmUkfPda

/-! ### C13: `updateLabel` -/

namespace ImmUkfPda
variable {R : Type}

/-- Counterexample to C13 as stated: a track in Init (`tracking_num_ = 1`) that is not
static is labelled "Initialized", not "None". -/
theorem updateLabel_init_counterexample :
    (Sample.track 0 TrackingState.Init 0).is_static_ = false ∧
    (Sample.track 0 TrackingState.Init 0).tracking_num_ = 1 ∧
    (updateLabel (Sample.track 0 TrackingState.Init 0) (Sample.object 0 0)).label =
      "Initialized" ∧
    (updateLabel (Sample.track 0 TrackingState.Init 0) (Sample.object 0 0)).label ≠ "None" := by
  refine ⟨rfl, rfl, ?_, ?_⟩
  · simp [updateLabel, Sample.track]
  · simp [updateLabel, Sample.track]

/-- C13 (amended): `updateLabel` changes `dd.label` only. For a track whose `is_static_` is
false it writes "Initialized" if and only if `0 < tracking_num_ < 4` (so also for Init, 1),
"Stable" if and only if `tracking_num_ = 4`, "Lost" if and only if `4 < tracking_num_ ≤ 10`,
and "None" if and only if `tracking_num_ ≤ 0` or `tracking_num_ > 10`; for a track whose
`is_static_` is true it writes "Static" whatever `tracking_num_` is. -/
theorem updateLabel_table (target : UKF R) (dd : autoware_msgs.DetectedObject R) :
    updateLabel target dd = { dd with label := (updateLabel target dd).label } ∧
    (target.is_static_ = true → (updateLabel target dd).label = "Static") ∧
    (target.is_static_ = false →
      ((updateLabel target dd).label = "Initialized" ↔
        (0 < target.tracking_num_ ∧ target.tracking_num_ < 4)) ∧
      ((updateLabel target dd).label = "Stable" ↔ target.tracking_num_ = 4) ∧
      ((updateLabel target dd).label = "Lost" ↔
        (4 < target.tracking_num_ ∧ target.tracking_num_ ≤ 10)) ∧
      ((updateLabel target dd).label = "None" ↔
        (target.tracking_num_ ≤ 0 ∨ 10 < target.tracking_num_))) := by
  refine ⟨?_, ?_, ?_⟩
  · unfold updateLabel
    dsimp only
    split_ifs <;> rfl
  · intro hs
    unfold updateLabel
    simp [hs]
  · intro hs
    have key : (updateLabel target dd).label =
        if 0 < target.tracking_num_ ∧ target.tracking_num_ < 4 then "Initialized"
        else if target.tracking_num_ = 4 then "Stable"
        else if 4 < target.tracking_num_ ∧ target.tracking_num_ ≤ 10 then "Lost"
        else "None" := by
      unfold updateLabel
      simp only [hs, Bool.false_eq_true, if_false, TrackingState.Die, TrackingState.Stable,
        TrackingState.Lost, gt_iff_lt]
      split_ifs <;> rfl
    by_cases h1 : 0 < target.tracking_num_ ∧ target.tracking_num_ < 4
    · rw [key, if_pos h1]
      refine ⟨?_, ?_, ?_, ?_⟩ <;> constructor <;> intro h <;>
        first | exact h1 | rfl | exact absurd h (by decide) | omega
    · rw [key, if_neg h1]
      by_cases h2 : target.tracking_num_ = 4
      · rw [if_pos h2]
        refine ⟨?_, ?_, ?_, ?_⟩ <;> constructor <;> intro h <;>
          first | exact h2 | rfl | exact absurd h (by decide) | omega
      · rw [if_neg h2]
        by_cases h3 : 4 < target.tracking_num_ ∧ target.tracking_num_ ≤ 10
        · rw [if_pos h3]
          refine ⟨?_, ?_, ?_, ?_⟩ <;> constructor <;> intro h <;>
            first | exact h3 | rfl | exact absurd h (by decide) | omega
        · rw [if_neg h3]
          refine ⟨?_, ?_, ?_, ?_⟩ <;> constructor <;> intro h <;>
            first | rfl | exact absurd h (by decide) | omega

/-- Witness for C13 (amended): a track in Init that is not static. -/
theorem updateLabel_table_witness :
    (Sample.track 0 TrackingState.Init 0).is_static_ = false ∧
    (updateLabel (Sample.track 0 TrackingState.Init 0) (Sample.object 0 0)).label =
      "Initialized" :=
  ⟨rfl, (((updateLabel_table (Sample.track 0 TrackingState.Init 0) (Sample.object 0 0)).2.2
    rfl).1).mpr ⟨by decide, by decide⟩⟩

end ImmUkfPda

/-! ### C16, C17: `updateBB` -/

namespace ImmUkfPda
variable {R : Type} [LinearOrderedField R]

/-- C16: for a BB-visible track that has adopted a best box, after `updateBB` the area
`dx·dy` of the best box is the larger of the candidate's area and the previous best area, so
it never decreases; if the candidate's area is smaller, the emitted `jsk_bb_` takes the best
dimensions and the best box keeps its dimensions; if it is larger, the best box takes the
candidate's dimensions; if the areas are equal, neither box changes its dimensions. -/
theorem updateBB_dimensions (E : Env R) (self : ImmUkfPda R) (target : UKF R)
    (hvis : target.is_vis_bb_ = true) (hbest : target.is_best_jsk_bb_empty_ = true) :
    getJskBBoxArea (updateBB E self target).best_jsk_bb_ =
      max (getJskBBoxArea target.jsk_bb_) (getJskBBoxArea target.best_jsk_bb_) ∧
    getJskBBoxArea target.best_jsk_bb_ ≤ getJskBBoxArea (updateBB E self target).best_jsk_bb_ ∧
    (getJskBBoxArea target.jsk_bb_ < getJskBBoxArea target.best_jsk_bb_ →
      (updateBB E self target).jsk_bb_.dimensions = target.best_jsk_bb_.dimensions ∧
      (updateBB E self target).best_jsk_bb_.dimensions = target.best_jsk_bb_.dimensions) ∧
    (getJskBBoxArea target.jsk_bb_ > getJskBBoxArea target.best_jsk_bb_ →
      (updateBB E self target).best_jsk_bb_.dimensions = target.jsk_bb_.dimensions ∧
      (updateBB E self target).jsk_bb_.dimensions = target.jsk_bb_.dimensions) ∧
    (getJskBBoxArea target.jsk_bb_ = getJskBBoxArea target.best_jsk_bb_ →
      (updateBB E self target).jsk_bb_.dimensions = target.jsk_bb_.dimensions ∧
      (updateBB E self target).best_jsk_bb_.dimensions = target.best_jsk_bb_.dimensions) := by
  unfold updateBB
  simp only [hvis, hbest, not_true_eq_false, if_false, Bool.true_eq_false]
  by_cases hyaw : |getJskBBoxYaw E target.jsk_bb_ - target.best_yaw_| < self.bb_yaw_change_thres_
  · simp only [hyaw, if_true, getJskBBoxArea, sub_neg, sub_pos]
    rcases lt_trichotomy (target.jsk_bb_.dimensions.x * target.jsk_bb_.dimensions.y)
        (target.best_jsk_bb_.dimensions.x * target.best_jsk_bb_.dimensions.y) with h | h | h
    · simp [h, not_lt.mpr (le_of_lt h), max_eq_right (le_of_lt h), ne_of_lt h]
    · simp [h]
    · simp [h, not_lt.mpr (le_of_lt h), max_eq_left (le_of_lt h), le_of_lt h,
        (ne_of_lt h).symm]
  · simp only [hyaw, if_false, getJskBBoxArea, sub_neg, sub_pos]
    rcases lt_trichotomy (target.jsk_bb_.dimensions.x * target.jsk_bb_.dimensions.y)
        (target.best_jsk_bb_.dimensions.x * target.best_jsk_bb_.dimensions.y) with h | h | h
    · simp [h, not_lt.mpr (le_of_lt h), max_eq_right (le_of_lt h), ne_of_lt h]
    · simp [h]
    · simp [h, not_lt.mpr (le_of_lt h), max_eq_left (le_of_lt h), le_of_lt h,
        (ne_of_lt h).symm]

/-- Witness for C16: a best box of 2 × 2 and a candidate of 1 × 1. -/
theorem updateBB_dimensions_witness :
    Sample.boxedTrack.is_vis_bb_ = true ∧ Sample.boxedTrack.is_best_jsk_bb_empty_ = true ∧
    getJskBBoxArea (updateBB Sample.env Sample.immUkfPda Sample.boxedTrack).best_jsk_bb_ =
      max (getJskBBoxArea Sample.boxedTrack.jsk_bb_)
        (getJskBBoxArea Sample.boxedTrack.best_jsk_bb_) :=
  ⟨rfl, rfl, (updateBB_dimensions Sample.env Sample.immUkfPda Sample.boxedTrack rfl rfl).1⟩

/-- C17: for a BB-visible track that has adopted a best box, with
`Δyaw = yaw(jsk_bb_) − best_yaw_`: if `|Δyaw| < bb_yaw_change_thres_`, `updateBB` copies the
candidate's orientation into the best box and sets `best_yaw_` to the candidate's yaw;
otherwise it overwrites the candidate's orientation with the best box's and leaves
`best_yaw_` and the best box's orientation as they were; in both cases `jsk_bb_` and the
best box have the same orientation afterwards. -/
theorem updateBB_orientation (E : Env R) (self : ImmUkfPda R) (target : UKF R)
    (hvis : target.is_vis_bb_ = true) (hbest : target.is_best_jsk_bb_empty_ = true) :
    (|getJskBBoxYaw E target.jsk_bb_ - target.best_yaw_| < self.bb_yaw_change_thres_ →
      (updateBB E self target).best_jsk_bb_.pose.orientation = target.jsk_bb_.pose.orientation ∧
      (updateBB E self target).jsk_bb_.pose.orientation = target.jsk_bb_.pose.orientation ∧
      (updateBB E self target).best_yaw_ = getJskBBoxYaw E target.jsk_bb_) ∧
    (¬ |getJskBBoxYaw E target.jsk_bb_ - target.best_yaw_| < self.bb_yaw_change_thres_ →
      (updateBB E self target).jsk_bb_.pose.orientation =
        target.best_jsk_bb_.pose.orientation ∧
      (updateBB E self target).best_jsk_bb_.pose.orientation =
        target.best_jsk_bb_.pose.orientation ∧
      (updateBB E self target).best_yaw_ = target.best_yaw_) ∧
    (updateBB E self target).jsk_bb_.pose.orientation =
      (updateBB E self target).best_jsk_bb_.pose.orientation := by
  unfold updateBB
  simp only [hvis, hbest, not_true_eq_false, if_false, Bool.true_eq_false]
  by_cases hyaw : |getJskBBoxYaw E target.jsk_bb_ - target.best_yaw_| < self.bb_yaw_change_thres_
  · simp only [hyaw, if_true]
    split_ifs <;> simp
  · simp only [hyaw, if_false]
    split_ifs <;> simp

/-- Witness for C17: the sample track with an adopted best box. -/
theorem updateBB_orientation_witness :
    Sample.boxedTrack.is_vis_bb_ = true ∧ Sample.boxedTrack.is_best_jsk_bb_empty_ = true ∧
    (updateBB Sample.env Sample.immUkfPda Sample.boxedTrack).jsk_bb_.pose.orientation =
      (updateBB Sample.env Sample.immUkfPda Sample.boxedTrack).best_jsk_bb_.pose.orientation :=
  ⟨rfl, rfl, (updateBB_orientation Sample.env Sample.immUkfPda Sample.boxedTrack rfl rfl).2.2⟩

end ImmUkfPda

/-! ### C19: `secondInit` -/

namespace ImmUkfPda
variable {R : Type} [LinearOrderedField R]

/-- The yaw loops leave a value that is already within `[-M_PI, M_PI]` as it is. -/
theorem normalizeYaw_of_mem [FloorRing R] (E : Env R) (a : R)
    (hlo : -E.M_PI ≤ a) (hhi : a ≤ E.M_PI) : normalizeYaw E a = a := by
  have h1 : ∀ n : Nat, whileAbove E.M_PI n a = a := by
    intro n
    cases n with
    | zero => rfl
    | succ n => simp [whileAbove, not_lt.mpr hhi]
  have h2 : ∀ n : Nat, whileBelow E.M_PI n a = a := by
    intro n
    cases n with
    | zero => rfl
    | succ n => simp [whileBelow, not_lt.mpr hlo]
  unfold normalizeYaw
  simp only [h1, h2]

/-- C19: for a non-empty gated list and `dt > 0`, `secondInit` seeds the track from the
first gated detection: in `x_merge_`, `x_cv_`, `x_ctrv_` and `x_rm_` the position becomes
the detection's `(x, y)`, the speed the Euclidean distance between the detection and the
previous `x_merge_` position divided by `dt`, the yaw `atan2(Δy, Δx)` of that displacement
(`atan2` returning a value within `[-M_PI, M_PI]`), the yaw rate stays as it was, and
`init_meas_` records the previous `x_merge_` position. -/
theorem secondInit_seed [FloorRing R] (E : Env R) (target : UKF R)
    (obj0 : autoware_msgs.DetectedObject R) (rest : List (autoware_msgs.DetectedObject R))
    (dt : R) (_hdt : 0 < dt)
    (hlo : -E.M_PI ≤
      E.atan2 (obj0.pose.position.y - target.x_merge_ 1) (obj0.pose.position.x - target.x_merge_ 0))
    (hhi : E.atan2 (obj0.pose.position.y - target.x_merge_ 1)
      (obj0.pose.position.x - target.x_merge_ 0) ≤ E.M_PI) :
    (∀ x ∈ [((secondInit E target (obj0 :: rest) dt).x_merge_, target.x_merge_),
            ((secondInit E target (obj0 :: rest) dt).x_cv_, target.x_cv_),
            ((secondInit E target (obj0 :: rest) dt).x_ctrv_, target.x_ctrv_),
            ((secondInit E target (obj0 :: rest) dt).x_rm_, target.x_rm_)],
      x.1 0 = obj0.pose.position.x ∧
      x.1 1 = obj0.pose.position.y ∧
      x.1 2 =
        E.sqrt ((obj0.pose.position.x - target.x_merge_ 0) *
            (obj0.pose.position.x - target.x_merge_ 0) +
          (obj0.pose.position.y - target.x_merge_ 1) *
            (obj0.pose.position.y - target.x_merge_ 1)) / dt ∧
      x.1 3 =
        E.atan2 (obj0.pose.position.y - target.x_merge_ 1)
          (obj0.pose.position.x - target.x_merge_ 0) ∧
      x.1 4 = x.2 4) ∧
    (secondInit E target (obj0 :: rest) dt).init_meas_ =
      ![target.x_merge_ 0, target.x_merge_ 1] := by
  have hn := normalizeYaw_of_mem E _ hlo hhi
  refine ⟨?_, rfl⟩
  intro x hx
  simp only [List.mem_cons, List.mem_singleton, List.not_mem_nil, or_false] at hx
  rcases hx with rfl | rfl | rfl | rfl <;>
    simp [secondInit, hn, Function.update]

/-- Witness for C19: a track at the origin, a detection at `(1, 0)`, `dt = 1`. -/
theorem secondInit_seed_witness :
    (0 : ℚ) < 1 ∧
    (-Sample.env.M_PI ≤
      Sample.env.atan2 ((Sample.object 1 0).pose.position.y - (Sample.track 0 1 0).x_merge_ 1)
        ((Sample.object 1 0).pose.position.x - (Sample.track 0 1 0).x_merge_ 0)) ∧
    (Sample.env.atan2 ((Sample.object 1 0).pose.position.y - (Sample.track 0 1 0).x_merge_ 1)
        ((Sample.object 1 0).pose.position.x - (Sample.track 0 1 0).x_merge_ 0) ≤
      Sample.env.M_PI) ∧
    (secondInit Sample.env (Sample.track 0 1 0) [Sample.object 1 0] 1).init_meas_ =
      ![(Sample.track 0 1 0).x_merge_ 0, (Sample.track 0 1 0).x_merge_ 1] :=
  have hlo : -Sample.env.M_PI ≤
      Sample.env.atan2 ((Sample.object 1 0).pose.position.y - (Sample.track 0 1 0).x_merge_ 1)
        ((Sample.object 1 0).pose.position.x - (Sample.track 0 1 0).x_merge_ 0) := by
    norm_num [Sample.env]
  have hhi : Sample.env.atan2
      ((Sample.object 1 0).pose.position.y - (Sample.track 0 1 0).x_merge_ 1)
        ((Sample.object 1 0).pose.position.x - (Sample.track 0 1 0).x_merge_ 0) ≤
      Sample.env.M_PI := by
    norm_num [Sample.env]
  ⟨by norm_num, hlo, hhi,
    (secondInit_seed Sample.env (Sample.track 0 1 0) (Sample.object 1 0) [] 1 (by norm_num)
      hlo hhi).2⟩

end ImmUkfPda

/-! ### C15: `associateBB` and `getNearestEuclidCluster` -/

namespace ImmUkfPda
variable {R : Type} [LinearOrderedField R]

/-- The loop of `getNearestEuclidCluster`: either no element beats the starting distance
and nothing changes, or the loop ends at the first element of least distance. -/
theorem nearest_loop (dist : autoware_msgs.DetectedObject R → R)
    (l : List (autoware_msgs.DetectedObject R)) :
    ∀ (i : Nat) (st : R × Nat),
      ((∀ d ∈ l, ¬ dist d < st.1) ∧
        forLoop (fun i (obj : autoware_msgs.DetectedObject R) (st : R × Nat) =>
          if dist obj < st.1 then (dist obj, i) else st) i l st = st) ∨
      (∃ pre d post, l = pre ++ d :: post ∧ dist d < st.1 ∧
        (∀ d' ∈ pre, dist d < dist d') ∧ (∀ d' ∈ post, dist d ≤ dist d') ∧
        forLoop (fun i (obj : autoware_msgs.DetectedObject R) (st : R × Nat) =>
          if dist obj < st.1 then (dist obj, i) else st) i l st = (dist d, i + pre.length)) := by
  induction l with
  | nil => intro i st; left; simp [forLoop]
  | cons d0 l ih =>
    intro i st
    simp only [forLoop]
    by_cases h0 : dist d0 < st.1
    · simp only [h0, if_true]
      right
      rcases ih (i + 1) (dist d0, i) with ⟨hnone, heq⟩ | ⟨pre, d, post, hl, hlt, hpre, hpost, heq⟩
      · refine ⟨[], d0, l, rfl, h0, ?_, ?_, ?_⟩
        · intro d' hd'; simp at hd'
        · intro d' hd'; exact not_lt.mp (hnone d' hd')
        · simpa using heq
      · refine ⟨d0 :: pre, d, post, by simp [hl], lt_trans hlt h0, ?_, hpost, ?_⟩
        · intro d' hd'
          rcases List.mem_cons.mp hd' with rfl | hmem
          · exact hlt
          · exact hpre d' hmem
        · rw [heq]
          simp only [List.length_cons, Prod.mk.injEq, true_and]
          omega
    · simp only [h0, if_false]
      rcases ih (i + 1) st with ⟨hnone, heq⟩ | ⟨pre, d, post, hl, hlt, hpre, hpost, heq⟩
      · left
        refine ⟨?_, heq⟩
        intro d' hd'
        rcases List.mem_cons.mp hd' with rfl | hmem
        · exact h0
        · exact hnone d' hmem
      · right
        refine ⟨d0 :: pre, d, post, by simp [hl], hlt, ?_, hpost, ?_⟩
        · intro d' hd'
          rcases List.mem_cons.mp hd' with rfl | hmem
          · exact lt_of_lt_of_le hlt (not_lt.mp h0)
          · exact hpre d' hmem
        · rw [heq]
          simp only [List.length_cons, Prod.mk.injEq, true_and]
          omega

/-- `getNearestEuclidCluster` started at `dbl_max`: if some detection is nearer than
`dbl_max`, it returns the first detection of least distance together with that distance;
otherwise it returns `dbl_max` as distance. -/
theorem getNearestEuclidCluster_spec (E : Env R) (target : UKF R)
    (object_vec : List (autoware_msgs.DetectedObject R)) :
    ((∀ d ∈ object_vec,
        ¬ E.sqrt ((target.x_merge_ 0 - d.pose.position.x) * (target.x_merge_ 0 - d.pose.position.x) +
            (target.x_merge_ 1 - d.pose.position.y) * (target.x_merge_ 1 - d.pose.position.y)) <
          E.dbl_max) ∧
      (getNearestEuclidCluster E target object_vec E.dbl_max).2 = E.dbl_max) ∨
    (∃ pre d post, object_vec = pre ++ d :: post ∧
      (∀ d' ∈ pre,
        E.sqrt ((target.x_merge_ 0 - d.pose.position.x) * (target.x_merge_ 0 - d.pose.position.x) +
            (target.x_merge_ 1 - d.pose.position.y) * (target.x_merge_ 1 - d.pose.position.y)) <
        E.sqrt ((target.x_merge_ 0 - d'.pose.position.x) * (target.x_merge_ 0 - d'.pose.position.x) +
            (target.x_merge_ 1 - d'.pose.position.y) * (target.x_merge_ 1 - d'.pose.position.y))) ∧
      (∀ d' ∈ post,
        E.sqrt ((target.x_merge_ 0 - d.pose.position.x) * (target.x_merge_ 0 - d.pose.position.x) +
            (target.x_merge_ 1 - d.pose.position.y) * (target.x_merge_ 1 - d.pose.position.y)) ≤
        E.sqrt ((target.x_merge_ 0 - d'.pose.position.x) * (target.x_merge_ 0 - d'.pose.position.x) +
            (target.x_merge_ 1 - d'.pose.position.y) * (target.x_merge_ 1 - d'.pose.position.y))) ∧
      getNearestEuclidCluster E target object_vec E.dbl_max =
        (d, E.sqrt ((target.x_merge_ 0 - d.pose.position.x) * (target.x_merge_ 0 - d.pose.position.x) +
            (target.x_merge_ 1 - d.pose.position.y) * (target.x_merge_ 1 - d.pose.position.y)))) := by
  rcases nearest_loop
      (fun d => E.sqrt ((target.x_merge_ 0 - d.pose.position.x) * (target.x_merge_ 0 - d.pose.position.x) +
        (target.x_merge_ 1 - d.pose.position.y) * (target.x_merge_ 1 - d.pose.position.y)))
      object_vec 0 (E.dbl_max, 0) with
    ⟨hnone, heq⟩ | ⟨pre, d, post, hl, _, hpre, hpost, heq⟩
  · left
    refine ⟨hnone, ?_⟩
    unfold getNearestEuclidCluster
    dsimp only
    rw [heq]
  · right
    refine ⟨pre, d, post, hl, hpre, hpost, ?_⟩
    unfold getNearestEuclidCluster
    dsimp only
    rw [heq, hl, List.getD_eq_getElem?_getD, Nat.zero_add,
      List.getElem?_append_right (le_refl _)]
    simp

end ImmUkfPda

namespace ImmUkfPda
variable {R : Type} [LinearOrderedField R]

/-- C15: (`distance_thres_` being a finite double) `associateBB` marks the track BB-visible
and copies a detection's pose and dimensions into `jsk_bb_` if and only if the gated list is
non-empty, `tracking_num_` is Stable, `lifetime_ ≥ life_time_thres_` and some gated detection
(hence the nearest one) is at Euclidean distance below `distance_thres_` from
`(x_merge_(0), x_merge_(1))`; the copied detection is the first one of least distance; in
every other case the track is returned unchanged. -/
theorem associateBB_nearest (E : Env R) (self : ImmUkfPda R)
    (object_vec : List (autoware_msgs.DetectedObject R)) (target : UKF R)
    (hthres : self.distance_thres_ ≤ E.dbl_max) :
    ((object_vec ≠ [] ∧ target.tracking_num_ = TrackingState.Stable ∧
        target.lifetime_ ≥ self.life_time_thres_ ∧
        ∃ d ∈ object_vec,
          E.sqrt ((target.x_merge_ 0 - d.pose.position.x) * (target.x_merge_ 0 - d.pose.position.x) +
            (target.x_merge_ 1 - d.pose.position.y) * (target.x_merge_ 1 - d.pose.position.y)) <
          self.distance_thres_) →
      ∃ pre d post, object_vec = pre ++ d :: post ∧
        (∀ d' ∈ pre,
          E.sqrt ((target.x_merge_ 0 - d.pose.position.x) * (target.x_merge_ 0 - d.pose.position.x) +
              (target.x_merge_ 1 - d.pose.position.y) * (target.x_merge_ 1 - d.pose.position.y)) <
          E.sqrt ((target.x_merge_ 0 - d'.pose.position.x) * (target.x_merge_ 0 - d'.pose.position.x) +
              (target.x_merge_ 1 - d'.pose.position.y) * (target.x_merge_ 1 - d'.pose.position.y))) ∧
        (∀ d' ∈ post,
          E.sqrt ((target.x_merge_ 0 - d.pose.position.x) * (target.x_merge_ 0 - d.pose.position.x) +
              (target.x_merge_ 1 - d.pose.position.y) * (target.x_merge_ 1 - d.pose.position.y)) ≤
          E.sqrt ((target.x_merge_ 0 - d'.pose.position.x) * (target.x_merge_ 0 - d'.pose.position.x) +
              (target.x_merge_ 1 - d'.pose.position.y) * (target.x_merge_ 1 - d'.pose.position.y))) ∧
        E.sqrt ((target.x_merge_ 0 - d.pose.position.x) * (target.x_merge_ 0 - d.pose.position.x) +
            (target.x_merge_ 1 - d.pose.position.y) * (target.x_merge_ 1 - d.pose.position.y)) <
          self.distance_thres_ ∧
        associateBB E self object_vec target =
          { target with
              is_vis_bb_ := true,
              jsk_bb_ := { target.jsk_bb_ with pose := d.pose, dimensions := d.dimensions } }) ∧
    (¬ (object_vec ≠ [] ∧ target.tracking_num_ = TrackingState.Stable ∧
        target.lifetime_ ≥ self.life_time_thres_ ∧
        ∃ d ∈ object_vec,
          E.sqrt ((target.x_merge_ 0 - d.pose.position.x) * (target.x_merge_ 0 - d.pose.position.x) +
            (target.x_merge_ 1 - d.pose.position.y) * (target.x_merge_ 1 - d.pose.position.y)) <
          self.distance_thres_) →
      associateBB E self object_vec target = target) := by
  have hspec := getNearestEuclidCluster_spec E target object_vec
  refine ⟨?_, ?_⟩
  · rintro ⟨hne, hst, hlife, d0, hd0, hlt0⟩
    rcases hspec with ⟨hnone, _⟩ | ⟨pre, d, post, hl, hpre, hpost, heq⟩
    · exact absurd (lt_of_lt_of_le hlt0 hthres) (hnone d0 hd0)
    · have hmin : E.sqrt ((target.x_merge_ 0 - d.pose.position.x) *
            (target.x_merge_ 0 - d.pose.position.x) +
          (target.x_merge_ 1 - d.pose.position.y) * (target.x_merge_ 1 - d.pose.position.y)) <
          self.distance_thres_ := by
        rw [hl] at hd0
        rcases List.mem_append.mp hd0 with h | h
        · exact lt_trans (hpre d0 h) hlt0
        · rcases List.mem_cons.mp h with rfl | h'
          · exact hlt0
          · exact lt_of_le_of_lt (hpost d0 h') hlt0
      refine ⟨pre, d, post, hl, hpre, hpost, hmin, ?_⟩
      have hlen : ¬ object_vec.length = 0 := by
        rw [List.length_eq_zero]
        exact hne
      unfold associateBB
      simp only [hlen, if_false, hst, hlife, and_self, if_true, heq, hmin]
  · intro hnot
    unfold associateBB
    by_cases hlen : object_vec.length = 0
    · simp only [hlen, if_true]
    · simp only [hlen, if_false]
      by_cases hc : target.tracking_num_ = TrackingState.Stable ∧
          target.lifetime_ ≥ self.life_time_thres_
      · simp only [hc, and_self, if_true]
        have hne : object_vec ≠ [] := fun h => hlen (by rw [h]; rfl)
        have hfar : ¬ (getNearestEuclidCluster E target object_vec E.dbl_max).2 <
            self.distance_thres_ := by
          rcases hspec with ⟨_, heq⟩ | ⟨pre, d, post, hl, _, _, heq⟩
          · rw [heq]
            exact not_lt.mpr hthres
          · rw [heq]
            intro hlt
            exact hnot ⟨hne, hc.1, hc.2, d, by simp [hl], hlt⟩
        simp only [hfar, if_false]
      · simp only [hc, if_false]

/-- Witness for C15: the default `distance_thres_` is a finite double; a Stable track at the
origin with `lifetime_` 9 and gated detections at `(2, 0)` and `(1, 0)`. -/
theorem associateBB_nearest_witness :
    Sample.immUkfPda.distance_thres_ ≤ Sample.env.dbl_max ∧
    ∃ pre d post, [Sample.object 2 0, Sample.object 1 0] = pre ++ d :: post ∧
      associateBB Sample.env Sample.immUkfPda [Sample.object 2 0, Sample.object 1 0]
          (Sample.track 0 TrackingState.Stable 9) =
        { Sample.track 0 TrackingState.Stable 9 with
            is_vis_bb_ := true,
            jsk_bb_ := { (Sample.track 0 TrackingState.Stable 9).jsk_bb_ with
                           pose := d.pose, dimensions := d.dimensions } } :=
  have hthres : Sample.immUkfPda.distance_thres_ ≤ Sample.env.dbl_max := by
    norm_num [Sample.immUkfPda, ImmUkfPda.construct, Sample.env]
  ⟨hthres,
    let ⟨pre, d, post, hl, _, _, _, heq⟩ :=
      (associateBB_nearest Sample.env Sample.immUkfPda [Sample.object 2 0, Sample.object 1 0]
        (Sample.track 0 TrackingState.Stable 9) hthres).1
        ⟨by simp, rfl, by
          norm_num [Sample.immUkfPda, ImmUkfPda.construct, Sample.track],
          Sample.object 1 0, by simp, by
          norm_num [Sample.env, Sample.track, Sample.object, Sample.immUkfPda,
            ImmUkfPda.construct]⟩
    ⟨pre, d, post, hl, heq⟩⟩

end ImmUkfPda

/-! ### One tick on an empty detection list -/

namespace ImmUkfPda
variable {R : Type} [LinearOrderedField R]

/-- `staticClassification` appends the merged speed to `vel_history_` and may set
`is_static_`; it changes nothing else. -/
theorem staticClassificationBody_eq (self : ImmUkfPda R) (target : UKF R) :
    staticClassificationBody self target =
      { target with vel_history_ := target.vel_history_ ++ [target.x_merge_ 2],
                    is_static_ := (staticClassificationBody self target).is_static_ } := by
  unfold staticClassificationBody
  dsimp only
  split_ifs <;> rfl

/-- The track set after `makeOutput`: a BB-visible track gets `dist_from_init_` written. -/
theorem makeOutput_targets [FloorRing R] (E : Env R) (yaw : R) (l : List (UKF R)) :
    ∀ (out : List (UKF R) × List (jsk_recognition_msgs.BoundingBox R) ×
        List (autoware_msgs.DetectedObject R)),
      (l.foldl (fun out target => makeOutputBody E yaw target out) out).1 =
        out.1 ++ l.map (fun t =>
          if t.is_vis_bb_ = true then
            { t with dist_from_init_ :=
                E.sqrt ((t.x_merge_ 0 - t.init_meas_ 0) * (t.x_merge_ 0 - t.init_meas_ 0) +
                  (t.x_merge_ 1 - t.init_meas_ 1) * (t.x_merge_ 1 - t.init_meas_ 1)) }
          else t) := by
  induction l with
  | nil => intro out; simp
  | cons t l ih =>
    intro out
    rw [List.foldl_cons, ih]
    unfold makeOutputBody
    by_cases hvis : t.is_vis_bb_ = true
    · simp [hvis]
    · simp [hvis]

/-- `measurementValidation` on an empty detection list returns what it was given. -/
theorem measurementValidation_empty (E : Env R) (self : ImmUkfPda R)
    (input : autoware_msgs.DetectedObjectArray R) (target : UKF R) (b : Bool)
    (z : Fin 2 → R) (s : Matrix (Fin 2) (Fin 2) R)
    (object_vec : List (autoware_msgs.DetectedObject R)) (matching_vec : List Bool)
    (hin : input.objects = []) :
    measurementValidation E self input target b z s object_vec matching_vec =
      { target := target, object_vec := object_vec, matching_vec := matching_vec } := by
  unfold measurementValidation
  rw [hin]
  simp [forLoop, measurementValidationInit]

/-- `probabilisticDataAssociation` on an empty detection list. -/
theorem probabilisticDataAssociation_empty [FloorRing R] (E : Env R) (self : ImmUkfPda R)
    (input : autoware_msgs.DetectedObjectArray R) (dt det_explode_param : R)
    (matching_vec : List Bool) (lambda_vec : List R) (target : UKF R)
    (hin : input.objects = []) :
    probabilisticDataAssociation E self input dt det_explode_param matching_vec lambda_vec target =
      if E.isnan (findMaxZandS target).2.det = true ∨
          (findMaxZandS target).2.det > det_explode_param then
        { matching_vec := matching_vec, lambda_vec := lambda_vec,
          target := { target with tracking_num_ := TrackingState.Die }, is_skip_target := true }
      else if target.tracking_num_ = TrackingState.Init then
        { matching_vec := matching_vec, lambda_vec := lambda_vec,
          target := { target with tracking_num_ := TrackingState.Die }, is_skip_target := true }
      else if (updateTrackingNum ([] : List (autoware_msgs.DetectedObject R)) target
          ).tracking_num_ = TrackingState.Die then
        { matching_vec := matching_vec, lambda_vec := lambda_vec,
          target := updateTrackingNum [] target, is_skip_target := true }
      else
        { matching_vec := matching_vec,
          lambda_vec := (filterPDA E self (updateTrackingNum [] target) [] lambda_vec).2,
          target := (filterPDA E self (updateTrackingNum [] target) [] lambda_vec).1,
          is_skip_target := false } := by
  unfold probabilisticDataAssociation
  simp only [measurementValidation_empty E self input target _ _ _ [] matching_vec hin]
  have hbb : associateBB E self ([] : List (autoware_msgs.DetectedObject R)) target = target := by
    simp [associateBB]
  simp only [hbb]
  by_cases hg : E.isnan (findMaxZandS target).2.det = true ∨
      (findMaxZandS target).2.det > det_explode_param
  · simp only [hg, if_true]
  · simp only [hg, if_false]
    by_cases hinit : target.tracking_num_ = TrackingState.Init
    · simp [hinit, secondInit]
    · simp only [hinit, decide_False, Bool.false_eq_true, if_false]

end ImmUkfPda

namespace ImmUkfPda
variable {R : Type}

theorem updateTrackingNum_eq (object_vec : List (autoware_msgs.DetectedObject R))
    (target : UKF R) :
    updateTrackingNum object_vec target =
      { target with tracking_num_ := (updateTrackingNum object_vec target).tracking_num_ } := by
  unfold updateTrackingNum
  split_ifs <;> rfl

theorem updateTrackingNum_nil (target : UKF R) :
    (target.tracking_num_ < 4 ∨ target.tracking_num_ = 10 →
      (updateTrackingNum ([] : List (autoware_msgs.DetectedObject R)) target).tracking_num_ =
        TrackingState.Die) ∧
    (4 ≤ target.tracking_num_ ∧ target.tracking_num_ ≤ 9 →
      (updateTrackingNum ([] : List (autoware_msgs.DetectedObject R)) target).tracking_num_ =
        target.tracking_num_ + 1) := by
  unfold updateTrackingNum
  simp only [List.length_nil, gt_iff_lt, lt_self_iff_false, if_false, TrackingState.Stable,
    TrackingState.Lost, TrackingState.Die]
  refine ⟨?_, ?_⟩ <;> intro h <;> split_ifs <;> first | rfl | omega

variable [LinearOrderedField R]

/-- The body of the tracker loop when the frame has no detection, as a chain of cases. -/
theorem trackerBody_empty_eq [FloorRing R] (E : Env R) (self : ImmUkfPda R)
    (input : autoware_msgs.DetectedObjectArray R) (dt det_explode_param cov_explode_param : R)
    (target : UKF R) (matching_vec : List Bool) (hin : input.objects = []) :
    trackerBody E self input dt det_explode_param cov_explode_param target matching_vec =
      if target.tracking_num_ = TrackingState.Die then
        ({ target with is_vis_bb_ := false, is_static_ := false }, matching_vec)
      else if target.p_merge_.det > det_explode_param ∨
          target.p_merge_ 4 4 > cov_explode_param then
        ({ target with is_vis_bb_ := false, is_static_ := false,
                       tracking_num_ := TrackingState.Die }, matching_vec)
      else if E.isnan (findMaxZandS (E.predictionIMMUKF dt
            { target with is_vis_bb_ := false, is_static_ := false })).2.det = true ∨
          (findMaxZandS (E.predictionIMMUKF dt
            { target with is_vis_bb_ := false, is_static_ := false })).2.det >
            det_explode_param then
        ({ E.predictionIMMUKF dt { target with is_vis_bb_ := false, is_static_ := false } with
            tracking_num_ := TrackingState.Die }, matching_vec)
      else if (E.predictionIMMUKF dt
          { target with is_vis_bb_ := false, is_static_ := false }).tracking_num_ =
            TrackingState.Init then
        ({ E.predictionIMMUKF dt { target with is_vis_bb_ := false, is_static_ := false } with
            tracking_num_ := TrackingState.Die }, matching_vec)
      else if (updateTrackingNum ([] : List (autoware_msgs.DetectedObject R))
          (E.predictionIMMUKF dt { target with is_vis_bb_ := false, is_static_ := false })
            ).tracking_num_ = TrackingState.Die then
        (updateTrackingNum []
          (E.predictionIMMUKF dt { target with is_vis_bb_ := false, is_static_ := false }),
          matching_vec)
      else
        (E.updateIMMUKF
          (filterPDA E self (updateTrackingNum []
            (E.predictionIMMUKF dt { target with is_vis_bb_ := false, is_static_ := false }))
            [] []).2
          (filterPDA E self (updateTrackingNum []
            (E.predictionIMMUKF dt { target with is_vis_bb_ := false, is_static_ := false }))
            [] []).1, matching_vec) := by
  unfold trackerBody
  dsimp only
  rw [probabilisticDataAssociation_empty E self input dt det_explode_param matching_vec [] _ hin]
  by_cases hdie : target.tracking_num_ = TrackingState.Die
  · rw [if_pos hdie, if_pos hdie]
  · rw [if_neg hdie, if_neg hdie]
    by_cases hpg : target.p_merge_.det > det_explode_param ∨
        target.p_merge_ 4 4 > cov_explode_param
    · rw [if_pos hpg, if_pos hpg]
    · rw [if_neg hpg, if_neg hpg]
      by_cases hsg : E.isnan (findMaxZandS (E.predictionIMMUKF dt
            { target with is_vis_bb_ := false, is_static_ := false })).2.det = true ∨
          (findMaxZandS (E.predictionIMMUKF dt
            { target with is_vis_bb_ := false, is_static_ := false })).2.det >
            det_explode_param
      · rw [if_pos hsg, if_pos hsg]
        rfl
      · rw [if_neg hsg, if_neg hsg]
        by_cases hinit : (E.predictionIMMUKF dt
            { target with is_vis_bb_ := false, is_static_ := false }).tracking_num_ =
              TrackingState.Init
        · rw [if_pos hinit, if_pos hinit]
          rfl
        · rw [if_neg hinit, if_neg hinit]
          by_cases hud : (updateTrackingNum ([] : List (autoware_msgs.DetectedObject R))
              (E.predictionIMMUKF dt { target with is_vis_bb_ := false, is_static_ := false })
                ).tracking_num_ = TrackingState.Die
          · rw [if_pos hud, if_pos hud]
            rfl
          · rw [if_neg hud, if_neg hud]
            rfl

/-- One pass of the tracker loop over a track when the frame has no detection: the claimed
vector, `ukf_id_`, `lifetime_` and `vel_history_` are kept (the IMM steps being assumed to
keep them); a track below Stable or in Lost ends in Die; a track in 4..9 ends in Die or one
step further, the latter when neither divergence guard fires. -/
theorem trackerBody_empty [FloorRing R] (E : Env R) (self : ImmUkfPda R)
    (input : autoware_msgs.DetectedObjectArray R) (dt det_explode_param cov_explode_param : R)
    (target : UKF R) (matching_vec : List Bool) (hin : input.objects = [])
    (hpred : ∀ (dt : R) (t : UKF R),
      (E.predictionIMMUKF dt t).ukf_id_ = t.ukf_id_ ∧
      (E.predictionIMMUKF dt t).tracking_num_ = t.tracking_num_ ∧
      (E.predictionIMMUKF dt t).lifetime_ = t.lifetime_ ∧
      (E.predictionIMMUKF dt t).vel_history_ = t.vel_history_)
    (hupd : ∀ (lambda_vec : List R) (t : UKF R),
      (E.updateIMMUKF lambda_vec t).ukf_id_ = t.ukf_id_ ∧
      (E.updateIMMUKF lambda_vec t).tracking_num_ = t.tracking_num_ ∧
      (E.updateIMMUKF lambda_vec t).lifetime_ = t.lifetime_ ∧
      (E.updateIMMUKF lambda_vec t).vel_history_ = t.vel_history_) :
    (trackerBody E self input dt det_explode_param cov_explode_param target matching_vec).2 =
      matching_vec ∧
    (trackerBody E self input dt det_explode_param cov_explode_param target matching_vec
      ).1.ukf_id_ = target.ukf_id_ ∧
    (trackerBody E self input dt det_explode_param cov_explode_param target matching_vec
      ).1.lifetime_ = target.lifetime_ ∧
    (trackerBody E self input dt det_explode_param cov_explode_param target matching_vec
      ).1.vel_history_ = target.vel_history_ ∧
    (target.tracking_num_ < 4 ∨ target.tracking_num_ = 10 →
      (trackerBody E self input dt det_explode_param cov_explode_param target matching_vec
        ).1.tracking_num_ = TrackingState.Die) ∧
    (4 ≤ target.tracking_num_ ∧ target.tracking_num_ ≤ 9 →
      (trackerBody E self input dt det_explode_param cov_explode_param target matching_vec
        ).1.tracking_num_ = TrackingState.Die ∨
      (trackerBody E self input dt det_explode_param cov_explode_param target matching_vec
        ).1.tracking_num_ = target.tracking_num_ + 1) ∧
    (4 ≤ target.tracking_num_ ∧ target.tracking_num_ ≤ 9 →
      ¬ (target.p_merge_.det > det_explode_param ∨ target.p_merge_ 4 4 > cov_explode_param) →
      ¬ (E.isnan (findMaxZandS (E.predictionIMMUKF dt
            { target with is_vis_bb_ := false, is_static_ := false })).2.det = true ∨
          (findMaxZandS (E.predictionIMMUKF dt
            { target with is_vis_bb_ := false, is_static_ := false })).2.det >
            det_explode_param) →
      (trackerBody E self input dt det_explode_param cov_explode_param target matching_vec
        ).1.tracking_num_ = target.tracking_num_ + 1) := by
  have hp := hpred dt { target with is_vis_bb_ := false, is_static_ := false }
  obtain ⟨hp1, hp2, hp3, hp4⟩ := hp
  have hnil := updateTrackingNum_nil
    (E.predictionIMMUKF dt { target with is_vis_bb_ := false, is_static_ := false })
  have hueq := updateTrackingNum_eq ([] : List (autoware_msgs.DetectedObject R))
    (E.predictionIMMUKF dt { target with is_vis_bb_ := false, is_static_ := false })
  rw [hp2] at hnil
  have hlife : (updateTrackingNum ([] : List (autoware_msgs.DetectedObject R))
      (E.predictionIMMUKF dt { target with is_vis_bb_ := false, is_static_ := false })).lifetime_ =
      target.lifetime_ := by rw [hueq]; exact hp3
  have hvel : (updateTrackingNum ([] : List (autoware_msgs.DetectedObject R))
      (E.predictionIMMUKF dt { target with is_vis_bb_ := false, is_static_ := false })
        ).vel_history_ = target.vel_history_ := by rw [hueq]; exact hp4
  have hid : (updateTrackingNum ([] : List (autoware_msgs.DetectedObject R))
      (E.predictionIMMUKF dt { target with is_vis_bb_ := false, is_static_ := false })).ukf_id_ =
      target.ukf_id_ := by rw [hueq]; exact hp1
  rw [trackerBody_empty_eq E self input dt det_explode_param cov_explode_param target
    matching_vec hin, hp2]
  by_cases hdie : target.tracking_num_ = TrackingState.Die
  · rw [if_pos hdie]
    refine ⟨rfl, rfl, rfl, rfl, fun _ => hdie, fun h => ?_, fun h => ?_⟩
    · simp only [TrackingState.Die] at hdie; omega
    · simp only [TrackingState.Die] at hdie; omega
  · rw [if_neg hdie]
    by_cases hpg : target.p_merge_.det > det_explode_param ∨
        target.p_merge_ 4 4 > cov_explode_param
    · rw [if_pos hpg]
      exact ⟨rfl, rfl, rfl, rfl, fun _ => rfl, fun _ => Or.inl rfl, fun _ h => absurd hpg h⟩
    · rw [if_neg hpg]
      by_cases hsg : E.isnan (findMaxZandS (E.predictionIMMUKF dt
            { target with is_vis_bb_ := false, is_static_ := false })).2.det = true ∨
          (findMaxZandS (E.predictionIMMUKF dt
            { target with is_vis_bb_ := false, is_static_ := false })).2.det >
            det_explode_param
      · rw [if_pos hsg]
        exact ⟨rfl, hp1, hp3, hp4, fun _ => rfl, fun _ => Or.inl rfl,
          fun _ _ h => absurd hsg h⟩
      · rw [if_neg hsg]
        by_cases hinit : target.tracking_num_ = TrackingState.Init
        · rw [if_pos hinit]
          refine ⟨rfl, hp1, hp3, hp4, fun _ => rfl, fun _ => Or.inl rfl, fun h => ?_⟩
          simp only [TrackingState.Init] at hinit
          omega
        · rw [if_neg hinit]
          by_cases hud : (updateTrackingNum ([] : List (autoware_msgs.DetectedObject R))
              (E.predictionIMMUKF dt { target with is_vis_bb_ := false, is_static_ := false })
                ).tracking_num_ = TrackingState.Die
          · rw [if_pos hud]
            refine ⟨rfl, hid, hlife, hvel, fun _ => hud, fun _ => Or.inl hud, fun h => ?_⟩
            have := hnil.2 h
            rw [hud] at this
            simp only [TrackingState.Die] at this
            omega
          · rw [if_neg hud]
            refine ⟨rfl, ?_, ?_, ?_, fun h => ?_, fun h => ?_, fun h _ _ => ?_⟩
            · rw [(hupd _ _).1]; exact hid
            · rw [(hupd _ _).2.2.1]; exact hlife
            · rw [(hupd _ _).2.2.2]; exact hvel
            · exact absurd (hnil.1 h) hud
            · right
              rw [(hupd _ _).2.1]
              exact hnil.2 h
            · rw [(hupd _ _).2.1]
              exact hnil.2 h

end ImmUkfPda

namespace ImmUkfPda
variable {R : Type}

theorem foldl_acc_map {α β γ : Type} (f : α → γ → β × γ) (c : γ)
    (h : ∀ a, (f a c).2 = c) (l : List α) :
    ∀ (acc : List β),
      l.foldl (fun (acc : List β × γ) a => (acc.1 ++ [(f a acc.2).1], (f a acc.2).2)) (acc, c) =
        (acc ++ l.map (fun a => (f a c).1), c) := by
  induction l with
  | nil => intro acc; simp
  | cons a l ih =>
    intro acc
    rw [List.foldl_cons]
    simp only [h a]
    rw [ih]
    simp

variable [LinearOrderedField R]

/-- The track set and the id counter after one tick of an initialised tracker on a frame
without detections: every track goes through the tracker loop, the static classification
and the output loop, nothing is spawned, and the tracks in Die are dropped. -/
theorem tracker_empty_targets [FloorRing R] (E : Env R) (yaw : R)
    (input : autoware_msgs.DetectedObjectArray R) (self : ImmUkfPda R)
    (jskbboxes_output : List (jsk_recognition_msgs.BoundingBox R))
    (detected_objects_output : List (autoware_msgs.DetectedObject R))
    (hi : self.init_ = true) (hin : input.objects = []) :
    (tracker E yaw input self jskbboxes_output detected_objects_output).self.targets_ =
      ((((self.targets_.map (fun t =>
          (trackerBody E { self with timestamp_ := input.stamp } input
            (input.stamp - self.timestamp_) 10 1000 t []).1)).map
        (staticClassificationBody self)).map (fun t =>
          if t.is_vis_bb_ = true then
            { t with dist_from_init_ :=
                E.sqrt ((t.x_merge_ 0 - t.init_meas_ 0) * (t.x_merge_ 0 - t.init_meas_ 0) +
                  (t.x_merge_ 1 - t.init_meas_ 1) * (t.x_merge_ 1 - t.init_meas_ 1)) }
          else t)).filter
        (fun t => decide (t.tracking_num_ ≠ TrackingState.Die))) ∧
    (tracker E yaw input self jskbboxes_output detected_objects_output).self.target_id_ =
      self.target_id_ := by
  have hfold := foldl_acc_map
    (fun (target : UKF R) (mv : List Bool) =>
      trackerBody E { self with timestamp_ := input.stamp } input (input.stamp - self.timestamp_)
        10 1000 target mv)
    ([] : List Bool)
    (fun t => by
      dsimp only
      rw [trackerBody_empty_eq E _ input _ 10 1000 t [] hin]
      split_ifs <;> rfl)
    self.targets_ []
  rw [List.nil_append] at hfold
  unfold tracker
  dsimp only
  rw [if_neg (by simp [hi])]
  unfold makeNewTargets staticClassification makeOutput
  simp only [hin, List.length_nil, List.replicate_zero, forLoop]
  rw [hfold, makeOutput_targets, removeUnnecessaryTarget_eq, List.nil_append]
  exact ⟨rfl, rfl⟩

end ImmUkfPda

namespace Sample
open ImmUkfPda

theorem trackerBody_die_empty (s : ImmUkfPda ℚ) (dt : ℚ) :
    (trackerBody env s { stamp := 1, objects := [] } dt 10 1000
      (track 0 TrackingState.Die 0) []).1 = track 0 TrackingState.Die 0 := by
  rw [trackerBody_empty_eq env s _ dt 10 1000 _ [] rfl,
    if_pos (show (track 0 TrackingState.Die 0).tracking_num_ = TrackingState.Die from rfl)]
  rfl

theorem trackerBody_stable_empty (s : ImmUkfPda ℚ) (dt : ℚ) :
    (trackerBody env s { stamp := 1, objects := [] } dt 10 1000
      (track 1 TrackingState.Stable 0) []).1 = track 1 5 0 := by
  have htrack : ({ track 1 TrackingState.Stable 0 with is_vis_bb_ := false, is_static_ := false } :
      UKF ℚ) = track 1 TrackingState.Stable 0 := rfl
  have hpred : env.predictionIMMUKF dt (track 1 TrackingState.Stable 0) =
      track 1 TrackingState.Stable 0 := rfl
  rw [trackerBody_empty_eq env s _ dt 10 1000 _ [] rfl, htrack, hpred,
    if_neg (by simp [track, TrackingState.Stable, TrackingState.Die]),
    if_neg (by simp [track, Matrix.det_zero (⟨0⟩ : Nonempty (Fin 5))]),
    if_neg (guard_track 1 TrackingState.Stable 0),
    if_neg (by simp [track, TrackingState.Stable, TrackingState.Init]),
    if_neg (by simp [updateTrackingNum, track, TrackingState.Stable, TrackingState.Die,
      TrackingState.Lost])]
  have hyaw : normalizeYaw env (0 : ℚ) = 0 :=
    normalizeYaw_of_mem env 0 (by norm_num [env]) (by norm_num [env])
  simp [filterPDA, filterPDAModel, updateTrackingNum, track, TrackingState.Stable,
    TrackingState.Lost, TrackingState.Die, hyaw]
  simp [env]

end Sample

namespace ImmUkfPda
variable {R : Type} [LinearOrderedField R]

/-- The output loop writes `dist_from_init_` of a BB-visible track and nothing else. -/
theorem makeOutput_target_fields (E : Env R) (u : UKF R) :
    (if u.is_vis_bb_ = true then
        { u with dist_from_init_ :=
            E.sqrt ((u.x_merge_ 0 - u.init_meas_ 0) * (u.x_merge_ 0 - u.init_meas_ 0) +
              (u.x_merge_ 1 - u.init_meas_ 1) * (u.x_merge_ 1 - u.init_meas_ 1)) }
      else u) = { u with dist_from_init_ :=
        (if u.is_vis_bb_ = true then
          { u with dist_from_init_ :=
              E.sqrt ((u.x_merge_ 0 - u.init_meas_ 0) * (u.x_merge_ 0 - u.init_meas_ 0) +
                (u.x_merge_ 1 - u.init_meas_ 1) * (u.x_merge_ 1 - u.init_meas_ 1)) }
        else u).dist_from_init_ } := by
  split_ifs <;> rfl

/-- C20 (amended): one tick of an initialised tracker on a frame without detections, the IMM
prediction and update being assumed to keep `ukf_id_`, `tracking_num_`, `lifetime_` and
`vel_history_`. The id counter is unchanged and no track is added: the tracks after the tick
are the processed tracks, one per track before the tick and in the same order, without those
that ended in Die. A processed track has the `ukf_id_` and `lifetime_` of its original, and
its `vel_history_` is the original one with the merged speed appended. Its `tracking_num_`
is Die when the original was below Stable (0..3) or in Lost (10); when the original was in
4..9 it is Die or one more than before, and it is one more than before when neither
divergence guard of the tracker loop fires. -/
theorem tracker_empty_frame [FloorRing R] (E : Env R) (yaw : R)
    (input : autoware_msgs.DetectedObjectArray R) (self : ImmUkfPda R)
    (jskbboxes_output : List (jsk_recognition_msgs.BoundingBox R))
    (detected_objects_output : List (autoware_msgs.DetectedObject R))
    (hi : self.init_ = true) (hin : input.objects = [])
    (hpred : ∀ (dt : R) (t : UKF R),
      (E.predictionIMMUKF dt t).ukf_id_ = t.ukf_id_ ∧
      (E.predictionIMMUKF dt t).tracking_num_ = t.tracking_num_ ∧
      (E.predictionIMMUKF dt t).lifetime_ = t.lifetime_ ∧
      (E.predictionIMMUKF dt t).vel_history_ = t.vel_history_)
    (hupd : ∀ (lambda_vec : List R) (t : UKF R),
      (E.updateIMMUKF lambda_vec t).ukf_id_ = t.ukf_id_ ∧
      (E.updateIMMUKF lambda_vec t).tracking_num_ = t.tracking_num_ ∧
      (E.updateIMMUKF lambda_vec t).lifetime_ = t.lifetime_ ∧
      (E.updateIMMUKF lambda_vec t).vel_history_ = t.vel_history_) :
    (tracker E yaw input self jskbboxes_output detected_objects_output).self.target_id_ =
      self.target_id_ ∧
    ∃ processed : List (UKF R),
      (tracker E yaw input self jskbboxes_output detected_objects_output).self.targets_ =
        processed.filter (fun u => decide (u.tracking_num_ ≠ TrackingState.Die)) ∧
      List.Forall₂
        (fun (t u : UKF R) =>
          u.ukf_id_ = t.ukf_id_ ∧
          u.lifetime_ = t.lifetime_ ∧
          u.vel_history_ = t.vel_history_ ++ [u.x_merge_ 2] ∧
          (t.tracking_num_ < 4 ∨ t.tracking_num_ = 10 →
            u.tracking_num_ = TrackingState.Die) ∧
          (4 ≤ t.tracking_num_ ∧ t.tracking_num_ ≤ 9 →
            u.tracking_num_ = TrackingState.Die ∨ u.tracking_num_ = t.tracking_num_ + 1) ∧
          (4 ≤ t.tracking_num_ ∧ t.tracking_num_ ≤ 9 →
            ¬ (t.p_merge_.det > 10 ∨ t.p_merge_ 4 4 > 1000) →
            ¬ (E.isnan (findMaxZandS (E.predictionIMMUKF (input.stamp - self.timestamp_)
                  { t with is_vis_bb_ := false, is_static_ := false })).2.det = true ∨
                (findMaxZandS (E.predictionIMMUKF (input.stamp - self.timestamp_)
                  { t with is_vis_bb_ := false, is_static_ := false })).2.det > 10) →
            u.tracking_num_ = t.tracking_num_ + 1))
        self.targets_ processed := by
  obtain ⟨htargets, hid⟩ := tracker_empty_targets E yaw input self jskbboxes_output
    detected_objects_output hi hin
  refine ⟨hid, _, htargets, ?_⟩
  rw [List.forall₂_map_right_iff, List.forall₂_map_right_iff, List.forall₂_map_right_iff,
    List.forall₂_same]
  intro t _
  obtain ⟨_, h1, h2, h3, h4, h5, h6⟩ := trackerBody_empty E { self with timestamp_ := input.stamp }
    input (input.stamp - self.timestamp_) 10 1000 t [] hin hpred hupd
  rw [makeOutput_target_fields, staticClassificationBody_eq]
  exact ⟨h1, h2, congrArg (fun l => l ++ _) h3, h4, h5, h6⟩

/-- Witness for C20: a tick without detections on a tracker holding a Die track and a Stable
track, in an environment whose IMM steps are the identity. -/
theorem tracker_empty_frame_witness :
    Sample.stateWithDie.init_ = true ∧
    ({ stamp := 1, objects := [] } : autoware_msgs.DetectedObjectArray ℚ).objects = [] ∧
    (∀ (dt : ℚ) (t : UKF ℚ),
      (Sample.env.predictionIMMUKF dt t).ukf_id_ = t.ukf_id_ ∧
      (Sample.env.predictionIMMUKF dt t).tracking_num_ = t.tracking_num_ ∧
      (Sample.env.predictionIMMUKF dt t).lifetime_ = t.lifetime_ ∧
      (Sample.env.predictionIMMUKF dt t).vel_history_ = t.vel_history_) ∧
    (∀ (lambda_vec : List ℚ) (t : UKF ℚ),
      (Sample.env.updateIMMUKF lambda_vec t).ukf_id_ = t.ukf_id_ ∧
      (Sample.env.updateIMMUKF lambda_vec t).tracking_num_ = t.tracking_num_ ∧
      (Sample.env.updateIMMUKF lambda_vec t).lifetime_ = t.lifetime_ ∧
      (Sample.env.updateIMMUKF lambda_vec t).vel_history_ = t.vel_history_) ∧
    (tracker Sample.env 0 { stamp := 1, objects := [] } Sample.stateWithDie [] []).self.target_id_ =
      Sample.stateWithDie.target_id_ ∧
    ∃ processed : List (UKF ℚ),
      (tracker Sample.env 0 { stamp := 1, objects := [] } Sample.stateWithDie [] []).self.targets_ =
        processed.filter (fun u => decide (u.tracking_num_ ≠ TrackingState.Die)) ∧
      processed.length = Sample.stateWithDie.targets_.length :=
  have h := tracker_empty_frame Sample.env 0 { stamp := 1, objects := [] } Sample.stateWithDie
    [] [] rfl rfl (fun _ _ => ⟨rfl, rfl, rfl, rfl⟩) (fun _ _ => ⟨rfl, rfl, rfl, rfl⟩)
  ⟨rfl, rfl, fun _ _ => ⟨rfl, rfl, rfl, rfl⟩, fun _ _ => ⟨rfl, rfl, rfl, rfl⟩, h.1,
    h.2.imp (fun _ hp => ⟨hp.1, hp.2.length_eq.symm⟩)⟩

end ImmUkfPda

namespace ImmUkfPda

/-- Counterexample for C20: a tick without detections on a tracker holding a Die track
(id 0) and a Stable track (id 1) with an empty `vel_history_`. The Stable track comes out
with `tracking_num_ = 5` and with `vel_history_ = [0]`: `staticClassification` has appended
the merged speed. -/
theorem tracker_empty_frame_unchanged_counterexample :
    Sample.stateWithDie.init_ = true ∧
    Sample.stateWithDie.targets_ =
      [Sample.track 0 TrackingState.Die 0, Sample.track 1 TrackingState.Stable 0] ∧
    (Sample.track 1 TrackingState.Stable 0).vel_history_ = [] ∧
    (tracker Sample.env 0 { stamp := 1, objects := [] } Sample.stateWithDie [] []).self.targets_ =
      [{ Sample.track 1 5 0 with vel_history_ := [0] }] := by
  refine ⟨rfl, rfl, rfl, ?_⟩
  rw [(tracker_empty_targets Sample.env 0 { stamp := 1, objects := [] } Sample.stateWithDie [] []
    rfl rfl).1]
  have htargets : Sample.stateWithDie.targets_ =
      [Sample.track 0 TrackingState.Die 0, Sample.track 1 TrackingState.Stable 0] := rfl
  rw [htargets]
  simp only [List.map_cons, List.map_nil, Sample.trackerBody_die_empty,
    Sample.trackerBody_stable_empty]
  simp [staticClassificationBody, Sample.track, TrackingState.Die, TrackingState.Stable]

end ImmUkfPda

/-! ### Static classification -/

namespace ImmUkfPda
variable {R : Type} [LinearOrderedField R]

/-- The loop `for (ind = 1; ind < n + 1; ind++) sum_vel += vel_history_.end()[-ind]` adds up
the last `n` entries when the history has that many. -/
theorem endAt_sum (h : List R) :
    ∀ n, n ≤ h.length →
      (List.range' 1 n).foldl (fun sum_vel ind => sum_vel + endAt h ind) 0 =
        (h.drop (h.length - n)).sum := by
  intro n
  induction n with
  | zero => intro _; simp
  | succ n ih =>
    intro hn
    have hlt : h.length - (n + 1) < h.length := by omega
    rw [List.range'_concat, List.foldl_append, ih (by omega), List.drop_eq_getElem_cons hlt]
    have hidx : h.length - (n + 1) + 1 = h.length - n := by omega
    have hend : endAt h (1 + 1 * n) = h[h.length - (n + 1)] := by
      unfold endAt
      have hle : 1 + 1 * n ≤ h.length := by omega
      rw [if_pos hle, List.getD_eq_getElem?_getD]
      have hi : h.length - (1 + 1 * n) = h.length - (n + 1) := by omega
      rw [hi, List.getElem?_eq_getElem hlt]
      rfl
    simp only [List.foldl_cons, List.foldl_nil, List.sum_cons, hidx, hend]
    exact add_comm _ _

/-- C14: what `staticClassification` does to a track whose `is_static_` is false and whose
history, with the new entry, has at least `life_time_thres_ - 1` entries. It appends the
merged speed to `vel_history_`, and it sets `is_static_` exactly when the track is Stable,
`lifetime_ > life_time_thres_`, the sum of the last `life_time_thres_ - 1` entries divided
by `life_time_thres_` (not by the number of entries summed, and with no absolute value
taken) is below `static_velocity_thres_`, and `mode_prob_rm_` exceeds `mode_prob_cv_` or
`mode_prob_ctrv_`. -/
theorem staticClassification_rule (self : ImmUkfPda R) (target : UKF R)
    (hstatic : target.is_static_ = false)
    (hlen : (self.life_time_thres_ - 1).toNat ≤ target.vel_history_.length + 1) :
    (staticClassificationBody self target).vel_history_ =
      target.vel_history_ ++ [target.x_merge_ 2] ∧
    ((staticClassificationBody self target).is_static_ = true ↔
      target.tracking_num_ = TrackingState.Stable ∧
      target.lifetime_ > self.life_time_thres_ ∧
      ((target.vel_history_ ++ [target.x_merge_ 2]).drop
          ((target.vel_history_ ++ [target.x_merge_ 2]).length -
            (self.life_time_thres_ - 1).toNat)).sum / (self.life_time_thres_ : R) <
        self.static_velocity_thres_ ∧
      (target.mode_prob_rm_ > target.mode_prob_cv_ ∨
        target.mode_prob_rm_ > target.mode_prob_ctrv_)) := by
  have hsum := endAt_sum (target.vel_history_ ++ [target.x_merge_ 2])
    (self.life_time_thres_ - 1).toNat (by simpa using hlen)
  refine ⟨by rw [staticClassificationBody_eq], ?_⟩
  rw [← hsum]
  unfold staticClassificationBody
  dsimp only
  by_cases h1 : target.tracking_num_ = TrackingState.Stable ∧
      target.lifetime_ > self.life_time_thres_
  · rw [if_pos h1]
    split_ifs with h2
    · exact ⟨fun _ => ⟨h1.1, h1.2, h2.1, h2.2⟩, fun _ => rfl⟩
    · constructor
      · intro h
        rw [hstatic] at h
        exact absurd h (by decide)
      · intro h
        exact absurd ⟨h.2.2.1, h.2.2.2⟩ h2
  · rw [if_neg h1]
    constructor
    · intro h
      rw [hstatic] at h
      exact absurd h (by decide)
    · intro h
      exact absurd ⟨h.1, h.2.1⟩ h1

/-- Witness for C14, at the failing input: with `life_time_thres_ = 8` and
`static_velocity_thres_ = 1/2`, a Stable track of lifetime 9 whose speed has been 11/20
throughout is flagged static (the code compares 7 · 11/20 / 8 = 77/160 with 1/2), although
the mean of the last 7 entries is 11/20, whose absolute value is not below 1/2. -/
theorem staticClassification_rule_witness :
    Sample.cruisingTrack.is_static_ = false ∧
    (Sample.immUkfPda.life_time_thres_ - 1).toNat ≤ Sample.cruisingTrack.vel_history_.length + 1 ∧
    (staticClassificationBody Sample.immUkfPda Sample.cruisingTrack).is_static_ = true ∧
    (staticClassificationBody Sample.immUkfPda Sample.cruisingTrack).vel_history_ =
      List.replicate 10 (11 / 20) ∧
    ¬ (|((List.replicate 10 (11 / 20 : ℚ)).drop 3).sum / 7| <
      Sample.immUkfPda.static_velocity_thres_) :=
  have hlen : (Sample.immUkfPda.life_time_thres_ - 1).toNat ≤
      Sample.cruisingTrack.vel_history_.length + 1 := by
    simp [Sample.immUkfPda, construct, Sample.cruisingTrack]
  have h := staticClassification_rule Sample.immUkfPda Sample.cruisingTrack rfl hlen
  ⟨rfl, hlen,
    h.2.mpr ⟨rfl, by simp [Sample.immUkfPda, construct, Sample.cruisingTrack, Sample.track],
      by
        simp [Sample.immUkfPda, construct, Sample.cruisingTrack, Sample.track, List.replicate]
        norm_num,
      Or.inl (by norm_num [Sample.cruisingTrack])⟩,
    h.1.trans (by simp [Sample.cruisingTrack, List.replicate]),
    by
      simp [Sample.immUkfPda, construct, List.replicate]
      norm_num [abs_of_pos]⟩

end ImmUkfPda

/-! ### The boxes a tick emits -/

namespace ImmUkfPda
variable {R : Type} [LinearOrderedField R]

/-- The body of the tracker loop for a track that passes both divergence guards, is not in
Init and is not sent to Die by `updateTrackingNum`: prediction, gating, box association,
lifecycle step, PDA update and IMM update, in this order. -/
theorem trackerBody_update_eq [FloorRing R] (E : Env R) (self : ImmUkfPda R)
    (input : autoware_msgs.DetectedObjectArray R) (dt det_explode_param cov_explode_param : R)
    (target : UKF R) (matching_vec : List Bool)
    (target2 target3 target4 : UKF R) (mv : MeasurementValidationOut R)
    (hdie : ¬ target.tracking_num_ = TrackingState.Die)
    (hexp : ¬ (target.p_merge_.det > det_explode_param ∨
      target.p_merge_ 4 4 > cov_explode_param))
    (h2 : E.predictionIMMUKF dt { target with is_vis_bb_ := false, is_static_ := false } =
      target2)
    (hguard : ¬ (E.isnan (findMaxZandS target2).2.det = true ∨
      (findMaxZandS target2).2.det > det_explode_param))
    (hinit : ¬ target2.tracking_num_ = TrackingState.Init)
    (hmv : measurementValidation E self input target2 false (findMaxZandS target2).1
      (findMaxZandS target2).2 [] matching_vec = mv)
    (h3 : associateBB E self mv.object_vec mv.target = target3)
    (h4 : updateTrackingNum mv.object_vec target3 = target4)
    (hud : ¬ target4.tracking_num_ = TrackingState.Die) :
    trackerBody E self input dt det_explode_param cov_explode_param target matching_vec =
      (E.updateIMMUKF (filterPDA E self target4 mv.object_vec []).2
        (filterPDA E self target4 mv.object_vec []).1, mv.matching_vec) := by
  subst h2 h4 h3 hmv
  unfold trackerBody
  dsimp only
  rw [if_neg hdie, if_neg hexp]
  unfold probabilisticDataAssociation
  dsimp only
  rw [if_neg hguard]
  have hdec : decide ((E.predictionIMMUKF dt
      { target with is_vis_bb_ := false, is_static_ := false }).tracking_num_ =
        TrackingState.Init) = false := decide_eq_false hinit
  rw [hdec]
  simp only [Bool.false_eq_true, if_false]
  rw [if_neg hud]
  simp only [Bool.false_eq_true, if_false]

end ImmUkfPda

namespace ImmUkfPda
variable {R : Type} [LinearOrderedField R]

/-- One tick of an initialised tracker that holds a single track, in terms of what the
tracker loop makes of that track. -/
theorem tracker_single [FloorRing R] (E : Env R) (yaw : R)
    (input : autoware_msgs.DetectedObjectArray R) (self : ImmUkfPda R)
    (jskbboxes_output : List (jsk_recognition_msgs.BoundingBox R))
    (detected_objects_output : List (autoware_msgs.DetectedObject R))
    (t t1 : UKF R) (matching_vec : List Bool)
    (hi : self.init_ = true) (ht : self.targets_ = [t])
    (hbody : trackerBody E { self with timestamp_ := input.stamp } input
      (input.stamp - self.timestamp_) 10 1000 t (List.replicate input.objects.length false) =
        (t1, matching_vec)) :
    tracker E yaw input self jskbboxes_output detected_objects_output =
      { makeOutput E yaw (staticClassification (makeNewTargets E input.stamp input matching_vec
            { self with timestamp_ := input.stamp, targets_ := [t1] }))
          jskbboxes_output detected_objects_output with
        self := removeUnnecessaryTarget
          (makeOutput E yaw (staticClassification (makeNewTargets E input.stamp input matching_vec
            { self with timestamp_ := input.stamp, targets_ := [t1] }))
          jskbboxes_output detected_objects_output).self } := by
  unfold tracker
  dsimp only
  rw [ht] at hbody
  rw [if_neg (by simp [hi]), ht]
  simp only [List.foldl_cons, List.foldl_nil, List.nil_append, hbody]

end ImmUkfPda

/-! ### C23: `findMaxZandS` -/

namespace ImmUkfPda
variable {R : Type} [LinearOrderedField R]

/-- C23: `findMaxZandS` returns the predicted measurement and the innovation covariance of
one and the same model among CV, CTRV and RM, and the determinant of the returned covariance
is at least the determinant of each of the three covariances. -/
theorem findMaxZandS_max_det (target : UKF R) :
    (findMaxZandS target = (target.z_pred_cv_, target.s_cv_) ∨
      findMaxZandS target = (target.z_pred_ctrv_, target.s_ctrv_) ∨
      findMaxZandS target = (target.z_pred_rm_, target.s_rm_)) ∧
    target.s_cv_.det ≤ (findMaxZandS target).2.det ∧
    target.s_ctrv_.det ≤ (findMaxZandS target).2.det ∧
    target.s_rm_.det ≤ (findMaxZandS target).2.det := by
  unfold findMaxZandS
  dsimp only
  by_cases h1 : target.s_cv_.det > target.s_ctrv_.det
  · rw [if_pos h1]
    by_cases h2 : target.s_cv_.det > target.s_rm_.det
    · rw [if_pos h2]
      exact ⟨Or.inl rfl, le_refl _, le_of_lt h1, le_of_lt h2⟩
    · rw [if_neg h2]
      have h2' := not_lt.mp h2
      exact ⟨Or.inr (Or.inr rfl), h2', le_trans (le_of_lt h1) h2', le_refl _⟩
  · rw [if_neg h1]
    have h1' := not_lt.mp h1
    by_cases h3 : target.s_ctrv_.det > target.s_rm_.det
    · rw [if_pos h3]
      exact ⟨Or.inr (Or.inl rfl), h1', le_refl _, le_of_lt h3⟩
    · rw [if_neg h3]
      have h3' := not_lt.mp h3
      exact ⟨Or.inr (Or.inr rfl), le_trans h1' h3', h3', le_refl _⟩

end ImmUkfPda

/-! ### C22: the range of `tracking_num_` -/

namespace ImmUkfPda
variable {R : Type}

theorem updateTrackingNum_range (object_vec : List (autoware_msgs.DetectedObject R))
    (target : UKF R) (h0 : 0 ≤ target.tracking_num_) (h10 : target.tracking_num_ ≤ 10) :
    0 ≤ (updateTrackingNum object_vec target).tracking_num_ ∧
    (updateTrackingNum object_vec target).tracking_num_ ≤ 10 := by
  unfold updateTrackingNum
  simp only [TrackingState.Stable, TrackingState.Lost, TrackingState.Die]
  split_ifs <;> constructor <;> first | omega | (dsimp only; omega)

variable [LinearOrderedField R]

theorem associateBB_tracking_num (E : Env R) (self : ImmUkfPda R)
    (object_vec : List (autoware_msgs.DetectedObject R)) (target : UKF R) :
    (associateBB E self object_vec target).tracking_num_ = target.tracking_num_ := by
  unfold associateBB
  dsimp only
  split_ifs <;> rfl

theorem measurementValidation_tracking_num (E : Env R) (self : ImmUkfPda R)
    (input : autoware_msgs.DetectedObjectArray R) (target : UKF R) (b : Bool)
    (z : Fin 2 → R) (s : Matrix (Fin 2) (Fin 2) R)
    (object_vec : List (autoware_msgs.DetectedObject R)) (matching_vec : List Bool) :
    (measurementValidation E self input target b z s object_vec matching_vec).target.tracking_num_ =
      target.tracking_num_ := by
  rw [measurementValidation_target]

theorem secondInit_tracking_num [FloorRing R] (E : Env R) (target : UKF R)
    (object_vec : List (autoware_msgs.DetectedObject R)) (dt : R) :
    (secondInit E target object_vec dt).tracking_num_ = TrackingState.Die ∨
    (secondInit E target object_vec dt).tracking_num_ = target.tracking_num_ + 1 := by
  cases object_vec with
  | nil => exact Or.inl rfl
  | cons d l => exact Or.inr rfl

/-- C22: `probabilisticDataAssociation` keeps `tracking_num_` in 0..10, whatever the
detections, the claimed vector and the filter state are: the divergence guard gives 0, the
second-init path (entered at 1) gives 0 or 2, and `updateTrackingNum` maps 0..10 into
0..10. -/
theorem probabilisticDataAssociation_tracking_num_range [FloorRing R] (E : Env R)
    (self : ImmUkfPda R) (input : autoware_msgs.DetectedObjectArray R) (dt det_explode_param : R)
    (matching_vec : List Bool) (lambda_vec : List R) (target : UKF R)
    (h0 : 0 ≤ target.tracking_num_) (h10 : target.tracking_num_ ≤ 10) :
    0 ≤ (probabilisticDataAssociation E self input dt det_explode_param matching_vec lambda_vec
      target).target.tracking_num_ ∧
    (probabilisticDataAssociation E self input dt det_explode_param matching_vec lambda_vec
      target).target.tracking_num_ ≤ 10 := by
  unfold probabilisticDataAssociation
  dsimp only
  by_cases hg : E.isnan (findMaxZandS target).2.det = true ∨
      (findMaxZandS target).2.det > det_explode_param
  · rw [if_pos hg]
    simp [TrackingState.Die]
  · rw [if_neg hg]
    by_cases hinit : target.tracking_num_ = TrackingState.Init
    · rw [if_pos (by simpa using hinit)]
      dsimp only
      rcases secondInit_tracking_num E
        (associateBB E self
          (measurementValidation E self input target
            (decide (target.tracking_num_ = TrackingState.Init)) (findMaxZandS target).1
            (findMaxZandS target).2 [] matching_vec).object_vec
          (measurementValidation E self input target
            (decide (target.tracking_num_ = TrackingState.Init)) (findMaxZandS target).1
            (findMaxZandS target).2 [] matching_vec).target)
        (measurementValidation E self input target
          (decide (target.tracking_num_ = TrackingState.Init)) (findMaxZandS target).1
          (findMaxZandS target).2 [] matching_vec).object_vec dt with h | h
      · rw [h]
        simp [TrackingState.Die]
      · rw [h, associateBB_tracking_num, measurementValidation_tracking_num, hinit]
        simp [TrackingState.Init]
    · rw [if_neg (by simpa using hinit)]
      have hr := updateTrackingNum_range
        (measurementValidation E self input target
          (decide (target.tracking_num_ = TrackingState.Init)) (findMaxZandS target).1
          (findMaxZandS target).2 [] matching_vec).object_vec
        (associateBB E self
          (measurementValidation E self input target
            (decide (target.tracking_num_ = TrackingState.Init)) (findMaxZandS target).1
            (findMaxZandS target).2 [] matching_vec).object_vec
          (measurementValidation E self input target
            (decide (target.tracking_num_ = TrackingState.Init)) (findMaxZandS target).1
            (findMaxZandS target).2 [] matching_vec).target)
        (by rw [associateBB_tracking_num, measurementValidation_tracking_num]; exact h0)
        (by rw [associateBB_tracking_num, measurementValidation_tracking_num]; exact h10)
      split_ifs
      · exact hr
      · exact hr

/-- Witness for C22: a Stable track and a frame with one detection inside its gate. -/
theorem probabilisticDataAssociation_tracking_num_range_witness :
    0 ≤ (Sample.track 0 TrackingState.Stable 0).tracking_num_ ∧
    (Sample.track 0 TrackingState.Stable 0).tracking_num_ ≤ 10 ∧
    0 ≤ (probabilisticDataAssociation Sample.env Sample.immUkfPda
      { stamp := 1, objects := [Sample.object 1 0] } 1 10 [false] []
      (Sample.track 0 TrackingState.Stable 0)).target.tracking_num_ ∧
    (probabilisticDataAssociation Sample.env Sample.immUkfPda
      { stamp := 1, objects := [Sample.object 1 0] } 1 10 [false] []
      (Sample.track 0 TrackingState.Stable 0)).target.tracking_num_ ≤ 10 :=
  ⟨by decide, by decide,
    probabilisticDataAssociation_tracking_num_range Sample.env Sample.immUkfPda
      { stamp := 1, objects := [Sample.object 1 0] } 1 10 [false] []
      (Sample.track 0 TrackingState.Stable 0) (by decide) (by decide)⟩

end ImmUkfPda

/-! ### C21: the yaw after `filterPDA` -/

namespace ImmUkfPda
variable {R : Type} [LinearOrderedField R]

/-- The second yaw loop does not push a yaw that is at most `M_PI` above `M_PI`. -/
theorem whileBelow_le (pi : R) :
    ∀ (fuel : Nat) (a : R), a ≤ pi → whileBelow pi fuel a ≤ pi := by
  intro fuel
  induction fuel with
  | zero => intro a ha; exact ha
  | succ n ih =>
    intro a ha
    unfold whileBelow
    by_cases h : a < -pi
    · rw [if_pos h]
      exact ih _ (by linarith)
    · rw [if_neg h]
      exact ha

/-- With `M_PI > 0` the pair of yaw loops ends in the closed interval `[-M_PI, M_PI]`. -/
theorem normalizeYaw_mem [FloorRing R] (E : Env R) (hpi : 0 < E.M_PI) (a : R) :
    -E.M_PI ≤ normalizeYaw E a ∧ normalizeYaw E a ≤ E.M_PI := by
  unfold normalizeYaw
  dsimp only
  exact ⟨not_lt.mp (whileBelow_exit E.M_PI hpi _),
    whileBelow_le E.M_PI _ _ (not_lt.mp (whileAbove_exit E.M_PI hpi a))⟩

/-- C21 (amended): with `M_PI > 0`, after `filterPDA` the yaw component (index 3) of each of
`x_cv_`, `x_ctrv_` and `x_rm_` lies in the closed interval `[-M_PI, M_PI]`, for every gated
list and every prior state. -/
theorem filterPDA_yaw_range [FloorRing R] (E : Env R) (self : ImmUkfPda R) (target : UKF R)
    (object_vec : List (autoware_msgs.DetectedObject R)) (lambda_vec : List R)
    (hpi : 0 < E.M_PI) :
    (-E.M_PI ≤ (filterPDA E self target object_vec lambda_vec).1.x_cv_ 3 ∧
      (filterPDA E self target object_vec lambda_vec).1.x_cv_ 3 ≤ E.M_PI) ∧
    (-E.M_PI ≤ (filterPDA E self target object_vec lambda_vec).1.x_ctrv_ 3 ∧
      (filterPDA E self target object_vec lambda_vec).1.x_ctrv_ 3 ≤ E.M_PI) ∧
    (-E.M_PI ≤ (filterPDA E self target object_vec lambda_vec).1.x_rm_ 3 ∧
      (filterPDA E self target object_vec lambda_vec).1.x_rm_ 3 ≤ E.M_PI) := by
  unfold filterPDA filterPDAModel
  simp only [Function.update_same]
  exact ⟨normalizeYaw_mem E hpi _, normalizeYaw_mem E hpi _, normalizeYaw_mem E hpi _⟩

/-- Witness for C21: the sample track and one detection. -/
theorem filterPDA_yaw_range_witness :
    0 < Sample.env.M_PI ∧
    (-Sample.env.M_PI ≤ (filterPDA Sample.env Sample.immUkfPda
        (Sample.track 0 TrackingState.Stable 0) [Sample.object 1 0] []).1.x_cv_ 3 ∧
      (filterPDA Sample.env Sample.immUkfPda
        (Sample.track 0 TrackingState.Stable 0) [Sample.object 1 0] []).1.x_cv_ 3 ≤
          Sample.env.M_PI) :=
  have hpi : 0 < Sample.env.M_PI := by norm_num [Sample.env]
  ⟨hpi, (filterPDA_yaw_range Sample.env Sample.immUkfPda (Sample.track 0 TrackingState.Stable 0)
    [Sample.object 1 0] [] hpi).1⟩

/-- Counterexample for C21: a track whose CV yaw is `-M_PI`, with zero gain and no gated
detection. Neither loop runs (`-M_PI < -M_PI` is false), so the yaw after `filterPDA` is
`-M_PI`, which is not in the half-open interval `(-M_PI, M_PI]`. -/
theorem filterPDA_yaw_half_open_counterexample :
    (filterPDA Sample.env Sample.immUkfPda
      { Sample.track 0 TrackingState.Stable 0 with x_cv_ := ![0, 0, 0, -(355 / 113), 0] }
      [] []).1.x_cv_ 3 = -Sample.env.M_PI ∧
    ¬ (-Sample.env.M_PI < (filterPDA Sample.env Sample.immUkfPda
        { Sample.track 0 TrackingState.Stable 0 with x_cv_ := ![0, 0, 0, -(355 / 113), 0] }
        [] []).1.x_cv_ 3 ∧
      (filterPDA Sample.env Sample.immUkfPda
        { Sample.track 0 TrackingState.Stable 0 with x_cv_ := ![0, 0, 0, -(355 / 113), 0] }
        [] []).1.x_cv_ 3 ≤ Sample.env.M_PI) := by
  have hpi : Sample.env.M_PI = 355 / 113 := rfl
  have hyaw : normalizeYaw Sample.env (-(355 / 113) : ℚ) = -(355 / 113) :=
    normalizeYaw_of_mem Sample.env _ (by rw [hpi]) (by rw [hpi]; norm_num)
  have hval : (filterPDA Sample.env Sample.immUkfPda
      { Sample.track 0 TrackingState.Stable 0 with x_cv_ := ![0, 0, 0, -(355 / 113), 0] }
      [] []).1.x_cv_ 3 = -Sample.env.M_PI := by
    unfold filterPDA filterPDAModel
    simp [Sample.track, hyaw, hpi]
  rw [hval]
  exact ⟨rfl, fun h => lt_irrefl _ h.1⟩

end ImmUkfPda

/-! ### C24: symmetry of the covariances -/

namespace ImmUkfPda
variable {R : Type} [LinearOrderedField R]

theorem isSymm_mul_mul_transpose (k : Matrix (Fin 5) (Fin 2) R) (s : Matrix (Fin 2) (Fin 2) R)
    (hs : s.IsSymm) : (k * s * k.transpose).IsSymm := by
  unfold Matrix.IsSymm
  rw [Matrix.transpose_mul, Matrix.transpose_mul, Matrix.transpose_transpose, hs.eq,
    Matrix.mul_assoc]

theorem isSymm_vecMulVec_smul (c : R) (v : Fin 2 → R) :
    (Matrix.vecMulVec (c • v) v).IsSymm := by
  unfold Matrix.IsSymm
  ext i j
  simp only [Matrix.transpose_apply, Matrix.vecMulVec_apply, Pi.smul_apply, smul_eq_mul]
  ring

theorem isSymm_vecMulVec_self (v : Fin 2 → R) : (Matrix.vecMulVec v v).IsSymm := by
  unfold Matrix.IsSymm
  ext i j
  simp only [Matrix.transpose_apply, Matrix.vecMulVec_apply]
  ring

/-- The spread `sigma_p` accumulated by the loop at lines 317-325 is symmetric. -/
theorem sigma_p_isSymm (sigma_x : Fin 2 → R) (l : List (R × (Fin 2 → R))) :
    ∀ acc : Matrix (Fin 2) (Fin 2) R, acc.IsSymm →
      (l.foldl
        (fun acc bd =>
          acc + (Matrix.vecMulVec (bd.1 • bd.2) bd.2 - Matrix.vecMulVec sigma_x sigma_x))
        acc).IsSymm := by
  induction l with
  | nil => intro acc h; exact h
  | cons bd l ih =>
    intro acc h
    rw [List.foldl_cons]
    exact ih _ (h.add ((isSymm_vecMulVec_smul bd.1 bd.2).sub (isSymm_vecMulVec_self sigma_x)))

/-- The covariance `filterPDA` writes for one model is symmetric when `P` and `S` are. -/
theorem filterPDAModel_p_isSymm [FloorRing R] (E : Env R) (b num_meas : R)
    (object_vec : List (autoware_msgs.DetectedObject R))
    (z_pred : Fin 2 → R) (s : Matrix (Fin 2) (Fin 2) R) (k : Matrix (Fin 5) (Fin 2) R)
    (x : Fin 5 → R) (p : Matrix (Fin 5) (Fin 5) R) (hp : p.IsSymm) (hs : s.IsSymm) :
    (filterPDAModel E b num_meas object_vec z_pred s k x p).p.IsSymm := by
  unfold filterPDAModel
  dsimp only
  have hksk := isSymm_mul_mul_transpose k s hs
  split_ifs
  · refine ((hp.smul _).add ((hp.sub hksk).smul _)).add ?_
    exact isSymm_mul_mul_transpose k _ (sigma_p_isSymm _ _ 0 Matrix.isSymm_zero)
  · exact hp.sub hksk

/-- C24: if, for each model, `P` and `S` are symmetric before `filterPDA`, then each model's
`P` is symmetric after it, for every gain, every gated list (empty or not) and every value
of the probabilities. -/
theorem filterPDA_symmetric [FloorRing R] (E : Env R) (self : ImmUkfPda R) (target : UKF R)
    (object_vec : List (autoware_msgs.DetectedObject R)) (lambda_vec : List R)
    (hp_cv : target.p_cv_.IsSymm) (hs_cv : target.s_cv_.IsSymm)
    (hp_ctrv : target.p_ctrv_.IsSymm) (hs_ctrv : target.s_ctrv_.IsSymm)
    (hp_rm : target.p_rm_.IsSymm) (hs_rm : target.s_rm_.IsSymm) :
    (filterPDA E self target object_vec lambda_vec).1.p_cv_.IsSymm ∧
    (filterPDA E self target object_vec lambda_vec).1.p_ctrv_.IsSymm ∧
    (filterPDA E self target object_vec lambda_vec).1.p_rm_.IsSymm := by
  unfold filterPDA
  dsimp only
  exact ⟨filterPDAModel_p_isSymm E _ _ _ _ _ _ _ _ hp_cv hs_cv,
    filterPDAModel_p_isSymm E _ _ _ _ _ _ _ _ hp_ctrv hs_ctrv,
    filterPDAModel_p_isSymm E _ _ _ _ _ _ _ _ hp_rm hs_rm⟩

/-- Witness for C24: the sample track (zero `P`, unit `S`) and one detection. -/
theorem filterPDA_symmetric_witness :
    (Sample.track 0 TrackingState.Stable 0).p_cv_.IsSymm ∧
    (Sample.track 0 TrackingState.Stable 0).s_cv_.IsSymm ∧
    (Sample.track 0 TrackingState.Stable 0).p_ctrv_.IsSymm ∧
    (Sample.track 0 TrackingState.Stable 0).s_ctrv_.IsSymm ∧
    (Sample.track 0 TrackingState.Stable 0).p_rm_.IsSymm ∧
    (Sample.track 0 TrackingState.Stable 0).s_rm_.IsSymm ∧
    (filterPDA Sample.env Sample.immUkfPda (Sample.track 0 TrackingState.Stable 0)
      [Sample.object 1 0] []).1.p_cv_.IsSymm ∧
    (filterPDA Sample.env Sample.immUkfPda (Sample.track 0 TrackingState.Stable 0)
      [Sample.object 1 0] []).1.p_ctrv_.IsSymm ∧
    (filterPDA Sample.env Sample.immUkfPda (Sample.track 0 TrackingState.Stable 0)
      [Sample.object 1 0] []).1.p_rm_.IsSymm :=
  ⟨Matrix.isSymm_zero, Matrix.isSymm_one, Matrix.isSymm_zero, Matrix.isSymm_one,
    Matrix.isSymm_zero, Matrix.isSymm_one,
    filterPDA_symmetric Sample.env Sample.immUkfPda (Sample.track 0 TrackingState.Stable 0)
      [Sample.object 1 0] [] Matrix.isSymm_zero Matrix.isSymm_one Matrix.isSymm_zero
      Matrix.isSymm_one Matrix.isSymm_zero Matrix.isSymm_one⟩

end ImmUkfPda

/-! ### C27: the association probabilities -/

namespace ImmUkfPda
variable {R : Type} [LinearOrderedField R]

end ImmUkfPda

/-! ### C25: what a tick emits -/

namespace ImmUkfPda
variable {R : Type}

theorem updateTrackingNum_is_vis_bb (object_vec : List (autoware_msgs.DetectedObject R))
    (target : UKF R) :
    (updateTrackingNum object_vec target).is_vis_bb_ = target.is_vis_bb_ := by
  rw [updateTrackingNum_eq]

theorem updateTrackingNum_stable (object_vec : List (autoware_msgs.DetectedObject R))
    (target : UKF R) (hne : object_vec ≠ [])
    (hs : target.tracking_num_ = TrackingState.Stable) :
    (updateTrackingNum object_vec target).tracking_num_ = TrackingState.Stable := by
  have hlen : object_vec.length > 0 := List.length_pos.mpr hne
  unfold updateTrackingNum
  rw [if_pos hlen, if_neg (by rw [hs]; decide), if_pos hs]

variable [LinearOrderedField R]

/-- Outside second-init mode `measurementValidation` appends the gated detections, in input
order, to `object_vec`. -/
theorem measurementValidation_object_vec_false (E : Env R) (self : ImmUkfPda R)
    (input : autoware_msgs.DetectedObjectArray R) (target : UKF R)
    (z : Fin 2 → R) (s : Matrix (Fin 2) (Fin 2) R)
    (object_vec : List (autoware_msgs.DetectedObject R)) (matching_vec : List Bool) :
    (measurementValidation E self input target false z s object_vec matching_vec).object_vec =
      object_vec ++ input.objects.filter (fun d => decide (nis z s d < self.gating_thres_)) := by
  have h := loop_object_vec_false self z s input.objects 0
    (measurementValidationInit E target object_vec matching_vec)
  have hdone : (measurementValidationInit E target object_vec matching_vec).second_init_done =
      false := rfl
  unfold measurementValidation
  simp only [h.2, hdone, Bool.false_eq_true, if_false, h.1]
  rfl

theorem measurementValidation_is_vis_bb (E : Env R) (self : ImmUkfPda R)
    (input : autoware_msgs.DetectedObjectArray R) (target : UKF R) (b : Bool)
    (z : Fin 2 → R) (s : Matrix (Fin 2) (Fin 2) R)
    (object_vec : List (autoware_msgs.DetectedObject R)) (matching_vec : List Bool) :
    (measurementValidation E self input target b z s object_vec matching_vec).target.is_vis_bb_ =
      target.is_vis_bb_ := by
  rw [measurementValidation_target]

/-- `associateBB` sets the BB-visible flag only for a Stable track with a non-empty gated
list. -/
theorem associateBB_is_vis_bb (E : Env R) (self : ImmUkfPda R)
    (object_vec : List (autoware_msgs.DetectedObject R)) (target : UKF R)
    (h : (associateBB E self object_vec target).is_vis_bb_ = true) :
    target.is_vis_bb_ = true ∨
      (object_vec ≠ [] ∧ target.tracking_num_ = TrackingState.Stable) := by
  unfold associateBB at h
  dsimp only at h
  by_cases h0 : object_vec.length = 0
  · rw [if_pos h0] at h
    exact Or.inl h
  · rw [if_neg h0] at h
    by_cases hs : target.tracking_num_ = TrackingState.Stable ∧
        target.lifetime_ ≥ self.life_time_thres_
    · exact Or.inr ⟨fun hnil => h0 (by rw [hnil]; rfl), hs.1⟩
    · rw [if_neg hs] at h
      exact Or.inl h

theorem secondInit_is_vis_bb [FloorRing R] (E : Env R) (target : UKF R)
    (object_vec : List (autoware_msgs.DetectedObject R)) (dt : R) :
    (secondInit E target object_vec dt).is_vis_bb_ = target.is_vis_bb_ := by
  cases object_vec with
  | nil => rfl
  | cons d l => rfl

/-- The track `probabilisticDataAssociation` returns is BB-visible only if it came in
BB-visible, or it is Stable and some detection of the frame is inside its gate. -/
theorem probabilisticDataAssociation_is_vis_bb [FloorRing R] (E : Env R) (self : ImmUkfPda R)
    (input : autoware_msgs.DetectedObjectArray R) (dt det_explode_param : R)
    (matching_vec : List Bool) (lambda_vec : List R) (target : UKF R)
    (h : (probabilisticDataAssociation E self input dt det_explode_param matching_vec lambda_vec
      target).target.is_vis_bb_ = true) :
    target.is_vis_bb_ = true ∨
      ((probabilisticDataAssociation E self input dt det_explode_param matching_vec lambda_vec
          target).target.tracking_num_ = TrackingState.Stable ∧
        (probabilisticDataAssociation E self input dt det_explode_param matching_vec lambda_vec
          target).is_skip_target = false ∧
        ∃ d ∈ input.objects,
          nis (findMaxZandS target).1 (findMaxZandS target).2 d < self.gating_thres_) := by
  unfold probabilisticDataAssociation at h ⊢
  dsimp only at h ⊢
  by_cases hg : E.isnan (findMaxZandS target).2.det = true ∨
      (findMaxZandS target).2.det > det_explode_param
  · rw [if_pos hg] at h
    exact Or.inl h
  · rw [if_neg hg] at h ⊢
    by_cases hinit : target.tracking_num_ = TrackingState.Init
    · have hdec : decide (target.tracking_num_ = TrackingState.Init) = true :=
        decide_eq_true hinit
      rw [hdec] at h
      simp only [if_true] at h
      rw [secondInit_is_vis_bb, associateBB_not_stable, measurementValidation_is_vis_bb] at h
      · exact Or.inl h
      · rw [measurementValidation_tracking_num, hinit]
        decide
    · have hdec : decide (target.tracking_num_ = TrackingState.Init) = false :=
        decide_eq_false hinit
      rw [hdec] at h ⊢
      simp only [Bool.false_eq_true, if_false] at h ⊢
      have hvis : (associateBB E self
          (measurementValidation E self input target false (findMaxZandS target).1
            (findMaxZandS target).2 [] matching_vec).object_vec
          (measurementValidation E self input target false (findMaxZandS target).1
            (findMaxZandS target).2 [] matching_vec).target).is_vis_bb_ = true := by
        split_ifs at h
        · rw [updateTrackingNum_is_vis_bb] at h
          exact h
        · have h' : (updateTrackingNum _ _).is_vis_bb_ = true := h
          rw [updateTrackingNum_is_vis_bb] at h'
          exact h'
      rcases associateBB_is_vis_bb E self _ _ hvis with hin | ⟨hne, hst⟩
      · rw [measurementValidation_is_vis_bb] at hin
        exact Or.inl hin
      · right
        have hstable := updateTrackingNum_stable _
          (associateBB E self
            (measurementValidation E self input target false (findMaxZandS target).1
              (findMaxZandS target).2 [] matching_vec).object_vec
            (measurementValidation E self input target false (findMaxZandS target).1
              (findMaxZandS target).2 [] matching_vec).target) hne
          (by rw [associateBB_tracking_num]; exact hst)
        have hnd : ¬ (updateTrackingNum
            (measurementValidation E self input target false (findMaxZandS target).1
              (findMaxZandS target).2 [] matching_vec).object_vec
            (associateBB E self
              (measurementValidation E self input target false (findMaxZandS target).1
                (findMaxZandS target).2 [] matching_vec).object_vec
              (measurementValidation E self input target false (findMaxZandS target).1
                (findMaxZandS target).2 [] matching_vec).target)).tracking_num_ =
            TrackingState.Die := by
          rw [hstable]
          decide
        rw [if_neg hnd]
        refine ⟨hstable, rfl, ?_⟩
        rw [measurementValidation_object_vec_false, List.nil_append] at hne
        obtain ⟨d, hd⟩ := List.exists_mem_of_ne_nil _ hne
        obtain ⟨hmem, hgate⟩ := List.mem_filter.mp hd
        exact ⟨d, hmem, by simpa using hgate⟩

end ImmUkfPda

namespace ImmUkfPda
variable {R : Type}

/-- The tracks `makeNewTargets` appends are results of `initializeUKF`. -/
theorem makeNewTargets_news (E : Env R) (timestamp : R) (matching_vec : List Bool)
    (l : List (autoware_msgs.DetectedObject R)) :
    ∀ (i : Nat) (self : ImmUkfPda R), ∃ news : List (UKF R),
      (forLoop
        (fun i (obj : autoware_msgs.DetectedObject R) (self : ImmUkfPda R) =>
          if matching_vec.getD i false = false then
            let px := obj.pose.position.x
            let py := obj.pose.position.y
            let init_meas : Fin 2 → R := ![px, py]
            let ukf := E.initializeUKF init_meas timestamp self.target_id_
            { self with targets_ := self.targets_ ++ [ukf], target_id_ := self.target_id_ + 1 }
          else self)
        i l self).targets_ = self.targets_ ++ news ∧
      ∀ n ∈ news, ∃ (m : Fin 2 → R) (t : R) (id : Int), n = E.initializeUKF m t id := by
  induction l with
  | nil => intro i self; exact ⟨[], by simp [forLoop], by simp⟩
  | cons d l ih =>
    intro i self
    simp only [forLoop]
    by_cases hb : matching_vec.getD i false = false
    · simp only [hb, if_true]
      obtain ⟨news, hloop, hnews⟩ := ih (i + 1)
        { self with
            targets_ := self.targets_ ++
              [E.initializeUKF ![d.pose.position.x, d.pose.position.y] timestamp self.target_id_],
            target_id_ := self.target_id_ + 1 }
      refine ⟨E.initializeUKF ![d.pose.position.x, d.pose.position.y] timestamp self.target_id_ ::
        news, ?_, ?_⟩
      · rw [hloop]
        simp
      · intro n hn
        rcases List.mem_cons.mp hn with rfl | hmem
        · exact ⟨_, _, _, rfl⟩
        · exact hnews n hmem
    · simp only [hb, Bool.true_eq_false, if_false]
      exact ih (i + 1) self

variable [LinearOrderedField R]

/-- A track leaves the tracker loop BB-visible only if it is Stable, the IMM update was
reached, and some detection of the frame is inside its gate (the IMM prediction being
assumed to leave the BB-visible flag alone, the IMM update that flag and `tracking_num_`). -/
theorem trackerBody_is_vis_bb [FloorRing R] (E : Env R) (self : ImmUkfPda R)
    (input : autoware_msgs.DetectedObjectArray R) (dt det_explode_param cov_explode_param : R)
    (target : UKF R) (matching_vec : List Bool)
    (hpred : ∀ (dt : R) (t : UKF R), (E.predictionIMMUKF dt t).is_vis_bb_ = t.is_vis_bb_)
    (hupd : ∀ (lambda_vec : List R) (t : UKF R),
      (E.updateIMMUKF lambda_vec t).tracking_num_ = t.tracking_num_ ∧
      (E.updateIMMUKF lambda_vec t).is_vis_bb_ = t.is_vis_bb_)
    (h : (trackerBody E self input dt det_explode_param cov_explode_param target
      matching_vec).1.is_vis_bb_ = true) :
    (trackerBody E self input dt det_explode_param cov_explode_param target
      matching_vec).1.tracking_num_ = TrackingState.Stable ∧
    ∃ d ∈ input.objects,
      nis (findMaxZandS (E.predictionIMMUKF dt
            { target with is_vis_bb_ := false, is_static_ := false })).1
          (findMaxZandS (E.predictionIMMUKF dt
            { target with is_vis_bb_ := false, is_static_ := false })).2 d <
        self.gating_thres_ := by
  unfold trackerBody at h ⊢
  dsimp only at h ⊢
  by_cases hdie : target.tracking_num_ = TrackingState.Die
  · rw [if_pos hdie] at h
    exact absurd h (by simp)
  · rw [if_neg hdie] at h ⊢
    by_cases hexp : target.p_merge_.det > det_explode_param ∨
        target.p_merge_ 4 4 > cov_explode_param
    · rw [if_pos hexp] at h
      exact absurd h (by simp)
    · rw [if_neg hexp] at h ⊢
      have hfalse : (E.predictionIMMUKF dt
          { target with is_vis_bb_ := false, is_static_ := false }).is_vis_bb_ = false := by
        rw [hpred]
      by_cases hskip : (probabilisticDataAssociation E self input dt det_explode_param
          matching_vec [] (E.predictionIMMUKF dt
            { target with is_vis_bb_ := false, is_static_ := false })).is_skip_target = true
      · rw [if_pos hskip] at h
        rcases probabilisticDataAssociation_is_vis_bb E self input dt det_explode_param
          matching_vec [] _ h with hv | ⟨_, hns, _⟩
        · rw [hfalse] at hv
          exact absurd hv (by decide)
        · rw [hns] at hskip
          exact absurd hskip (by decide)
      · rw [if_neg hskip] at h ⊢
        rw [(hupd _ _).2] at h
        rw [(hupd _ _).1]
        rcases probabilisticDataAssociation_is_vis_bb E self input dt det_explode_param
          matching_vec [] _ h with hv | ⟨hst, _, hd⟩
        · rw [hfalse] at hv
          exact absurd hv (by decide)
        · exact ⟨hst, hd⟩

end ImmUkfPda

namespace ImmUkfPda
variable {R : Type}

/-- A track that differs from `w` in `dist_from_init_` only, where `w` differs from `u` in
`vel_history_` and `is_static_` only, differs from `u` in those three members only. -/
theorem ukf_eq_of_steps (u w t : UKF R) (v : List R)
    (h2 : w = { u with vel_history_ := v, is_static_ := w.is_static_ })
    (h1 : t = { w with dist_from_init_ := t.dist_from_init_ }) :
    t = { u with vel_history_ := t.vel_history_, is_static_ := t.is_static_,
                 dist_from_init_ := t.dist_from_init_ } := by
  have hwv0 := congrArg UKF.vel_history_ h2
  have hwv : w.vel_history_ = v := hwv0
  have hv0 := congrArg UKF.vel_history_ h1
  have hv : t.vel_history_ = v := Eq.trans hv0 hwv
  have hs0 := congrArg UKF.is_static_ h1
  have hs : t.is_static_ = w.is_static_ := hs0
  rw [hv, hs]
  calc t = { w with dist_from_init_ := t.dist_from_init_ } := h1
    _ = { ({ u with vel_history_ := v, is_static_ := w.is_static_ } : UKF R) with
            dist_from_init_ := t.dist_from_init_ } := by rw [← h2]
    _ = { u with vel_history_ := v, is_static_ := w.is_static_,
                 dist_from_init_ := t.dist_from_init_ } := rfl

/-- The label `updateLabel` writes for a Stable track is "Static" or "Stable". -/
theorem updateLabel_stable (target : UKF R) (dd : autoware_msgs.DetectedObject R)
    (h : target.tracking_num_ = TrackingState.Stable) :
    (updateLabel target dd).label = "Static" ∨ (updateLabel target dd).label = "Stable" := by
  unfold updateLabel
  dsimp only
  by_cases hs : target.is_static_ = true
  · rw [if_pos hs]
    exact Or.inl rfl
  · rw [if_neg hs, if_neg (by rw [h]; decide), if_pos h]
    exact Or.inr rfl

variable [LinearOrderedField R]

/-- The boxes and objects `makeOutput` appends: one of each per BB-visible track, in track
order, computed from the track as the loop leaves it. -/
theorem makeOutput_outputs [FloorRing R] (E : Env R) (yaw : R) (l : List (UKF R)) :
    ∀ (out : List (UKF R) × List (jsk_recognition_msgs.BoundingBox R) ×
        List (autoware_msgs.DetectedObject R)),
      (l.foldl (fun out target => makeOutputBody E yaw target out) out).2.1 =
        out.2.1 ++
          (((l.foldl (fun out target => makeOutputBody E yaw target out) out).1.drop
              out.1.length).filter (fun t => t.is_vis_bb_)).map
            (fun t => updateJskLabel t t.jsk_bb_) ∧
      (l.foldl (fun out target => makeOutputBody E yaw target out) out).2.2 =
        out.2.2 ++
          (((l.foldl (fun out target => makeOutputBody E yaw target out) out).1.drop
              out.1.length).filter (fun t => t.is_vis_bb_)).map
            (fun t => updateLabel t
              { (autoware_msgs.DetectedObject.default : autoware_msgs.DetectedObject R) with
                  id := t.ukf_id_, velocity_linear_x := t.x_merge_ 2, pose := t.jsk_bb_.pose,
                  dimensions := t.jsk_bb_.dimensions,
                  velocity_linear_y := normalizeYaw E (t.x_merge_ 3 - yaw) }) := by
  induction l with
  | nil => intro out; simp
  | cons t l ih =>
    intro out
    rw [List.foldl_cons]
    have hlen : ∃ v : UKF R, (makeOutputBody E yaw t out).1 = out.1 ++ [v] := by
      obtain ⟨v, hv, _⟩ := makeOutputBody_targets E yaw t out
      exact ⟨v, hv⟩
    obtain ⟨v, hv⟩ := hlen
    have hprefix := makeOutput_targets E yaw l (makeOutputBody E yaw t out)
    rw [(ih (makeOutputBody E yaw t out)).1, (ih (makeOutputBody E yaw t out)).2, hprefix, hv]
    have hdrop1 : ∀ (tl : List (UKF R)),
        (out.1 ++ [v] ++ tl).drop (out.1 ++ [v]).length = tl := by
      intro tl
      rw [List.drop_left]
    have hdrop2 : ∀ (tl : List (UKF R)),
        (out.1 ++ [v] ++ tl).drop out.1.length = v :: tl := by
      intro tl
      rw [List.append_assoc, List.drop_left]
      rfl
    rw [hdrop1, hdrop2]
    unfold makeOutputBody at hv ⊢
    by_cases hvis : t.is_vis_bb_ = true
    · rw [if_pos hvis] at hv ⊢
      have hveq : v =
          { t with dist_from_init_ :=
              E.sqrt ((t.x_merge_ 0 - t.init_meas_ 0) * (t.x_merge_ 0 - t.init_meas_ 0) +
                (t.x_merge_ 1 - t.init_meas_ 1) * (t.x_merge_ 1 - t.init_meas_ 1)) } := by
        have := List.append_cancel_left hv
        simpa using this.symm
      subst hveq
      simp [List.filter_cons, hvis]
    · rw [if_neg hvis] at hv ⊢
      have hveq : v = t := by
        have := List.append_cancel_left hv
        simpa using this.symm
      subst hveq
      simp [List.filter_cons, hvis]

end ImmUkfPda

namespace ImmUkfPda
variable {R : Type} [LinearOrderedField R]

/-- C25: what one call of `tracker` appends to its two outputs, given that a freshly
initialised track is not BB-visible, that the IMM prediction leaves the BB-visible flag
alone and that the IMM update leaves `tracking_num_` and that flag alone. There is a list
of emitted tracks, one box and one object per track: every emitted track is in the track
list after the call, is BB-visible and Stable, gets the label "Static" or "Stable", and
is what the tracker loop made of a track `t0` of the state before the call (up to
`vel_history_`, `is_static_` and `dist_from_init_`, which the later steps write) for which
some detection of the frame is inside the gate (around the predicted measurement chosen by
`findMaxZandS` after the IMM prediction). -/
theorem tracker_emits_stable_gated [FloorRing R] (E : Env R) (yaw : R)
    (input : autoware_msgs.DetectedObjectArray R) (self : ImmUkfPda R)
    (jskbboxes_output : List (jsk_recognition_msgs.BoundingBox R))
    (detected_objects_output : List (autoware_msgs.DetectedObject R))
    (hnew : ∀ (m : Fin 2 → R) (t : R) (id : Int), (E.initializeUKF m t id).is_vis_bb_ = false)
    (hpred : ∀ (dt : R) (t : UKF R), (E.predictionIMMUKF dt t).is_vis_bb_ = t.is_vis_bb_)
    (hupd : ∀ (lambda_vec : List R) (t : UKF R),
      (E.updateIMMUKF lambda_vec t).tracking_num_ = t.tracking_num_ ∧
      (E.updateIMMUKF lambda_vec t).is_vis_bb_ = t.is_vis_bb_) :
    ∃ emitted : List (UKF R),
      (tracker E yaw input self jskbboxes_output detected_objects_output).jskbboxes_output =
        jskbboxes_output ++ emitted.map (fun t => updateJskLabel t t.jsk_bb_) ∧
      (tracker E yaw input self jskbboxes_output detected_objects_output
        ).detected_objects_output =
        detected_objects_output ++ emitted.map
          (fun t => updateLabel t
            { (autoware_msgs.DetectedObject.default : autoware_msgs.DetectedObject R) with
                id := t.ukf_id_, velocity_linear_x := t.x_merge_ 2, pose := t.jsk_bb_.pose,
                dimensions := t.jsk_bb_.dimensions,
                velocity_linear_y := normalizeYaw E (t.x_merge_ 3 - yaw) }) ∧
      ∀ t ∈ emitted,
        t ∈ (tracker E yaw input self jskbboxes_output detected_objects_output).self.targets_ ∧
        t.is_vis_bb_ = true ∧
        t.tracking_num_ = TrackingState.Stable ∧
        (∀ dd : autoware_msgs.DetectedObject R,
          (updateLabel t dd).label = "Static" ∨ (updateLabel t dd).label = "Stable") ∧
        ∃ t0 ∈ self.targets_,
          (∃ matching_vec : List Bool,
            t = { (trackerBody E { self with timestamp_ := input.stamp } input
                    (input.stamp - self.timestamp_) 10 1000 t0 matching_vec).1 with
                  vel_history_ := t.vel_history_, is_static_ := t.is_static_,
                  dist_from_init_ := t.dist_from_init_ }) ∧
          ∃ d ∈ input.objects,
            nis (findMaxZandS (E.predictionIMMUKF (input.stamp - self.timestamp_)
                  { t0 with is_vis_bb_ := false, is_static_ := false })).1
                (findMaxZandS (E.predictionIMMUKF (input.stamp - self.timestamp_)
                  { t0 with is_vis_bb_ := false, is_static_ := false })).2 d <
              self.gating_thres_ := by
  by_cases hi : self.init_ = true
  · obtain ⟨processed, hproc, hrel⟩ := foldl_acc_forall2
      (fun (target : UKF R) (mv : List Bool) =>
        trackerBody E { self with timestamp_ := input.stamp } input
          (input.stamp - self.timestamp_) 10 1000 target mv)
      (fun (t0 u : UKF R) =>
        (∃ matching_vec : List Bool,
          u = (trackerBody E { self with timestamp_ := input.stamp } input
            (input.stamp - self.timestamp_) 10 1000 t0 matching_vec).1) ∧
        (u.is_vis_bb_ = true →
          u.tracking_num_ = TrackingState.Stable ∧
          ∃ d ∈ input.objects,
            nis (findMaxZandS (E.predictionIMMUKF (input.stamp - self.timestamp_)
                  { t0 with is_vis_bb_ := false, is_static_ := false })).1
                (findMaxZandS (E.predictionIMMUKF (input.stamp - self.timestamp_)
                  { t0 with is_vis_bb_ := false, is_static_ := false })).2 d <
              self.gating_thres_))
      (fun t mv => ⟨⟨mv, rfl⟩,
        fun h => trackerBody_is_vis_bb E { self with timestamp_ := input.stamp } input
          (input.stamp - self.timestamp_) 10 1000 t mv hpred hupd h⟩)
      self.targets_ ([], List.replicate input.objects.length false)
    simp only [List.nil_append] at hproc
    unfold tracker
    dsimp only
    rw [if_neg (by simp [hi]), hproc]
    generalize (List.foldl _ ([], List.replicate input.objects.length false) self.targets_).2 = mvf
    obtain ⟨news, hloop, hnews⟩ := makeNewTargets_news E input.stamp mvf input.objects 0
      { self with timestamp_ := input.stamp, targets_ := processed }
    unfold makeNewTargets
    generalize hself3 : forLoop _ 0 input.objects
      { self with timestamp_ := input.stamp, targets_ := processed } = self3 at hloop ⊢
    unfold staticClassification makeOutput
    dsimp only
    have hout := makeOutput_outputs E yaw (self3.targets_.map (staticClassificationBody self3))
      ([], jskbboxes_output, detected_objects_output)
    have htargets := makeOutput_targets E yaw (self3.targets_.map (staticClassificationBody self3))
      ([], jskbboxes_output, detected_objects_output)
    simp only [List.nil_append, List.length_nil, List.drop_zero] at hout htargets
    rw [removeUnnecessaryTarget_eq]
    refine ⟨_, hout.1, hout.2, ?_⟩
    intro t ht
    obtain ⟨hfinal, hvis⟩ := List.mem_filter.mp ht
    have hvis' : t.is_vis_bb_ = true := hvis
    have hmem := hfinal
    rw [htargets] at hfinal
    obtain ⟨v, hv, rfl⟩ := List.mem_map.mp hfinal
    obtain ⟨u, hu, rfl⟩ := List.mem_map.mp hv
    have huvis : u.is_vis_bb_ = true := by
      have h := hvis'
      rw [makeOutput_target_fields, staticClassificationBody_eq] at h
      exact h
    have hnum : ∀ w : UKF R, w.tracking_num_ = TrackingState.Stable →
        (if (staticClassificationBody self3 w).is_vis_bb_ = true then
          { staticClassificationBody self3 w with
              dist_from_init_ :=
                E.sqrt
                  (((staticClassificationBody self3 w).x_merge_ 0 -
                      (staticClassificationBody self3 w).init_meas_ 0) *
                    ((staticClassificationBody self3 w).x_merge_ 0 -
                      (staticClassificationBody self3 w).init_meas_ 0) +
                  ((staticClassificationBody self3 w).x_merge_ 1 -
                      (staticClassificationBody self3 w).init_meas_ 1) *
                    ((staticClassificationBody self3 w).x_merge_ 1 -
                      (staticClassificationBody self3 w).init_meas_ 1)) }
        else staticClassificationBody self3 w).tracking_num_ = TrackingState.Stable := by
      intro w hw
      rw [makeOutput_target_fields, staticClassificationBody_eq]
      exact hw
    rw [hloop] at hu
    have hup : u ∈ processed := by
      rcases List.mem_append.mp hu with hp | hn
      · exact hp
      · obtain ⟨m, ts, id, rfl⟩ := hnews u hn
        rw [hnew] at huvis
        exact absurd huvis (by decide)
    obtain ⟨t0, ht0, ⟨mv, hmv⟩, hr⟩ := forall2_exists_left _ _ _ hrel u hup
    obtain ⟨hstable, d, hd, hgate⟩ := hr huvis
    have hstable' := hnum u hstable
    refine ⟨?_, hvis', hstable', fun dd => updateLabel_stable _ dd hstable', t0, ht0,
      ⟨mv, ?_⟩, d, hd, hgate⟩
    · rw [List.mem_filter]
      refine ⟨hmem, ?_⟩
      rw [hstable']
      decide
    · subst hmv
      exact ukf_eq_of_steps _ _ _ _ (staticClassificationBody_eq self3 _)
        (makeOutput_target_fields E _)
  · refine ⟨[], ?_, ?_, ?_⟩
    · unfold tracker
      dsimp only
      rw [if_pos hi]
      simp
    · unfold tracker
      dsimp only
      rw [if_pos hi]
      simp
    · intro t ht
      simp at ht

/-- Witness for C25: the tick on the tracker holding `Sample.trackedBox`, with one detection
inside its gate, in the environment whose IMM steps are the identity. -/
theorem tracker_emits_stable_gated_witness :
    (∀ (m : Fin 2 → ℚ) (t : ℚ) (id : Int),
      (Sample.env.initializeUKF m t id).is_vis_bb_ = false) ∧
    (∀ (dt : ℚ) (t : UKF ℚ), (Sample.env.predictionIMMUKF dt t).is_vis_bb_ = t.is_vis_bb_) ∧
    (∀ (lambda_vec : List ℚ) (t : UKF ℚ),
      (Sample.env.updateIMMUKF lambda_vec t).tracking_num_ = t.tracking_num_ ∧
      (Sample.env.updateIMMUKF lambda_vec t).is_vis_bb_ = t.is_vis_bb_) ∧
    ∃ emitted : List (UKF ℚ),
      (tracker Sample.env 0 { stamp := 1, objects := [Sample.object 1 0] } Sample.stateWithBox
        [] []).jskbboxes_output = [] ++ emitted.map (fun t => updateJskLabel t t.jsk_bb_) ∧
      ∀ t ∈ emitted, t.tracking_num_ = TrackingState.Stable :=
  have h := tracker_emits_stable_gated Sample.env 0
    { stamp := 1, objects := [Sample.object 1 0] } Sample.stateWithBox [] []
    (fun _ _ _ => rfl) (fun _ _ => rfl) (fun _ _ => ⟨rfl, rfl⟩)
  ⟨fun _ _ _ => rfl, fun _ _ => rfl, fun _ _ => ⟨rfl, rfl⟩,
    h.imp (fun _ he => ⟨he.1, fun t ht => (he.2.2 t ht).2.2.1⟩)⟩

end ImmUkfPda

/-! ### C26: the history the static classifier reads -/

namespace Sample
open ImmUkfPda

theorem env_initializeUKF_origin (t : ℚ) (id : Int) :
    env.initializeUKF ![0, 0] t id = track id TrackingState.Init 0 := by
  have h5 : (![0, 0, 0, 0, 0] : Fin 5 → ℚ) = 0 := by
    ext i; fin_cases i <;> rfl
  have h2 : (![0, 0] : Fin 2 → ℚ) = 0 := by
    ext i; fin_cases i <;> rfl
  simp [env, track, h5, h2]

theorem tracker_first_frame :
    tracker env 0 { stamp := 0, objects := [object 0 0] } immUkfPda [] [] =
      { self := bornState, jskbboxes_output := [], detected_objects_output := [] } := by
  have hobj : (object 0 0).pose.position.x = 0 ∧ (object 0 0).pose.position.y = 0 := ⟨rfl, rfl⟩
  unfold tracker
  simp [initTracker, forLoop, immUkfPda, ImmUkfPda.construct, hobj, env_initializeUKF_origin,
    bornState]

end Sample

namespace ImmUkfPda
variable {R : Type} [LinearOrderedField R]

/-- The body of the tracker loop for a track in Init that passes both divergence guards:
prediction, gating in second-init mode, box association, `secondInit`; the IMM update is
skipped. -/
theorem trackerBody_second_init_eq [FloorRing R] (E : Env R) (self : ImmUkfPda R)
    (input : autoware_msgs.DetectedObjectArray R) (dt det_explode_param cov_explode_param : R)
    (target : UKF R) (matching_vec : List Bool)
    (target2 : UKF R) (mv : MeasurementValidationOut R)
    (hdie : ¬ target.tracking_num_ = TrackingState.Die)
    (hexp : ¬ (target.p_merge_.det > det_explode_param ∨
      target.p_merge_ 4 4 > cov_explode_param))
    (h2 : E.predictionIMMUKF dt { target with is_vis_bb_ := false, is_static_ := false } =
      target2)
    (hguard : ¬ (E.isnan (findMaxZandS target2).2.det = true ∨
      (findMaxZandS target2).2.det > det_explode_param))
    (hinit : target2.tracking_num_ = TrackingState.Init)
    (hmv : measurementValidation E self input target2 true (findMaxZandS target2).1
      (findMaxZandS target2).2 [] matching_vec = mv) :
    trackerBody E self input dt det_explode_param cov_explode_param target matching_vec =
      (secondInit E (associateBB E self mv.object_vec mv.target) mv.object_vec dt,
        mv.matching_vec) := by
  subst h2 hmv
  unfold trackerBody
  dsimp only
  rw [if_neg hdie, if_neg hexp]
  unfold probabilisticDataAssociation
  dsimp only
  rw [if_neg hguard]
  have hdec : decide ((E.predictionIMMUKF dt
      { target with is_vis_bb_ := false, is_static_ := false }).tracking_num_ =
        TrackingState.Init) = true := decide_eq_true hinit
  rw [hdec]
  simp only [if_true]

end ImmUkfPda

namespace Sample
open ImmUkfPda

theorem measurementValidation_crowdedFrame_init (ts stamp : ℚ) :
    measurementValidation env { bornState with timestamp_ := ts } (crowdedFrame stamp)
      (track 0 TrackingState.Init 0) true 0 1 [] (List.replicate 3 false) =
      { target := track 0 TrackingState.Init 3, object_vec := [object 0 0],
        matching_vec := List.replicate 3 true } := by
  simp [measurementValidation, measurementValidationInit, forLoop, measurementValidationBody,
    nis_object, bornState, immUkfPda, ImmUkfPda.construct, env, track, crowdedFrame,
    List.replicate]
  norm_num

theorem measurementValidation_crowdedFrame (self : ImmUkfPda ℚ) (stamp : ℚ) (tn lifetime : Int)
    (hg : self.gating_thres_ = 922 / 100) (v : List ℚ) (im : Fin 2 → ℚ) :
    measurementValidation env self (crowdedFrame stamp)
      { track 0 tn lifetime with vel_history_ := v, init_meas_ := im } false 0 1 []
      (List.replicate 3 false) =
      { target := { track 0 tn (lifetime + 3) with vel_history_ := v, init_meas_ := im },
        object_vec := [object 2 0, object 1 0, object 0 0],
        matching_vec := List.replicate 3 true } := by
  unfold measurementValidation measurementValidationInit
  norm_num [forLoop, measurementValidationBody, nis_object, hg, track, crowdedFrame,
    List.replicate]
  ring

end Sample

namespace Sample
open ImmUkfPda

theorem secondInit_origin (t : UKF ℚ) (dt : ℚ) (h : t.x_merge_ = 0)
    (hcv : t.x_cv_ = 0) (hctrv : t.x_ctrv_ = 0) (hrm : t.x_rm_ = 0) :
    secondInit env t [object 0 0] dt =
      { t with init_meas_ := ![0, 0], tracking_num_ := t.tracking_num_ + 1 } := by
  have hyaw : normalizeYaw env (0 : ℚ) = 0 :=
    normalizeYaw_of_mem env 0 (by norm_num [env]) (by norm_num [env])
  have hsqrt : ∀ a : ℚ, env.sqrt a = a := fun _ => rfl
  have hatan : ∀ a b : ℚ, env.atan2 a b = 0 := fun _ _ => rfl
  have hupd : ∀ (i : Fin 5), Function.update (0 : Fin 5 → ℚ) i 0 = 0 := by
    intro i
    ext j
    by_cases hj : j = i
    · subst hj; simp
    · simp [Function.update_noteq hj]
  unfold secondInit
  simp [h, hcv, hctrv, hrm, object, hyaw, hsqrt, hatan, hupd]

theorem trackerBody_second_frame (dt : ℚ) :
    trackerBody env { bornState with timestamp_ := 1 } (crowdedFrame 1) dt 10 1000
      (track 0 TrackingState.Init 0) (List.replicate 3 false) =
      ({ track 0 2 3 with init_meas_ := ![0, 0] }, List.replicate 3 true) := by
  rw [trackerBody_second_init_eq env _ _ dt 10 1000 (track 0 TrackingState.Init 0)
    (List.replicate 3 false) (track 0 TrackingState.Init 0)
    { target := track 0 TrackingState.Init 3, object_vec := [object 0 0],
      matching_vec := List.replicate 3 true }
    (by simp [track, TrackingState.Init, TrackingState.Die])
    (by simp [track, Matrix.det_zero (⟨0⟩ : Nonempty (Fin 5))])
    rfl (guard_track 0 TrackingState.Init 0) rfl
    (by rw [findMaxZandS_track]; exact measurementValidation_crowdedFrame_init 1 1)]
  dsimp only
  rw [associateBB_not_stable _ _ _ _ (by simp [track, TrackingState.Init, TrackingState.Stable]),
    secondInit_origin _ _ rfl rfl rfl rfl]
  simp [track, TrackingState.Init]

end Sample

namespace Sample
open ImmUkfPda

theorem tracker_second_frame :
    tracker env 0 (crowdedFrame 1) bornState [] [] =
      { self :=
          { bornState with
              timestamp_ := 1,
              targets_ := [{ track 0 2 3 with init_meas_ := ![0, 0], vel_history_ := [0] }] },
        jskbboxes_output := [], detected_objects_output := [] } := by
  rw [tracker_single env 0 (crowdedFrame 1) bornState [] [] (track 0 TrackingState.Init 0)
    { track 0 2 3 with init_meas_ := ![0, 0] } (List.replicate 3 true) rfl rfl
    (trackerBody_second_frame _)]
  simp [makeNewTargets, forLoop, staticClassification, staticClassificationBody, makeOutput,
    makeOutputBody, removeUnnecessaryTarget, crowdedFrame, track, bornState, immUkfPda,
    ImmUkfPda.construct, TrackingState.Stable, TrackingState.Die, List.replicate]

theorem trackerBody_crowdedFrame (self : ImmUkfPda ℚ) (stamp dt : ℚ) (tn lifetime : Int)
    (v : List ℚ) (hg : self.gating_thres_ = 922 / 100) (htn : tn = 2 ∨ tn = 3) :
    trackerBody env self (crowdedFrame stamp) dt 10 1000
      { track 0 tn lifetime with init_meas_ := ![0, 0], vel_history_ := v }
      (List.replicate 3 false) =
      ({ track 0 (tn + 1) (lifetime + 3) with init_meas_ := ![0, 0], vel_history_ := v },
        List.replicate 3 true) := by
  have hyaw : normalizeYaw env (0 : ℚ) = 0 :=
    normalizeYaw_of_mem env 0 (by norm_num [env]) (by norm_num [env])
  have hupd : ∀ (l : List ℚ) (t : UKF ℚ), env.updateIMMUKF l t = t := fun _ _ => rfl
  have hfm : findMaxZandS
      ({ track 0 tn lifetime with init_meas_ := ![0, 0], vel_history_ := v } : UKF ℚ) =
      (0, 1) := by
    simp [findMaxZandS, track]
  rw [trackerBody_update_eq env self (crowdedFrame stamp) dt 10 1000
    { track 0 tn lifetime with init_meas_ := ![0, 0], vel_history_ := v }
    (List.replicate 3 false)
    { track 0 tn lifetime with init_meas_ := ![0, 0], vel_history_ := v }
    { track 0 tn (lifetime + 3) with init_meas_ := ![0, 0], vel_history_ := v }
    { track 0 (tn + 1) (lifetime + 3) with init_meas_ := ![0, 0], vel_history_ := v }
    { target := { track 0 tn (lifetime + 3) with vel_history_ := v, init_meas_ := ![0, 0] },
      object_vec := [object 2 0, object 1 0, object 0 0],
      matching_vec := List.replicate 3 true }
    (by rcases htn with h | h <;> simp [track, h, TrackingState.Die])
    (by simp [track, Matrix.det_zero (⟨0⟩ : Nonempty (Fin 5))])
    rfl
    (by rw [hfm]; norm_num [env])
    (by rcases htn with h | h <;> simp [track, h, TrackingState.Init])
    (by rw [hfm]; exact measurementValidation_crowdedFrame self stamp tn lifetime hg v ![0, 0])
    (associateBB_not_stable _ _ _ _
      (by rcases htn with h | h <;> simp [track, h, TrackingState.Stable]))
    (by rcases htn with h | h <;>
      simp [updateTrackingNum, track, h, TrackingState.Stable])
    (by rcases htn with h | h <;> simp [track, h, TrackingState.Die])]
  simp [filterPDA, filterPDAModel, track, hyaw, hupd]

end Sample

namespace Sample
open ImmUkfPda

theorem tracker_third_frame :
    tracker env 0 (crowdedFrame 2)
      { bornState with
          timestamp_ := 1,
          targets_ := [{ track 0 2 3 with init_meas_ := ![0, 0], vel_history_ := [0] }] }
      [] [] =
      { self :=
          { bornState with
              timestamp_ := 2,
              targets_ := [{ track 0 3 6 with init_meas_ := ![0, 0], vel_history_ := [0, 0] }] },
        jskbboxes_output := [], detected_objects_output := [] } := by
  rw [tracker_single env 0 (crowdedFrame 2) _ [] []
    { track 0 2 3 with init_meas_ := ![0, 0], vel_history_ := [0] }
    { track 0 (2 + 1) (3 + 3) with init_meas_ := ![0, 0], vel_history_ := [0] }
    (List.replicate 3 true) rfl rfl
    (trackerBody_crowdedFrame _ 2 _ 2 3 [0] rfl (Or.inl rfl))]
  simp [makeNewTargets, forLoop, staticClassification, staticClassificationBody, makeOutput,
    makeOutputBody, removeUnnecessaryTarget, crowdedFrame, track, bornState, immUkfPda,
    ImmUkfPda.construct, TrackingState.Stable, TrackingState.Die, List.replicate]

theorem tracker_fourth_frame :
    tracker env 0 (crowdedFrame 3)
      { bornState with
          timestamp_ := 2,
          targets_ := [{ track 0 3 6 with init_meas_ := ![0, 0], vel_history_ := [0, 0] }] }
      [] [] =
      { self :=
          { bornState with
              timestamp_ := 3,
              targets_ :=
                [{ track 0 4 9 with init_meas_ := ![0, 0], vel_history_ := [0, 0, 0] }] },
        jskbboxes_output := [], detected_objects_output := [] } := by
  rw [tracker_single env 0 (crowdedFrame 3) _ [] []
    { track 0 3 6 with init_meas_ := ![0, 0], vel_history_ := [0, 0] }
    { track 0 (3 + 1) (6 + 3) with init_meas_ := ![0, 0], vel_history_ := [0, 0] }
    (List.replicate 3 true) rfl rfl
    (trackerBody_crowdedFrame _ 3 _ 3 6 [0, 0] rfl (Or.inr rfl))]
  simp [makeNewTargets, forLoop, staticClassification, staticClassificationBody, makeOutput,
    makeOutputBody, removeUnnecessaryTarget, crowdedFrame, track, bornState, immUkfPda,
    ImmUkfPda.construct, TrackingState.Stable, TrackingState.Die, List.replicate, endAt,
    List.range']

end Sample

namespace ImmUkfPda

/-- C26 (divergence on a concrete run): four calls of `tracker` from construction, in the
environment whose IMM steps are the identity. The first frame has one detection at the
origin; each of the next three frames has the three detections `(2, 0)`, `(1, 0)`, `(0, 0)`,
all inside the gate of the track. `lifetime_` grows by 3 per frame while `vel_history_`
grows by 1, so after the fourth call the track is Stable with `lifetime_ = 9 > 8` and a
history of 3 entries, fewer than the `life_time_thres_ - 1 = 7` entries that
`staticClassification` has read in that call. -/
theorem staticClassification_history_too_short :
    (tracker Sample.env 0 (Sample.crowdedFrame 3)
      (tracker Sample.env 0 (Sample.crowdedFrame 2)
        (tracker Sample.env 0 (Sample.crowdedFrame 1)
          (tracker Sample.env 0 { stamp := 0, objects := [Sample.object 0 0] }
            Sample.immUkfPda [] []).self [] []).self [] []).self [] []).self =
      Sample.crowdedState ∧
    Reachable Sample.env Sample.crowdedState ∧
    ∃ t ∈ Sample.crowdedState.targets_,
      t.tracking_num_ = TrackingState.Stable ∧
      t.lifetime_ > Sample.crowdedState.life_time_thres_ ∧
      (t.vel_history_.length : Int) < Sample.crowdedState.life_time_thres_ - 1 := by
  have hrun : (tracker Sample.env 0 (Sample.crowdedFrame 3)
      (tracker Sample.env 0 (Sample.crowdedFrame 2)
        (tracker Sample.env 0 (Sample.crowdedFrame 1)
          (tracker Sample.env 0 { stamp := 0, objects := [Sample.object 0 0] }
            Sample.immUkfPda [] []).self [] []).self [] []).self [] []).self =
      Sample.crowdedState := by
    rw [Sample.tracker_first_frame]
    dsimp only
    rw [Sample.tracker_second_frame]
    dsimp only
    rw [Sample.tracker_third_frame]
    dsimp only
    rw [Sample.tracker_fourth_frame]
    rfl
  refine ⟨hrun, ?_, ?_⟩
  · rw [← hrun]
    exact Reachable.tick _ _ _ _ _ (Reachable.tick _ _ _ _ _ (Reachable.tick _ _ _ _ _
      (Reachable.tick _ _ _ _ _ (Reachable.construct 8 (922 / 100) (99 / 100) (9 / 10) 99
        (1 / 2) 0 0))))
  · refine ⟨_, List.mem_singleton.mpr rfl, rfl, ?_, ?_⟩
    · simp [Sample.crowdedState, Sample.bornState, Sample.immUkfPda, construct, Sample.track]
    · simp [Sample.crowdedState, Sample.bornState, Sample.immUkfPda, construct]

end ImmUkfPda

/-! ### C18: the boxes a run emits, with and without the stabilization step -/

namespace Sample
open ImmUkfPda

end Sample

namespace Sample
open ImmUkfPda

end Sample

namespace Sample
open ImmUkfPda

end Sample

namespace Sample
open ImmUkfPda

end Sample

namespace ImmUkfPda
variable {R : Type} [LinearOrderedField R]

end ImmUkfPda

namespace Sample
open ImmUkfPda

end Sample

namespace Sample
open ImmUkfPda

end Sample

namespace ImmUkfPda

end ImmUkfPda
